import Mathlib

/-!
# Button library: debounce filter and gesture classifier

Shallow embedding of `src/Button/src/Button.{h,cpp}`.

* Logic levels are `Bool`: `HIGH = true`, `LOW = false` (the values `digitalRead`
  returns and the values stored in the `bool` fields).
* `unsigned long` timestamps are natural numbers (values of `millis()`, below `2^32`); every
  subtraction of two timestamps is the 32-bit modular subtraction `sub32`, which
  `sub32_eq_emod` identifies with `(a - b) mod 2^32`.
* `digitalRead(pin)` and `millis()` are the two inputs `reading` and `now` of a poll.
-/

/-- Logic level `HIGH` of the Arduino core. -/
def HIGH : Bool := true

/-- Logic level `LOW` of the Arduino core. -/
def LOW : Bool := false

/-- Subtraction `a - b` of two `unsigned long` values, as the machine computes it. -/
def sub32 (a b : Nat) : Nat := (a + (4294967296 - b % 4294967296)) % 4294967296

/-- Fields of `class AdvancedButton` (Button.h, lines 46-71). -/
structure AdvancedButton where
  pin : Nat
  usePullup : Bool
  lastChangeTime : Nat
  pressedTime : Nat
  lastReleaseTime : Nat
  stableState : Bool
  lastStableState : Bool
  waitingSecondClick : Bool
  longPressFired : Bool
  debounceMs : Nat
  doubleClickGap : Nat
  longPressTime : Nat
  singleClick : Bool
  doubleClick : Bool
  longPress : Bool
  pressed : Bool
  released : Bool
deriving DecidableEq, Repr

namespace AdvancedButton

/-- Constructor `AdvancedButton::AdvancedButton` (Button.cpp, lines 57-80). -/
def new (pinNumber : Nat) (enablePullup : Bool) (debounce doubleClickWindow longPressThreshold : Nat) :
    AdvancedButton :=
  { pin := pinNumber
    usePullup := enablePullup
    lastChangeTime := 0
    pressedTime := 0
    lastReleaseTime := 0
    stableState := HIGH
    lastStableState := HIGH
    waitingSecondClick := false
    longPressFired := false
    debounceMs := debounce
    doubleClickGap := doubleClickWindow
    longPressTime := longPressThreshold
    singleClick := false
    doubleClick := false
    longPress := false
    pressed := false
    released := false }

/-- Method `AdvancedButton::begin` (Button.cpp, lines 82-92); `pinMode` has no effect on the object. -/
def begin (s : AdvancedButton) : AdvancedButton :=
  if s.usePullup then
    { s with stableState := HIGH, lastStableState := HIGH }
  else
    { s with stableState := LOW, lastStableState := LOW }

/-- The expression `usePullup ? (level == LOW) : (level == HIGH)` of Button.cpp, lines 111, 112, 162. -/
def pressedAt (usePullup level : Bool) : Bool :=
  if usePullup then level == LOW else level == HIGH

/-- Method `AdvancedButton::isPressed` (Button.cpp, lines 161-163). -/
def isPressed (s : AdvancedButton) : Bool :=
  pressedAt s.usePullup s.stableState

/-- Method `AdvancedButton::getPressedDuration` (Button.cpp, lines 165-168); `now` is `millis()`. -/
def getPressedDuration (s : AdvancedButton) (now : Nat) : Nat :=
  if !s.isPressed then 0 else sub32 now s.pressedTime

/-- A call of the `const` method `isPressed`: the returned value and the object after the call. -/
def callIsPressed (s : AdvancedButton) : Bool × AdvancedButton :=
  (s.isPressed, s)

/-- A call of the `const` method `getPressedDuration`: the returned value and the object after the call. -/
def callGetPressedDuration (s : AdvancedButton) (now : Nat) : Nat × AdvancedButton :=
  (s.getPressedDuration now, s)

/-- Lines 96-100 of `update`: all five event flags are cleared. -/
def clearFlags (s : AdvancedButton) : AdvancedButton :=
  { s with singleClick := false, doubleClick := false, longPress := false,
           pressed := false, released := false }

/-- Lines 132-140 of `update`: the short-press branch of a release. -/
def shortRelease (s : AdvancedButton) (now : Nat) : AdvancedButton :=
  let s1 :=
    if s.waitingSecondClick && decide (sub32 now s.lastReleaseTime ≤ s.doubleClickGap) then
      { s with doubleClick := true, waitingSecondClick := false }
    else
      { s with waitingSecondClick := true }
  { s1 with lastReleaseTime := now }

/-- Lines 114-142 of `update`: edge detection once the new stable level is stored. -/
def edgeEvents (s : AdvancedButton) (now : Nat) : AdvancedButton :=
  let currentPressed := pressedAt s.usePullup s.stableState
  let wasPressed := pressedAt s.usePullup s.lastStableState
  if currentPressed && !wasPressed then
    { s with pressed := true, pressedTime := now, longPressFired := false }
  else if !currentPressed && wasPressed then
    let s1 := { s with released := true }
    let pressDuration := sub32 now s1.pressedTime
    if decide (pressDuration ≥ s1.longPressTime) && !s1.longPressFired then
      { s1 with longPress := true, longPressFired := true, waitingSecondClick := false }
    else
      shortRelease s1 now
  else
    s

/-- Lines 106-145 of `update`: the debounce test and, on promotion, the edge processing. -/
def debounceStep (s : AdvancedButton) (reading : Bool) (now : Nat) : AdvancedButton :=
  if (reading != s.stableState) && decide (sub32 now s.lastChangeTime > s.debounceMs) then
    let s1 := { s with lastChangeTime := now, stableState := reading }
    let s2 := edgeEvents s1 now
    { s2 with lastStableState := s2.stableState }
  else
    s

/-- Lines 148-152 of `update`: long press while holding. -/
def holdCheck (s : AdvancedButton) (now : Nat) : AdvancedButton :=
  if s.isPressed && !s.longPressFired && decide (sub32 now s.pressedTime ≥ s.longPressTime) then
    { s with longPress := true, longPressFired := true, waitingSecondClick := false }
  else
    s

/-- Lines 155-158 of `update`: timeout for single click detection. -/
def clickTimeout (s : AdvancedButton) (now : Nat) : AdvancedButton :=
  if s.waitingSecondClick && decide (sub32 now s.lastReleaseTime > s.doubleClickGap) then
    { s with singleClick := true, waitingSecondClick := false }
  else
    s

/-- State of the object when control reaches line 147 of `update` (flags cleared, debounce and
edge processing done). -/
def afterEdges (s : AdvancedButton) (reading : Bool) (now : Nat) : AdvancedButton :=
  debounceStep (clearFlags s) reading now

/-- Method `AdvancedButton::update` (Button.cpp, lines 94-159); `reading` is `digitalRead(pin)` and
`now` is `millis()`. -/
def update (s : AdvancedButton) (reading : Bool) (now : Nat) : AdvancedButton :=
  clickTimeout (holdCheck (afterEdges s reading now) now) now

/-- Method `AdvancedButton::setDebounceTime`. -/
def setDebounceTime (s : AdvancedButton) (ms : Nat) : AdvancedButton :=
  { s with debounceMs := ms }

/-- Method `AdvancedButton::setDoubleClickWindow`. -/
def setDoubleClickWindow (s : AdvancedButton) (ms : Nat) : AdvancedButton :=
  { s with doubleClickGap := ms }

/-- Method `AdvancedButton::setLongPressThreshold`. -/
def setLongPressThreshold (s : AdvancedButton) (ms : Nat) : AdvancedButton :=
  { s with longPressTime := ms }

/-- The object after a sequence of polls `(reading, now)`, oldest first. -/
def pollAll (s : AdvancedButton) : List (Bool × Nat) → AdvancedButton
  | [] => s
  | p :: ps => pollAll (update s p.1 p.2) ps

/-- The objects observed after each poll of a sequence, oldest first. -/
def runPolls (s : AdvancedButton) : List (Bool × Nat) → List AdvancedButton
  | [] => []
  | p :: ps => update s p.1 p.2 :: runPolls (update s p.1 p.2) ps

/-- The polls of one press episode: the poll `(a, P)` that accepts the press, the polls `mid`
while held, and the poll `(b, R)` that accepts the release. -/
def episode (a : Bool) (P : Nat) (mid : List (Bool × Nat)) (b : Bool) (R : Nat) :
    List (Bool × Nat) :=
  (a, P) :: (mid ++ [(b, R)])

/-- Two objects agree on every field other than the five event flags. -/
def agreeOffFlags (s1 s2 : AdvancedButton) : Prop :=
  s1.pin = s2.pin ∧ s1.usePullup = s2.usePullup ∧ s1.lastChangeTime = s2.lastChangeTime ∧
  s1.pressedTime = s2.pressedTime ∧ s1.lastReleaseTime = s2.lastReleaseTime ∧
  s1.stableState = s2.stableState ∧ s1.lastStableState = s2.lastStableState ∧
  s1.waitingSecondClick = s2.waitingSecondClick ∧ s1.longPressFired = s2.longPressFired ∧
  s1.debounceMs = s2.debounceMs ∧ s1.doubleClickGap = s2.doubleClickGap ∧
  s1.longPressTime = s2.longPressTime

instance (s1 s2 : AdvancedButton) : Decidable (agreeOffFlags s1 s2) := by
  unfold agreeOffFlags; infer_instance

/-- The condition of the debounce test at line 106: the poll promotes `reading`. -/
def promotes (s : AdvancedButton) (reading : Bool) (now : Nat) : Bool :=
  (reading != s.stableState) && decide (sub32 now s.lastChangeTime > s.debounceMs)

/-- The button is held: the stable level is the pressed level, the previous stable level has
caught up with it, and the press began at `P`. -/
def Held (s : AdvancedButton) (P : Nat) : Prop :=
  s.isPressed = true ∧ s.lastStableState = s.stableState ∧ s.pressedTime = P

/-- The button is idle: the stable level is the released level and the previous stable level
has caught up with it. -/
def Idle (s : AdvancedButton) : Prop :=
  s.isPressed = false ∧ s.lastStableState = s.stableState

instance (s : AdvancedButton) (P : Nat) : Decidable (Held s P) := by
  unfold Held; infer_instance

instance (s : AdvancedButton) : Decidable (Idle s) := by
  unfold Idle; infer_instance

end AdvancedButton

namespace AdvancedButton

/-- For each poll of a sequence, oldest first, whether the debounce test at line 106 passed
(the poll promoted its sample). -/
def promotedAt (s : AdvancedButton) : List (Bool × Nat) → List Bool
  | [] => []
  | p :: ps => promotes s p.1 p.2 :: promotedAt (update s p.1 p.2) ps

end AdvancedButton

/-- Fields of `class Button` (Button.h, lines 12-18). -/
structure Button where
  pin : Nat
  usePullup : Bool
  lastChangeTime : Nat
  debounceMs : Nat
  lastStableState : Bool
  currentState : Bool
  pressedEvent : Bool
deriving DecidableEq, Repr

namespace Button

/-- Constructor `Button::Button` (Button.cpp, lines 3-5). -/
def new (pinNumber : Nat) (enablePullup : Bool) (debounce : Nat) : Button :=
  { pin := pinNumber
    usePullup := enablePullup
    lastChangeTime := 0
    debounceMs := debounce
    lastStableState := HIGH
    currentState := HIGH
    pressedEvent := false }

/-- Method `Button::begin` (Button.cpp, lines 7-16); `pinMode` has no effect on the object. -/
def begin (b : Button) : Button :=
  let b1 :=
    if b.usePullup then
      { b with lastStableState := HIGH }
    else
      { b with lastStableState := LOW }
  { b1 with currentState := b1.lastStableState }

/-- Lines 30-38 of `Button::update`: the press test on a change of the stable level. -/
def pressTest (b : Button) : Button :=
  if b.usePullup then
    if b.lastStableState == HIGH && b.currentState == LOW then
      { b with pressedEvent := true }
    else
      b
  else
    if b.lastStableState == LOW && b.currentState == HIGH then
      { b with pressedEvent := true }
    else
      b

/-- Method `Button::update` (Button.cpp, lines 18-42); `reading` is `digitalRead(pin)` and `now`
is `millis()`. -/
def update (b : Button) (reading : Bool) (now : Nat) : Button :=
  let b1 := { b with pressedEvent := false }
  let b2 :=
    if reading != b1.currentState then
      { b1 with currentState := reading, lastChangeTime := now }
    else
      b1
  if sub32 now b2.lastChangeTime > b2.debounceMs then
    if b2.lastStableState != b2.currentState then
      let b3 := pressTest b2
      { b3 with lastStableState := b3.currentState }
    else
      b2
  else
    b2

/-- Method `Button::wasPressed` (Button.cpp, lines 44-46): the returned value and the object
after the call. -/
def wasPressed (b : Button) : Bool × Button :=
  (b.pressedEvent, b)

/-- Method `Button::isPressed` (Button.cpp, lines 48-51). -/
def isPressed (b : Button) : Bool :=
  if b.usePullup then b.lastStableState == LOW else b.lastStableState == HIGH

/-- A call of the `const` method `isPressed`: the returned value and the object after the call. -/
def callIsPressed (b : Button) : Bool × Button :=
  (b.isPressed, b)

/-- The object after a sequence of polls `(reading, now)`, oldest first. -/
def pollAll (b : Button) : List (Bool × Nat) → Button
  | [] => b
  | p :: ps => pollAll (update b p.1 p.2) ps

end Button

/-- Conversion of an `int` to the `int8_t` of the pin fields (two's complement narrowing). -/
def toInt8 (x : Int) : Int := (x + 128) % 256 - 128

/-- Enumeration `LogicGateType` (DigitalLogic.h, lines 38-44). -/
inductive LogicGateType where
  | GATE_AND
  | GATE_OR
  | GATE_NOT
  | GATE_NAND
  | GATE_XOR
deriving DecidableEq, Repr

/-- Fields of `class LogicGate` (DigitalLogic.h, lines 54-58). -/
structure LogicGate where
  _pinA : Int
  _pinB : Int
  _type : LogicGateType
  _stateA : Bool
  _stateB : Bool
deriving DecidableEq, Repr

namespace LogicGate

/-- Single-input constructor `LogicGate(int pinA, LogicGateType type)` (DigitalLogic.cpp,
lines 11-14). -/
def new1 (pinA : Int) (type : LogicGateType) : LogicGate :=
  { _pinA := toInt8 pinA, _pinB := -1, _type := type, _stateA := false, _stateB := false }

/-- Two-input constructor `LogicGate(int pinA, int pinB, LogicGateType type)`
(DigitalLogic.cpp, lines 16-19). -/
def new2 (pinA pinB : Int) (type : LogicGateType) : LogicGate :=
  { _pinA := toInt8 pinA, _pinB := toInt8 pinB, _type := type, _stateA := false,
    _stateB := false }

/-- Method `LogicGate::begin` (DigitalLogic.cpp, lines 21-31); the pin writes do not touch the
object. -/
def begin (g : LogicGate) : LogicGate :=
  let g1 := { g with _stateA := false }
  if g1._pinB ≥ 0 then { g1 with _stateB := false } else g1

/-- Method `LogicGate::setInputs` (DigitalLogic.cpp, lines 33-41). -/
def setInputs (g : LogicGate) (a b : Bool) : LogicGate :=
  let g1 := { g with _stateA := a }
  if g1._pinB ≥ 0 then { g1 with _stateB := b } else g1

/-- Method `LogicGate::setA` (DigitalLogic.cpp, lines 43-46). -/
def setA (g : LogicGate) (level : Bool) : LogicGate :=
  { g with _stateA := level }

/-- Method `LogicGate::setB` (DigitalLogic.cpp, lines 48-53). -/
def setB (g : LogicGate) (level : Bool) : LogicGate :=
  if g._pinB ≥ 0 then { g with _stateB := level } else g

/-- Inline method `getA` (DigitalLogic.h, line 104). -/
def getA (g : LogicGate) : Bool := g._stateA

/-- Inline method `getB` (DigitalLogic.h, line 110). -/
def getB (g : LogicGate) : Bool := g._stateB

/-- Method `LogicGate::calculateOutput` (DigitalLogic.cpp, lines 55-76); `!=` on `bool` is the
exclusive or. -/
def calculateOutput (g : LogicGate) : Bool :=
  match g._type with
  | LogicGateType.GATE_AND => g._stateA && g._stateB
  | LogicGateType.GATE_OR => g._stateA || g._stateB
  | LogicGateType.GATE_NOT => !g._stateA
  | LogicGateType.GATE_NAND => !(g._stateA && g._stateB)
  | LogicGateType.GATE_XOR => g._stateA != g._stateB

/-- A call of one of the mutating methods of `LogicGate`. -/
inductive Op where
  | begin
  | setInputs (a b : Bool)
  | setA (level : Bool)
  | setB (level : Bool)
deriving DecidableEq, Repr

/-- The object after one method call. -/
def apply (g : LogicGate) : Op → LogicGate
  | Op.begin => g.begin
  | Op.setInputs a b => g.setInputs a b
  | Op.setA level => g.setA level
  | Op.setB level => g.setB level

/-- The object after a sequence of method calls, oldest first. -/
def applyAll (g : LogicGate) : List Op → LogicGate
  | [] => g
  | op :: ops => applyAll (g.apply op) ops

end LogicGate

/-- Numeric value of a logic level: `HIGH` is 1, `LOW` is 0. -/
def levelBit (level : Bool) : Nat := if level then 1 else 0

/-- Division of two `unsigned long` values; `none` stands for a division by zero. -/
def checkedDiv (a b : Nat) : Option Nat := if b = 0 then none else some (a / b)

/-- Fields of `class ClockGenerator` (DigitalLogic.h, lines 128-133). -/
structure ClockGenerator where
  _pin : Int
  _frequency : Nat
  _period : Nat
  _lastToggle : Nat
  _state : Bool
  _enabled : Bool
deriving DecidableEq, Repr

namespace ClockGenerator

/-- Constructor `ClockGenerator::ClockGenerator` (DigitalLogic.cpp, lines 82-85). -/
def new (pin : Int) : ClockGenerator :=
  { _pin := toInt8 pin, _frequency := 1, _period := 1000000, _lastToggle := 0,
    _state := false, _enabled := false }

/-- Method `ClockGenerator::setFrequency` (DigitalLogic.cpp, lines 94-102); the result is `none`
if the division at line 101 had a zero divisor. -/
def setFrequency (c : ClockGenerator) (frequency : Nat) : Option ClockGenerator :=
  let f1 := if frequency = 0 then 1 else frequency
  let f2 := if f1 > 1000 then 1000 else f1
  (checkedDiv 1000000 f2).map (fun p => { c with _frequency := f2, _period := p })

/-- Method `ClockGenerator::begin` (DigitalLogic.cpp, lines 87-92); the pin writes do not touch
the object. -/
def begin (c : ClockGenerator) (frequency : Nat) : Option ClockGenerator :=
  setFrequency { c with _state := false } frequency

/-- Method `ClockGenerator::start` (DigitalLogic.cpp, lines 104-109); `now` is `micros()`. -/
def start (c : ClockGenerator) (now : Nat) : ClockGenerator :=
  { c with _enabled := true, _lastToggle := now, _state := false }

/-- Method `ClockGenerator::stop` (DigitalLogic.cpp, lines 111-115). -/
def stop (c : ClockGenerator) : ClockGenerator :=
  { c with _enabled := false, _state := false }

/-- Method `ClockGenerator::pulse` (DigitalLogic.cpp, lines 117-122). -/
def pulse (c : ClockGenerator) : ClockGenerator :=
  { c with _state := false }

/-- Method `ClockGenerator::update` (DigitalLogic.cpp, lines 124-135); `now` is `micros()`. -/
def update (c : ClockGenerator) (now : Nat) : ClockGenerator :=
  if !c._enabled then c
  else
    let halfPeriod := c._period / 2
    if sub32 now c._lastToggle ≥ halfPeriod then
      { c with _state := !c._state, _lastToggle := now }
    else
      c

/-- Inline method `getFrequency` (DigitalLogic.h, line 159). -/
def getFrequency (c : ClockGenerator) : Nat := c._frequency

/-- Inline method `isRunning` (DigitalLogic.h, line 175). -/
def isRunning (c : ClockGenerator) : Bool := c._enabled

/-- A call of one of the mutating methods of `ClockGenerator`, with its argument and, where the
method reads `micros()`, the clock value. -/
inductive Op where
  | begin (frequency : Nat)
  | setFrequency (frequency : Nat)
  | start (now : Nat)
  | stop
  | pulse
  | update (now : Nat)
deriving DecidableEq, Repr

/-- The object after one method call. -/
def apply (c : ClockGenerator) : Op → Option ClockGenerator
  | Op.begin f => c.begin f
  | Op.setFrequency f => c.setFrequency f
  | Op.start now => some (c.start now)
  | Op.stop => some c.stop
  | Op.pulse => some c.pulse
  | Op.update now => some (c.update now)

/-- The object after a sequence of method calls, oldest first. -/
def applyAll (c : ClockGenerator) : List Op → Option ClockGenerator
  | [] => some c
  | op :: ops => (c.apply op).bind (fun c1 => applyAll c1 ops)

end ClockGenerator

/-- Fields of `class BCDEncoder` (DigitalLogic.h, lines 195-201). -/
structure BCDEncoder where
  _pinA : Int
  _pinB : Int
  _pinC : Int
  _pinD : Int
  _pinLT : Int
  _pinBI : Int
  _currentDigit : Nat
deriving DecidableEq, Repr

namespace BCDEncoder

/-- Constructor with the four BCD pins (DigitalLogic.cpp, lines 141-144). -/
def new4 (pinA pinB pinC pinD : Int) : BCDEncoder :=
  { _pinA := toInt8 pinA, _pinB := toInt8 pinB, _pinC := toInt8 pinC, _pinD := toInt8 pinD,
    _pinLT := -1, _pinBI := -1, _currentDigit := 0 }

/-- Constructor with all control pins (DigitalLogic.cpp, lines 146-149). -/
def new6 (pinA pinB pinC pinD pinLT pinBI : Int) : BCDEncoder :=
  { _pinA := toInt8 pinA, _pinB := toInt8 pinB, _pinC := toInt8 pinC, _pinD := toInt8 pinD,
    _pinLT := toInt8 pinLT, _pinBI := toInt8 pinBI, _currentDigit := 0 }

/-- Method `BCDEncoder::displayDigit` (DigitalLogic.cpp, lines 177-187): the object after the
call and the `digitalWrite(pin, level)` calls it makes, in order. -/
def displayDigit (e : BCDEncoder) (digit : Nat) : BCDEncoder × List (Int × Bool) :=
  let digit := if digit > 15 then 15 else digit
  ({ e with _currentDigit := digit },
    [(e._pinA, decide (digit &&& 0x01 ≠ 0)),
     (e._pinB, decide (digit &&& 0x02 ≠ 0)),
     (e._pinC, decide (digit &&& 0x04 ≠ 0)),
     (e._pinD, decide (digit &&& 0x08 ≠ 0))])

/-- Method `BCDEncoder::clear` (DigitalLogic.cpp, lines 189-197): the object after the call and
the `digitalWrite(pin, level)` calls it makes, in order. -/
def clear (e : BCDEncoder) : BCDEncoder × List (Int × Bool) :=
  let r := e.displayDigit 15
  if r.1._pinBI ≥ 0 then (r.1, r.2 ++ [(r.1._pinBI, LOW)]) else r

/-- Inline method `getCurrentDigit` (DigitalLogic.h, line 232). -/
def getCurrentDigit (e : BCDEncoder) : Nat := e._currentDigit

end BCDEncoder

/-- Fields of `class SevenSegmentMultiplex` (DigitalLogic.h, lines 352-366); the arrays are
lists. -/
structure SevenSegmentMultiplex where
  _segmentPins : List Int
  _digitPins : List Int
  _numDigits : Nat
  _displayValue : Nat
  _currentDigit : Nat
  _lastScan : Nat
  _scanInterval : Nat
  _leadingZeros : Bool
  _decimalPoint : List Bool
  _dpPin : Int
  _commonCathode : Bool
deriving DecidableEq, Repr

namespace SevenSegmentMultiplex

/-- Constructor for a 2-digit display (DigitalLogic.cpp, lines 285-306). -/
def new2 (segA segB segC segD segE segF segG dig1 dig2 : Int) (commonCathode : Bool) :
    SevenSegmentMultiplex :=
  { _segmentPins := [toInt8 segA, toInt8 segB, toInt8 segC, toInt8 segD, toInt8 segE,
      toInt8 segF, toInt8 segG]
    _digitPins := [toInt8 dig1, toInt8 dig2]
    _numDigits := 2
    _displayValue := 0
    _currentDigit := 0
    _lastScan := 0
    _scanInterval := 1000
    _leadingZeros := false
    _decimalPoint := [false, false, false, false]
    _dpPin := -1
    _commonCathode := commonCathode }

/-- Constructor for a 4-digit display (DigitalLogic.cpp, lines 308-332). -/
def new4 (segA segB segC segD segE segF segG dig1 dig2 dig3 dig4 : Int)
    (commonCathode : Bool) : SevenSegmentMultiplex :=
  { _segmentPins := [toInt8 segA, toInt8 segB, toInt8 segC, toInt8 segD, toInt8 segE,
      toInt8 segF, toInt8 segG]
    _digitPins := [toInt8 dig1, toInt8 dig2, toInt8 dig3, toInt8 dig4]
    _numDigits := 4
    _displayValue := 0
    _currentDigit := 0
    _lastScan := 0
    _scanInterval := 1000
    _leadingZeros := false
    _decimalPoint := [false, false, false, false]
    _dpPin := -1
    _commonCathode := commonCathode }

/-- Lines 406-422 of `update`: the local array `digits` (two entries are written on a 2-digit
display, four otherwise); `-1` is a blank. -/
def scanDigits (s : SevenSegmentMultiplex) : List Int :=
  let value := s._displayValue
  if s._numDigits = 2 then
    let d1 : Int := (value % 10 : Nat)
    let d0 : Int := ((value / 10) % 10 : Nat)
    let d0 := if !s._leadingZeros && d0 == 0 && decide (value < 10) then -1 else d0
    [d0, d1]
  else
    let d3 : Int := (value % 10 : Nat)
    let d2 : Int := ((value / 10) % 10 : Nat)
    let d1 : Int := ((value / 100) % 10 : Nat)
    let d0 : Int := ((value / 1000) % 10 : Nat)
    if !s._leadingZeros then
      let d0 := if value < 1000 then -1 else d0
      let d1 := if value < 100 then -1 else d1
      let d2 := if value < 10 then -1 else d2
      [d0, d1, d2, d3]
    else
      [d0, d1, d2, d3]

/-- Method `SevenSegmentMultiplex::update` (DigitalLogic.cpp, lines 398-427); `now` is
`micros()`. Returns the object after the call and the argument of the call of `displayDigit`
(`none` when it is not yet time to scan, or when `digits[_currentDigit]` was never written). -/
def update (s : SevenSegmentMultiplex) (now : Nat) : SevenSegmentMultiplex × Option Int :=
  if sub32 now s._lastScan < s._scanInterval then (s, none)
  else
    let s1 := { s with _lastScan := now }
    let digits := scanDigits s1
    let shown := digits.get? s1._currentDigit
    ({ s1 with _currentDigit := (s1._currentDigit + 1) % s1._numDigits }, shown)

/-- Method `SevenSegmentMultiplex::showNumber` (DigitalLogic.cpp, lines 429-438). -/
def showNumber (s : SevenSegmentMultiplex) (value : Nat) : SevenSegmentMultiplex :=
  let value :=
    if s._numDigits = 2 ∧ value > 99 then 99
    else if s._numDigits = 4 ∧ value > 9999 then 9999
    else value
  { s with _displayValue := value }

/-- Inline method `getNumber` (DigitalLogic.h, line 443). -/
def getNumber (s : SevenSegmentMultiplex) : Nat := s._displayValue

/-- Method `SevenSegmentMultiplex::setLeadingZeros` (DigitalLogic.cpp, lines 440-442). -/
def setLeadingZeros (s : SevenSegmentMultiplex) (enable : Bool) : SevenSegmentMultiplex :=
  { s with _leadingZeros := enable }

/-- Method `SevenSegmentMultiplex::showTime` (DigitalLogic.cpp, lines 469-481); the sum is
stored in a `uint16_t`. -/
def showTime (s : SevenSegmentMultiplex) (hours minutes : Nat) : SevenSegmentMultiplex :=
  if s._numDigits ≠ 4 then s
  else
    let hours := if hours > 23 then 23 else hours
    let minutes := if minutes > 59 then 59 else minutes
    { s with _displayValue := (hours * 100 + minutes) % 65536 }

end SevenSegmentMultiplex

/-- Fields of `class RelayController` (RelayController.h, lines 23-25). -/
structure RelayController where
  pin : Nat
  state : Bool
  inverted : Bool
deriving DecidableEq, Repr

namespace RelayController

/-- Constructor `RelayController::RelayController` (RelayController.cpp, lines 3-5). -/
def new (pinNumber : Nat) (invertLogic : Bool) : RelayController :=
  { pin := pinNumber, state := false, inverted := invertLogic }

/-- Method `RelayController::on` (RelayController.cpp, lines 12-19; `on` is reserved in
Lean, hence `turnOn`): the object after the call
and the level it writes to the pin. -/
def turnOn (r : RelayController) : RelayController × Bool :=
  let r1 := { r with state := true }
  if r1.inverted then (r1, LOW) else (r1, HIGH)

/-- Method `RelayController::off` (RelayController.cpp, lines 21-28): the object after the call
and the level it writes to the pin. -/
def turnOff (r : RelayController) : RelayController × Bool :=
  let r1 := { r with state := false }
  if r1.inverted then (r1, HIGH) else (r1, LOW)

/-- Method `RelayController::begin` (RelayController.cpp, lines 7-10). -/
def begin (r : RelayController) : RelayController × Bool :=
  r.turnOff

/-- Method `RelayController::toggle` (RelayController.cpp, lines 30-36). -/
def toggle (r : RelayController) : RelayController × Bool :=
  if r.state then r.turnOff else r.turnOn

/-- Method `RelayController::isOn` (RelayController.cpp, lines 38-40). -/
def isOn (r : RelayController) : Bool := r.state

/-- Method `RelayController::setState` (RelayController.cpp, lines 42-48). -/
def setState (r : RelayController) (newState : Bool) : RelayController × Bool :=
  if newState then r.turnOn else r.turnOff

/-- A call of `on`, `off`, `toggle` or `setState`. -/
inductive Op where
  | turnOn
  | turnOff
  | toggle
  | setState (newState : Bool)
deriving DecidableEq, Repr

/-- The object after one method call and the level it writes to the pin. -/
def apply (r : RelayController) : Op → RelayController × Bool
  | Op.turnOn => r.turnOn
  | Op.turnOff => r.turnOff
  | Op.toggle => r.toggle
  | Op.setState b => r.setState b

/-- The object and the last level written to the pin after a sequence of method calls, oldest
first, starting from an object and the level last written. -/
def applyAll (w : RelayController × Bool) : List Op → RelayController × Bool
  | [] => w
  | op :: ops => applyAll (w.1.apply op) ops

end RelayController

/-- Fields of `class LEDController` (LEDController.h, lines 13-17). -/
structure LEDController where
  pin : Nat
  state : Bool
  blinking : Bool
  interval : Nat
  lastToggle : Nat
deriving DecidableEq, Repr

namespace LEDController

/-- Constructor `LEDController::LEDController` (LEDController.cpp, lines 3-5). -/
def new (pinNumber : Nat) : LEDController :=
  { pin := pinNumber, state := false, blinking := false, interval := 500, lastToggle := 0 }

/-- Method `LEDController::on` (LEDController.cpp, lines 12-16; `on` is reserved in Lean,
hence `turnOn`): the object after the call and
the level it writes to the pin, if any. -/
def turnOn (l : LEDController) : LEDController × Option Bool :=
  ({ l with state := true, blinking := false }, some HIGH)

/-- Method `LEDController::off` (LEDController.cpp, lines 18-22). -/
def turnOff (l : LEDController) : LEDController × Option Bool :=
  ({ l with state := false, blinking := false }, some LOW)

/-- Method `LEDController::begin` (LEDController.cpp, lines 7-10). -/
def begin (l : LEDController) : LEDController × Option Bool :=
  l.turnOff

/-- Method `LEDController::toggle` (LEDController.cpp, lines 24-28). -/
def toggle (l : LEDController) : LEDController × Option Bool :=
  let l1 := { l with state := !l.state }
  let l2 := { l1 with blinking := false }
  (l2, some (if l2.state then HIGH else LOW))

/-- Method `LEDController::startBlink` (LEDController.cpp, lines 30-34); `now` is `millis()`. -/
def startBlink (l : LEDController) (ms now : Nat) : LEDController × Option Bool :=
  ({ l with interval := ms, blinking := true, lastToggle := now }, none)

/-- Method `LEDController::stopBlink` (LEDController.cpp, lines 36-39). -/
def stopBlink (l : LEDController) : LEDController × Option Bool :=
  let l1 := { l with blinking := false }
  (l1, some (if l1.state then HIGH else LOW))

/-- Method `LEDController::update` (LEDController.cpp, lines 41-50); `now` is `millis()`. -/
def update (l : LEDController) (now : Nat) : LEDController × Option Bool :=
  if l.blinking then
    if sub32 now l.lastToggle ≥ l.interval then
      let l1 := { l with lastToggle := now }
      let l2 := { l1 with state := !l1.state }
      (l2, some (if l2.state then HIGH else LOW))
    else
      (l, none)
  else
    (l, none)

/-- Method `LEDController::isOn` (LEDController.cpp, lines 52-54). -/
def isOn (l : LEDController) : Bool := l.state

/-- A call of one of the methods of `LEDController`, with its argument and, where the method
reads `millis()`, the clock value. -/
inductive Op where
  | turnOn
  | turnOff
  | toggle
  | startBlink (ms now : Nat)
  | stopBlink
  | update (now : Nat)
deriving DecidableEq, Repr

/-- The object after one method call and the level it writes to the pin, if any. -/
def apply (l : LEDController) : Op → LEDController × Option Bool
  | Op.turnOn => l.turnOn
  | Op.turnOff => l.turnOff
  | Op.toggle => l.toggle
  | Op.startBlink ms now => l.startBlink ms now
  | Op.stopBlink => l.stopBlink
  | Op.update now => l.update now

/-- The object and the last level written to the pin after a sequence of method calls, oldest
first, starting from an object and the level last written (`none` before any write). -/
def applyAll (w : LEDController × Option Bool) : List Op → LEDController × Option Bool
  | [] => w
  | op :: ops => applyAll ((w.1.apply op).1, ((w.1.apply op).2).orElse (fun _ => w.2)) ops

end LEDController

/-- Enumeration `TemperatureSensor::TempLevel` (TemperatureSensor.h, lines 27-31). -/
inductive TempLevel where
  | TEMP_COOL
  | TEMP_WARM
  | TEMP_HOT
deriving DecidableEq, Repr

/-- Fields of `class TemperatureSensor` (TemperatureSensor.h, lines 34-43) without the driver
pointer; the `float` fields are exact rationals. -/
structure TemperatureSensor where
  pin : Nat
  type : Nat
  lastTemp : ℚ
  lastHumidity : ℚ
  lastReadValid : Bool
  tempHigh : ℚ
  tempLow : ℚ

namespace TemperatureSensor

/-- Method `TemperatureSensor::getTemperatureLevel` (TemperatureSensor.cpp, lines 59-67). -/
def getTemperatureLevel (s : TemperatureSensor) (coolMax warmMax : ℚ) : TempLevel :=
  if s.lastTemp < coolMax then TempLevel.TEMP_COOL
  else if s.lastTemp < warmMax then TempLevel.TEMP_WARM
  else TempLevel.TEMP_HOT

/-- Method `TemperatureSensor::getTemperatureLevelString` (TemperatureSensor.cpp, lines
69-76). -/
def getTemperatureLevelString (s : TemperatureSensor) (coolMax warmMax : ℚ) : String :=
  match s.getTemperatureLevel coolMax warmMax with
  | TempLevel.TEMP_COOL => "COOL"
  | TempLevel.TEMP_WARM => "WARM"
  | TempLevel.TEMP_HOT => "HOT"

end TemperatureSensor

/-! ## Arithmetic of 32-bit timestamps -/

theorem sub32_self (a : Nat) : sub32 a a = 0 := by
  unfold sub32; omega

theorem sub32_eq_sub (a b : Nat) (hba : b ≤ a) (ha : a < 4294967296) : sub32 a b = a - b := by
  unfold sub32; omega

theorem sub32_eq_emod (a b : Nat) :
    (sub32 a b : Int) = ((a : Int) - (b : Int)) % 4294967296 := by
  unfold sub32; omega

theorem sub32_lt (a b : Nat) : sub32 a b < 4294967296 := by
  unfold sub32; omega

namespace AdvancedButton

/-! ## One poll, case by case -/

theorem update_config (s : AdvancedButton) (r : Bool) (t : Nat) :
    (update s r t).longPressTime = s.longPressTime ∧
    (update s r t).doubleClickGap = s.doubleClickGap ∧
    (update s r t).debounceMs = s.debounceMs ∧
    (update s r t).usePullup = s.usePullup ∧
    (update s r t).pin = s.pin := by
  simp only [update, clickTimeout, holdCheck, afterEdges, debounceStep, clearFlags, edgeEvents,
    shortRelease]
  (repeat' split) <;> simp_all

theorem edgeEvents_stableState (s : AdvancedButton) (t : Nat) :
    (edgeEvents s t).stableState = s.stableState := by
  simp only [edgeEvents, shortRelease]
  (repeat' split) <;> rfl

theorem update_of_not_promotes (s : AdvancedButton) (r : Bool) (t : Nat)
    (h : promotes s r t = false) :
    update s r t = clickTimeout (holdCheck (clearFlags s) t) t := by
  have : debounceStep (clearFlags s) r t = clearFlags s := by
    unfold debounceStep
    rw [if_neg]
    simpa [promotes, clearFlags] using h
  simp only [update, afterEdges, this]

theorem update_of_promotes (s : AdvancedButton) (r : Bool) (t : Nat)
    (h : promotes s r t = true) :
    update s r t =
      clickTimeout (holdCheck
        { edgeEvents { clearFlags s with lastChangeTime := t, stableState := r } t with
          lastStableState := r } t) t := by
  have : debounceStep (clearFlags s) r t =
      { edgeEvents { clearFlags s with lastChangeTime := t, stableState := r } t with
          lastStableState := r } := by
    unfold debounceStep
    rw [if_pos (by simpa [promotes, clearFlags] using h)]
    simp only [edgeEvents_stableState]
  simp only [update, afterEdges, this]

theorem pressed_step (s : AdvancedButton) (r : Bool) (t : Nat)
    (h : (update s r t).pressed = true) :
    Held (update s r t) t ∧
    (update s r t).released = false ∧
    (update s r t).doubleClick = false ∧
    (update s r t).lastReleaseTime = s.lastReleaseTime ∧
    (update s r t).longPress = decide (s.longPressTime = 0) ∧
    (update s r t).longPressFired = decide (s.longPressTime = 0) ∧
    (update s r t).singleClick =
      (s.waitingSecondClick && !decide (s.longPressTime = 0) &&
        decide (s.doubleClickGap < sub32 t s.lastReleaseTime)) ∧
    (update s r t).waitingSecondClick =
      (s.waitingSecondClick && !decide (s.longPressTime = 0) &&
        !decide (s.doubleClickGap < sub32 t s.lastReleaseTime)) := by
  have h0 := sub32_self t
  cases hp : promotes s r t
  · rw [update_of_not_promotes s r t hp] at h
    simp only [clickTimeout, holdCheck, clearFlags] at h
    revert h
    (repeat' split) <;> simp
  · rw [update_of_promotes s r t hp] at h ⊢
    rcases s with ⟨pin, up, lct, pt, lrt, st, lst, w, f, d, g, L, sc, dc, lp, pr, rl⟩
    simp only [] at hp h ⊢
    cases hc : pressedAt up r <;> cases hw : pressedAt up lst
    · simp [clickTimeout, holdCheck, clearFlags, edgeEvents, shortRelease, isPressed, hc, hw] at h
      revert h; split <;> simp
    · exfalso
      by_cases hl : L ≤ sub32 t pt <;> cases f <;> cases w <;> by_cases hd : sub32 t lrt ≤ g <;>
      simp [clickTimeout, holdCheck, clearFlags, edgeEvents, shortRelease, isPressed, hc, hw, hl, hd, h0] at h
    · by_cases hL : L = 0 <;> cases w <;> by_cases hg : g < sub32 t lrt <;>
      simp [clickTimeout, holdCheck, clearFlags, edgeEvents, shortRelease, isPressed, hc, hw, hL, hg, h0, Held]
    · simp [clickTimeout, holdCheck, clearFlags, edgeEvents, shortRelease, isPressed, hc, hw] at h
      revert h; (repeat' split) <;> simp

theorem held_step (s : AdvancedButton) (r : Bool) (t P : Nat) (hs : Held s P) :
    (update s r t).pressed = false ∧
    (update s r t).released = promotes s r t ∧
    (update s r t).longPress =
      (!s.longPressFired && decide (s.longPressTime ≤ sub32 t P)) ∧
    (update s r t).longPressFired =
      (s.longPressFired || decide (s.longPressTime ≤ sub32 t P)) ∧
    ((update s r t).released = false →
      Held (update s r t) P ∧
      (update s r t).doubleClick = false ∧
      (update s r t).lastReleaseTime = s.lastReleaseTime ∧
      (update s r t).singleClick =
        (s.waitingSecondClick && !(update s r t).longPress &&
          decide (s.doubleClickGap < sub32 t s.lastReleaseTime)) ∧
      (update s r t).waitingSecondClick =
        (s.waitingSecondClick && !(update s r t).longPress &&
          !decide (s.doubleClickGap < sub32 t s.lastReleaseTime))) ∧
    ((update s r t).released = true →
      Idle (update s r t) ∧
      (update s r t).singleClick = false ∧
      ((update s r t).longPress = true →
        (update s r t).waitingSecondClick = false ∧
        (update s r t).doubleClick = false ∧
        (update s r t).lastReleaseTime = s.lastReleaseTime) ∧
      ((update s r t).longPress = false →
        (update s r t).lastReleaseTime = t ∧
        (update s r t).doubleClick =
          (s.waitingSecondClick && decide (sub32 t s.lastReleaseTime ≤ s.doubleClickGap)) ∧
        (update s r t).waitingSecondClick =
          !(s.waitingSecondClick && decide (sub32 t s.lastReleaseTime ≤ s.doubleClickGap)))) := by
  have h0 := sub32_self t
  obtain ⟨hp1, hp2, hp3⟩ := hs
  cases hp : promotes s r t
  · rw [update_of_not_promotes s r t hp]
    rcases s with ⟨pin, up, lct, pt, lrt, st, lst, w, f, d, g, L, sc, dc, lp, pr, rl⟩
    simp only [isPressed] at hp1 hp2 hp3 ⊢
    subst hp2 hp3
    by_cases hl : L ≤ sub32 t pt <;> cases f <;> cases w <;> by_cases hg : g < sub32 t lrt <;>
      simp [clickTimeout, holdCheck, clearFlags, isPressed, hp1, hl, hg, Held]
  · rw [update_of_promotes s r t hp]
    rcases s with ⟨pin, up, lct, pt, lrt, st, lst, w, f, d, g, L, sc, dc, lp, pr, rl⟩
    simp only [isPressed] at hp1 hp2 hp3 ⊢
    subst hp2 hp3
    have hc : pressedAt up r = false := by
      simp only [promotes] at hp
      revert hp hp1
      cases up <;> cases r <;> cases lst <;> simp [pressedAt, HIGH, LOW]
    by_cases hl : L ≤ sub32 t pt <;> cases f <;> cases w <;> by_cases hd : sub32 t lrt ≤ g <;>
      simp [clickTimeout, holdCheck, clearFlags, edgeEvents, shortRelease, isPressed, hp1, hc, hl,
        hd, h0, Idle]

theorem idle_step (s : AdvancedButton) (r : Bool) (t : Nat) (hs : Idle s) :
    (update s r t).released = false ∧
    (update s r t).pressed = promotes s r t ∧
    (update s r t).doubleClick = false ∧
    ((update s r t).pressed = false →
      Idle (update s r t) ∧
      (update s r t).longPress = false ∧
      (update s r t).longPressFired = s.longPressFired ∧
      (update s r t).pressedTime = s.pressedTime ∧
      (update s r t).lastReleaseTime = s.lastReleaseTime ∧
      (update s r t).singleClick =
        (s.waitingSecondClick && decide (s.doubleClickGap < sub32 t s.lastReleaseTime)) ∧
      (update s r t).waitingSecondClick =
        (s.waitingSecondClick && !decide (s.doubleClickGap < sub32 t s.lastReleaseTime))) := by
  have h0 := sub32_self t
  obtain ⟨hp1, hp2⟩ := hs
  cases hp : promotes s r t
  · rw [update_of_not_promotes s r t hp]
    rcases s with ⟨pin, up, lct, pt, lrt, st, lst, w, f, d, g, L, sc, dc, lp, pr, rl⟩
    simp only [isPressed] at hp1 hp2 ⊢
    subst hp2
    cases w <;> by_cases hg : g < sub32 t lrt <;>
      simp [clickTimeout, holdCheck, clearFlags, isPressed, hp1, hg, Idle]
  · rw [update_of_promotes s r t hp]
    rcases s with ⟨pin, up, lct, pt, lrt, st, lst, w, f, d, g, L, sc, dc, lp, pr, rl⟩
    simp only [isPressed] at hp1 hp2 ⊢
    subst hp2
    have hc : pressedAt up r = true := by
      simp only [promotes] at hp
      revert hp hp1
      cases up <;> cases r <;> cases lst <;> simp [pressedAt, HIGH, LOW]
    by_cases hL : L = 0 <;> cases w <;> by_cases hg : g < sub32 t lrt <;>
      simp [clickTimeout, holdCheck, clearFlags, edgeEvents, shortRelease, isPressed, hp1, hc, hL,
        hg, h0]

/-- The two stable-level fields agree after `begin`. -/
theorem begin_levels_agree (s : AdvancedButton) :
    (begin s).lastStableState = (begin s).stableState := by
  unfold begin
  split <;> rfl

/-- Every poll keeps the two stable-level fields in agreement. -/
theorem update_levels_agree (s : AdvancedButton) (r : Bool) (t : Nat)
    (h : s.lastStableState = s.stableState) :
    (update s r t).lastStableState = (update s r t).stableState := by
  cases hp : (update s r t).pressed
  · cases hi : s.isPressed
    · exact ((idle_step s r t ⟨hi, h⟩).2.2.2 hp).1.2
    · obtain ⟨-, -, -, -, h5, h6⟩ := held_step s r t s.pressedTime ⟨hi, h, rfl⟩
      cases hr : (update s r t).released
      · exact (h5 hr).1.2.1
      · exact (h6 hr).1.2
  · exact (pressed_step s r t hp).1.2.1

/-- C1. Debounce rule of `update`: the stable level becomes the sample and the reference time
becomes `now` exactly when the sample differs from the stable level and the 32-bit elapsed time
since the last promotion is strictly greater than `debounceMs`; otherwise both are unchanged. -/
theorem update_debounce_rule (s : AdvancedButton) (reading : Bool) (now : Nat) :
    ((update s reading now).stableState =
        if reading ≠ s.stableState ∧ sub32 now s.lastChangeTime > s.debounceMs then reading
        else s.stableState) ∧
    ((update s reading now).lastChangeTime =
        if reading ≠ s.stableState ∧ sub32 now s.lastChangeTime > s.debounceMs then now
        else s.lastChangeTime) := by
  simp only [update, clickTimeout, holdCheck, afterEdges, debounceStep, clearFlags, edgeEvents,
    shortRelease]
  by_cases h1 : reading = s.stableState <;> by_cases h2 : sub32 now s.lastChangeTime > s.debounceMs
    <;> simp [h1, h2] <;> (repeat' split) <;> simp_all

/-! ## Sequences of polls -/

theorem pollAll_append (s : AdvancedButton) (a b : List (Bool × Nat)) :
    pollAll s (a ++ b) = pollAll (pollAll s a) b := by
  induction a generalizing s with
  | nil => rfl
  | cons p ps ih => simp [pollAll, ih]

theorem runPolls_append (s : AdvancedButton) (a b : List (Bool × Nat)) :
    runPolls s (a ++ b) = runPolls s a ++ runPolls (pollAll s a) b := by
  induction a generalizing s with
  | nil => rfl
  | cons p ps ih => simp [pollAll, runPolls, ih]

theorem pollAll_config (s : AdvancedButton) (ps : List (Bool × Nat)) :
    (pollAll s ps).longPressTime = s.longPressTime ∧
    (pollAll s ps).doubleClickGap = s.doubleClickGap := by
  induction ps generalizing s with
  | nil => exact ⟨rfl, rfl⟩
  | cons p ps ih =>
    have h := update_config s p.1 p.2
    simp only [pollAll]
    rw [(ih _).1, (ih _).2]
    exact ⟨h.1, h.2.1⟩

/-- While the button is held and no release is accepted, it stays held and the latch
`longPressFired` records whether some poll so far reached the threshold. -/
theorem held_segment (P L : Nat) (mid : List (Bool × Nat)) (s : AdvancedButton)
    (hs : Held s P) (hL : s.longPressTime = L)
    (hmid : ∀ x ∈ runPolls s mid, x.released = false) :
    Held (pollAll s mid) P ∧
    (pollAll s mid).longPressFired =
      (s.longPressFired || mid.any (fun p => decide (L ≤ sub32 p.2 P))) := by
  induction mid generalizing s with
  | nil => simp [pollAll, hs]
  | cons p ps ih =>
    simp only [runPolls, List.mem_cons, forall_eq_or_imp] at hmid
    obtain ⟨h1, h2, h3, h4, h5, h6⟩ := held_step s p.1 p.2 P hs
    have hc := update_config s p.1 p.2
    have := ih (update s p.1 p.2) (h5 hmid.1).1 (by rw [hc.1, hL]) hmid.2
    simp only [pollAll, List.any_cons]
    rw [this.2, h4, hL, Bool.or_assoc]
    exact ⟨this.1, rfl⟩

/-- Number of polls that emit `longPress` from a held state up to and including the poll `last`
that follows a release-free stretch: one if the latch is clear and some poll reaches the
threshold, none otherwise. -/
theorem held_countP (P L : Nat) (mid : List (Bool × Nat)) (s : AdvancedButton)
    (hs : Held s P) (hL : s.longPressTime = L)
    (hmid : ∀ x ∈ runPolls s mid, x.released = false) (last : Bool × Nat) :
    (runPolls s (mid ++ [last])).countP (fun x => x.longPress) =
      if (!s.longPressFired && (mid ++ [last]).any (fun p => decide (L ≤ sub32 p.2 P))) = true
      then 1 else 0 := by
  induction mid generalizing s with
  | nil =>
    obtain ⟨h1, h2, h3, h4, h5, h6⟩ := held_step s last.1 last.2 P hs
    simp only [List.nil_append, runPolls, List.countP_cons, List.countP_nil, List.any_cons,
      List.any_nil, Bool.or_false, h3, hL]
    by_cases hq : L ≤ sub32 last.2 P
    · simp only [decide_eq_true hq]
      cases hf : s.longPressFired <;> rfl
    · simp only [decide_eq_false hq]
      cases hf : s.longPressFired <;> rfl
  | cons p ps ih =>
    simp only [runPolls, List.mem_cons, forall_eq_or_imp] at hmid
    obtain ⟨h1, h2, h3, h4, h5, h6⟩ := held_step s p.1 p.2 P hs
    have hc := update_config s p.1 p.2
    have := ih (update s p.1 p.2) (h5 hmid.1).1 (by rw [hc.1, hL]) hmid.2
    rw [List.cons_append]
    simp only [runPolls, List.countP_cons]
    rw [this, h3, h4, hL]
    simp only [List.any_cons]
    by_cases hq : L ≤ sub32 p.2 P
    · simp only [decide_eq_true hq]
      cases hf : s.longPressFired <;> rfl
    · simp only [decide_eq_false hq]
      cases hf : s.longPressFired <;> rfl

/-- Within a held stretch ended by the poll `last`, a poll emits `longPress` exactly when the
latch was clear at the start, no earlier poll reached the threshold, and this one does. -/
theorem held_longPress_at (P L : Nat) (mid : List (Bool × Nat)) (s : AdvancedButton)
    (hs : Held s P) (hL : s.longPressTime = L)
    (hmid : ∀ x ∈ runPolls s mid, x.released = false) (last : Bool × Nat)
    (pre : List (Bool × Nat)) (x : Bool × Nat) (post : List (Bool × Nat))
    (hsplit : mid ++ [last] = pre ++ x :: post) :
    (update (pollAll s pre) x.1 x.2).longPress =
      (!s.longPressFired && !pre.any (fun p => decide (L ≤ sub32 p.2 P)) &&
        decide (L ≤ sub32 x.2 P)) := by
  induction mid generalizing s pre with
  | nil =>
    cases pre with
    | nil =>
      simp only [List.nil_append, List.cons.injEq] at hsplit
      obtain ⟨h1, h2, h3, h4, h5, h6⟩ := held_step s x.1 x.2 P hs
      simp [pollAll, h3, hL]
    | cons q qs =>
      simp at hsplit
  | cons p ps ih =>
    simp only [runPolls, List.mem_cons, forall_eq_or_imp] at hmid
    obtain ⟨h1, h2, h3, h4, h5, h6⟩ := held_step s p.1 p.2 P hs
    have hc := update_config s p.1 p.2
    cases pre with
    | nil =>
      simp only [List.nil_append, List.cons_append, List.cons.injEq] at hsplit
      obtain ⟨g1, g2, g3, g4, g5, g6⟩ := held_step s x.1 x.2 P hs
      simp [pollAll, g3, hL]
    | cons q qs =>
      simp only [List.cons_append, List.cons.injEq] at hsplit
      obtain ⟨hq, hrest⟩ := hsplit
      subst hq
      have := ih (update s p.1 p.2) (h5 hmid.1).1 (by rw [hc.1, hL]) hmid.2 qs hrest
      simp only [pollAll, this, h4, hL, List.any_cons]
      by_cases hq : L ≤ sub32 p.2 P
      · simp only [decide_eq_true hq]
        cases hf : s.longPressFired <;> rfl
      · simp only [decide_eq_false hq]
        cases hf : s.longPressFired <;> rfl

/-- While the button is idle and no pressed edge is accepted, it stays idle and no poll emits
`longPress`, `doubleClick` or `released`. -/
theorem idle_segment (ps : List (Bool × Nat)) (s : AdvancedButton) (hs : Idle s)
    (hps : ∀ x ∈ runPolls s ps, x.pressed = false) :
    Idle (pollAll s ps) ∧
    ∀ x ∈ runPolls s ps, x.longPress = false ∧ x.doubleClick = false ∧ x.released = false := by
  induction ps generalizing s with
  | nil => simp [pollAll, runPolls, hs]
  | cons p ps ih =>
    simp only [runPolls, List.mem_cons, forall_eq_or_imp] at hps ⊢
    obtain ⟨h1, h2, h3, h4⟩ := idle_step s p.1 p.2 hs
    obtain ⟨g1, g2, g3⟩ := h4 hps.1
    have := ih (update s p.1 p.2) g1 hps.2
    exact ⟨this.1, ⟨g2, h3, h1⟩, this.2⟩

theorem episode_bounds (P R : Nat) (mid : List (Bool × Nat))
    (h : List.Sorted (fun a b => a ≤ b) (P :: (mid.map Prod.snd ++ [R]))) :
    P ≤ R ∧ ∀ p ∈ mid, P ≤ p.2 ∧ p.2 ≤ R := by
  simp only [List.Sorted, List.pairwise_cons, List.pairwise_append, List.mem_append,
    List.mem_map, List.mem_singleton] at h
  obtain ⟨h1, h2, h3, h4⟩ := h
  refine ⟨h1 R (Or.inr rfl), fun p hp => ⟨h1 p.2 (Or.inl ⟨p, hp, rfl⟩), ?_⟩⟩
  exact h4 p.2 ⟨p, hp, rfl⟩ R rfl

/-- C2. Press episode of `AdvancedButton` between the poll at time `P` that emits `pressed` and
the next poll, at time `R`, that emits `released`, with non-decreasing times that do not wrap:
a poll of the episode emits `longPress` exactly when it is the first poll of the episode whose
time `t` satisfies `t - P >= longPressTime`; if `R - P >= longPressTime` exactly one poll of the
episode emits `longPress`; if `R - P < longPressTime` none does; and no poll after the release
and before the next pressed edge emits `longPress`. -/
theorem longPress_once_per_episode (s0 : AdvancedButton) (r0 : Bool) (P : Nat)
    (mid : List (Bool × Nat)) (rk : Bool) (R : Nat) (rest : List (Bool × Nat))
    (hsorted : List.Sorted (fun a b => a ≤ b) (P :: (mid.map Prod.snd ++ [R])))
    (hR : R < 4294967296)
    (hpress : (update s0 r0 P).pressed = true)
    (hmid : ∀ x ∈ runPolls (update s0 r0 P) mid, x.released = false)
    (hrel : (pollAll s0 ((r0, P) :: (mid ++ [(rk, R)]))).released = true)
    (hrest : ∀ x ∈ runPolls (pollAll s0 ((r0, P) :: (mid ++ [(rk, R)]))) rest,
      x.pressed = false) :
    (∀ pre x post, (r0, P) :: (mid ++ [(rk, R)]) = pre ++ x :: post →
      ((update (pollAll s0 pre) x.1 x.2).longPress = true ↔
        (s0.longPressTime ≤ x.2 - P ∧ ∀ p ∈ pre, p.2 - P < s0.longPressTime))) ∧
    (s0.longPressTime ≤ R - P →
      (runPolls s0 ((r0, P) :: (mid ++ [(rk, R)]))).countP (fun x => x.longPress) = 1) ∧
    (R - P < s0.longPressTime →
      ∀ x ∈ runPolls s0 ((r0, P) :: (mid ++ [(rk, R)])), x.longPress = false) ∧
    (∀ x ∈ runPolls (pollAll s0 ((r0, P) :: (mid ++ [(rk, R)]))) rest, x.longPress = false) := by
  obtain ⟨hPR, hb⟩ := episode_bounds P R mid hsorted
  obtain ⟨p1, p2, p3, p4, p5, p6, p7, p8⟩ := pressed_step s0 r0 P hpress
  have hc := update_config s0 r0 P
  -- on the episode, 32-bit elapsed time is plain subtraction
  have hq : ∀ p ∈ mid ++ [(rk, R)], sub32 p.2 P = p.2 - P ∧ p.2 - P ≤ R - P := by
    intro p hp
    rcases List.mem_append.1 hp with hp | hp
    · obtain ⟨a, b⟩ := hb p hp
      exact ⟨sub32_eq_sub _ _ a (by omega), by omega⟩
    · simp only [List.mem_singleton] at hp
      subst hp
      exact ⟨sub32_eq_sub _ _ hPR hR, le_refl _⟩
  have hany : ∀ l : List (Bool × Nat), (∀ p ∈ l, p ∈ mid ++ [(rk, R)]) →
      l.any (fun p => decide (s0.longPressTime ≤ sub32 p.2 P)) =
        l.any (fun p => decide (s0.longPressTime ≤ p.2 - P)) := by
    intro l hl
    induction l with
    | nil => rfl
    | cons a l ih =>
      simp only [List.any_cons]
      rw [(hq a (hl a (List.mem_cons_self _ _))).1,
        ih (fun p hp => hl p (List.mem_cons_of_mem _ hp))]
  have hcount := held_countP P s0.longPressTime mid (update s0 r0 P) p1 hc.1 hmid (rk, R)
  refine ⟨?_, ?_, ?_, ?_⟩
  · intro pre x post hsplit
    cases pre with
    | nil =>
      simp only [List.nil_append, List.cons.injEq] at hsplit
      obtain ⟨hx, _⟩ := hsplit
      subst hx
      simp [pollAll, p5]
    | cons q qs =>
      simp only [List.cons_append, List.cons.injEq] at hsplit
      obtain ⟨hx, hsplit⟩ := hsplit
      subst hx
      have := held_longPress_at P s0.longPressTime mid (update s0 r0 P) p1 hc.1 hmid (rk, R)
        qs x post hsplit
      have hxm : x ∈ mid ++ [(rk, R)] := by rw [hsplit]; simp
      have hqs : ∀ p ∈ qs, p ∈ mid ++ [(rk, R)] := by
        intro p hp; rw [hsplit]; simp [hp]
      simp only [pollAll]
      rw [this, p6, hany qs hqs, (hq x hxm).1]
      by_cases hL : s0.longPressTime = 0
      · rw [decide_eq_true hL]
        simp only [Bool.not_true, Bool.false_and, Bool.false_eq_true, false_iff]
        rintro ⟨_, h2⟩
        have := h2 (r0, P) (List.mem_cons_self _ _)
        omega
      · simp only [hL, decide_False, Bool.not_false, Bool.true_and, Bool.and_eq_true,
          Bool.not_eq_true', List.any_eq_false, decide_eq_true_eq, List.mem_cons,
          forall_eq_or_imp, Nat.sub_self]
        constructor
        · rintro ⟨h1, h2⟩
          exact ⟨h2, by omega, fun p hp => by have := h1 p hp; omega⟩
        · rintro ⟨h1, _, h2⟩
          exact ⟨fun p hp => by have := h2 p hp; omega, h1⟩
  · intro hL
    simp only [runPolls, List.countP_cons]
    rw [hcount, p5, p6, hany _ (fun p hp => hp)]
    by_cases h0 : s0.longPressTime = 0
    · simp [h0]
    · have : (mid ++ [(rk, R)]).any (fun p => decide (s0.longPressTime ≤ p.2 - P)) = true := by
        rw [List.any_eq_true]
        exact ⟨(rk, R), by simp, by simpa using hL⟩
      rw [this]
      simp [h0]
  · intro hL x hx
    simp only [runPolls, List.mem_cons] at hx
    have h0 : s0.longPressTime ≠ 0 := by omega
    rcases hx with hx | hx
    · rw [hx, p5]; simpa using h0
    · have : (mid ++ [(rk, R)]).any (fun p => decide (s0.longPressTime ≤ p.2 - P)) = false := by
        rw [List.any_eq_false]
        intro p hp
        have := (hq p hp).2
        simp only [decide_eq_true_eq]
        omega
      rw [hany _ (fun p hp => hp), this] at hcount
      simp only [Bool.and_false, Bool.false_eq_true, if_false] at hcount
      have := (List.countP_eq_zero.1 hcount) x hx
      simpa using this
  · have hrel2 : (update (pollAll (update s0 r0 P) mid) rk R).released = true := by
      simpa [pollAll, pollAll_append] using hrel
    have hheld := (held_segment P s0.longPressTime mid (update s0 r0 P) p1 hc.1 hmid).1
    obtain ⟨_, _, _, _, _, h6⟩ := held_step (pollAll (update s0 r0 P) mid) rk R P hheld
    have hidle : Idle (pollAll s0 ((r0, P) :: (mid ++ [(rk, R)]))) := by
      simpa [pollAll, pollAll_append] using (h6 hrel2).1
    intro x hx
    exact ((idle_segment rest _ hidle hrest).2 x hx).1

/-- Witness of C2: debounce 40, window 300, threshold 800, pull-up; pressed edge at 1000, held
polls at 1500, 1801, 1900, release at 2000: exactly one poll emits `longPress`. -/
theorem longPress_once_per_episode_witness :
    (update (begin (new 2 true 40 300 800)) LOW 1000).pressed = true ∧
    (pollAll (begin (new 2 true 40 300 800))
      [(LOW, 1000), (LOW, 1500), (LOW, 1801), (LOW, 1900), (HIGH, 2000)]).released = true ∧
    (runPolls (begin (new 2 true 40 300 800))
      [(LOW, 1000), (LOW, 1500), (LOW, 1801), (LOW, 1900), (HIGH, 2000)]).countP
        (fun x => x.longPress) = 1 :=
  ⟨by decide, by decide,
    (longPress_once_per_episode (begin (new 2 true 40 300 800)) LOW 1000
      [(LOW, 1500), (LOW, 1801), (LOW, 1900)] HIGH 2000 [(HIGH, 2100)]
      (by decide) (by decide) (by decide) (by decide) (by decide) (by decide)).2.1 (by decide)⟩

/-- A held stretch without release in which no poll reaches the long-press threshold and a
pending click, if any, does not time out: the button stays held, the pending click and the
latch are untouched, and no poll emits `longPress`, `singleClick` or `doubleClick`. -/
theorem short_hold_segment (P L g : Nat) (mid : List (Bool × Nat)) (s : AdvancedButton)
    (hs : Held s P) (hL : s.longPressTime = L) (hg : s.doubleClickGap = g)
    (hf : s.longPressFired = false)
    (hshort : ∀ p ∈ mid, sub32 p.2 P < L)
    (hW : s.waitingSecondClick = true → ∀ p ∈ mid, sub32 p.2 s.lastReleaseTime ≤ g)
    (hmid : ∀ x ∈ runPolls s mid, x.released = false) :
    (Held (pollAll s mid) P ∧
      (pollAll s mid).longPressFired = false ∧
      (pollAll s mid).waitingSecondClick = s.waitingSecondClick ∧
      (pollAll s mid).lastReleaseTime = s.lastReleaseTime) ∧
    ∀ x ∈ runPolls s mid,
      x.longPress = false ∧ x.singleClick = false ∧ x.doubleClick = false := by
  induction mid generalizing s with
  | nil => simp [pollAll, runPolls, hs, hf]
  | cons p ps ih =>
    simp only [runPolls, List.mem_cons, forall_eq_or_imp] at hmid hshort hW ⊢
    obtain ⟨h1, h2, h3, h4, h5, h6⟩ := held_step s p.1 p.2 P hs
    obtain ⟨g1, g2, g3, g4, g5⟩ := h5 hmid.1
    have hc := update_config s p.1 p.2
    have hq : decide (s.longPressTime ≤ sub32 p.2 P) = false := by
      rw [hL]; exact decide_eq_false (by have := hshort.1; omega)
    rw [hf, hq] at h3 h4
    simp only [Bool.not_false, Bool.and_false, Bool.or_false] at h3 h4
    have hto : (s.waitingSecondClick &&
        decide (s.doubleClickGap < sub32 p.2 s.lastReleaseTime)) = false := by
      cases hw : s.waitingSecondClick
      · rfl
      · have := (hW hw).1
        rw [hg]
        simp only [Bool.true_and, decide_eq_false_iff_not]
        omega
    have hw' : (update s p.1 p.2).waitingSecondClick = s.waitingSecondClick := by
      rw [g5, h3]
      cases hw : s.waitingSecondClick
      · rfl
      · have := (hW hw).1
        rw [hg]
        simp only [Bool.true_and, Bool.not_false, Bool.not_eq_true', decide_eq_false_iff_not]
        omega
    have hsc : (update s p.1 p.2).singleClick = false := by
      rw [g4, h3]
      simpa using hto
    have := ih (update s p.1 p.2) g1 (by rw [hc.1, hL]) (by rw [hc.2.1, hg]) h4 hshort.2
      (by rw [hw', g3]; exact fun hw => (hW hw).2) hmid.2
    simp only [pollAll]
    refine ⟨?_, ⟨h3, hsc, g2⟩, this.2⟩
    obtain ⟨⟨a, b, c, d⟩, _⟩ := this
    exact ⟨a, b, by rw [c, hw'], by rw [d, g3]⟩

/-- An idle stretch without pressed edge in which a pending click, if any, does not time out:
the button stays idle, the pending click is untouched, and no poll emits `singleClick`,
`doubleClick` or `longPress`. -/
theorem idle_quiet_segment (g : Nat) (ps : List (Bool × Nat)) (s : AdvancedButton)
    (hs : Idle s) (hg : s.doubleClickGap = g)
    (hW : s.waitingSecondClick = true → ∀ p ∈ ps, sub32 p.2 s.lastReleaseTime ≤ g)
    (hps : ∀ x ∈ runPolls s ps, x.pressed = false) :
    (Idle (pollAll s ps) ∧
      (pollAll s ps).waitingSecondClick = s.waitingSecondClick ∧
      (pollAll s ps).lastReleaseTime = s.lastReleaseTime) ∧
    ∀ x ∈ runPolls s ps,
      x.longPress = false ∧ x.singleClick = false ∧ x.doubleClick = false := by
  induction ps generalizing s with
  | nil => simp [pollAll, runPolls, hs]
  | cons p ps ih =>
    simp only [runPolls, List.mem_cons, forall_eq_or_imp] at hps hW ⊢
    obtain ⟨h1, h2, h3, h4⟩ := idle_step s p.1 p.2 hs
    obtain ⟨g1, g2, g3, g4, g5, g6, g7⟩ := h4 hps.1
    have hc := update_config s p.1 p.2
    have hto : decide (s.doubleClickGap < sub32 p.2 s.lastReleaseTime) = true →
        s.waitingSecondClick = false := by
      intro hd
      cases hw : s.waitingSecondClick
      · rfl
      · have := (hW hw).1
        rw [hg] at hd
        simp only [decide_eq_true_eq] at hd
        omega
    have hw' : (update s p.1 p.2).waitingSecondClick = s.waitingSecondClick := by
      rw [g7]
      cases hd : decide (s.doubleClickGap < sub32 p.2 s.lastReleaseTime)
      · simp
      · simp [hto hd]
    have hsc : (update s p.1 p.2).singleClick = false := by
      rw [g6]
      cases hd : decide (s.doubleClickGap < sub32 p.2 s.lastReleaseTime)
      · simp
      · simp [hto hd]
    have := ih (update s p.1 p.2) g1 (by rw [hc.2.1, hg])
      (by rw [hw', g5]; exact fun hw => (hW hw).2) hps.2
    simp only [pollAll]
    refine ⟨?_, ⟨g2, hsc, h3⟩, this.2⟩
    obtain ⟨⟨a, b, c⟩, _⟩ := this
    exact ⟨a, by rw [b, hw'], by rw [c, g5]⟩

/-- A press episode shorter than the long-press threshold, during which a pending click (if
any) does not time out: the release poll leaves the button idle with `lastReleaseTime` at the
release, emits `doubleClick` exactly when a click was pending, and then a click is pending
exactly when none was before; no other event of the click family is emitted. -/
theorem short_episode (s0 : AdvancedButton) (a : Bool) (P : Nat) (mid : List (Bool × Nat))
    (b : Bool) (R : Nat)
    (hPR : P ≤ R) (hb : ∀ p ∈ mid, P ≤ p.2 ∧ p.2 ≤ R) (hR : R < 4294967296)
    (hpress : (update s0 a P).pressed = true)
    (hmid : ∀ x ∈ runPolls (update s0 a P) mid, x.released = false)
    (hrel : (pollAll s0 (episode a P mid b R)).released = true)
    (hshort : R - P < s0.longPressTime)
    (hW : s0.waitingSecondClick = true →
      ∀ p ∈ episode a P mid b R, sub32 p.2 s0.lastReleaseTime ≤ s0.doubleClickGap) :
    Idle (pollAll s0 (episode a P mid b R)) ∧
    (pollAll s0 (episode a P mid b R)).lastReleaseTime = R ∧
    (pollAll s0 (episode a P mid b R)).doubleClick = s0.waitingSecondClick ∧
    (pollAll s0 (episode a P mid b R)).waitingSecondClick = !s0.waitingSecondClick ∧
    (pollAll s0 (episode a P mid b R)).singleClick = false ∧
    (pollAll s0 (episode a P mid b R)).longPress = false ∧
    (∀ x ∈ runPolls s0 ((a, P) :: mid),
      x.longPress = false ∧ x.singleClick = false ∧ x.doubleClick = false) := by
  obtain ⟨p1, p2, p3, p4, p5, p6, p7, p8⟩ := pressed_step s0 a P hpress
  have hc := update_config s0 a P
  have hL0 : decide (s0.longPressTime = 0) = false := decide_eq_false (by omega)
  rw [hL0] at p5 p6 p7 p8
  simp only [episode, List.mem_cons, List.mem_append, List.mem_singleton, forall_eq_or_imp]
    at hW
  have hto : (s0.waitingSecondClick &&
      decide (s0.doubleClickGap < sub32 P s0.lastReleaseTime)) = false := by
    cases hw : s0.waitingSecondClick
    · rfl
    · have := (hW hw).1
      simp only [Bool.true_and, decide_eq_false_iff_not]
      omega
  have q7 : (update s0 a P).singleClick = false := by
    rw [p7]; simpa using hto
  have q8 : (update s0 a P).waitingSecondClick = s0.waitingSecondClick := by
    rw [p8]
    cases hw : s0.waitingSecondClick
    · rfl
    · have := (hW hw).1
      simp only [Bool.true_and, Bool.not_false, Bool.not_eq_true', decide_eq_false_iff_not]
      omega
  obtain ⟨⟨m1, m2, m3, m4⟩, m5⟩ :=
    short_hold_segment P s0.longPressTime s0.doubleClickGap mid (update s0 a P) p1 hc.1 hc.2.1 p6
      (fun p hp => by
        obtain ⟨u, v⟩ := hb p hp
        rw [sub32_eq_sub _ _ u (by omega)]; omega)
      (by
        rw [q8, p4]
        exact fun hw p hp => (hW hw).2 p (Or.inl hp))
      hmid
  have hrel2 : (update (pollAll (update s0 a P) mid) b R).released = true := by
    simpa [episode, pollAll, pollAll_append] using hrel
  obtain ⟨_, _, h3, h4, _, h6⟩ := held_step (pollAll (update s0 a P) mid) b R P m1
  obtain ⟨k1, k2, _, k4⟩ := h6 hrel2
  have hcfg := pollAll_config (update s0 a P) mid
  have hlp : (update (pollAll (update s0 a P) mid) b R).longPress = false := by
    rw [h3, m2, hcfg.1, hc.1, sub32_eq_sub _ _ hPR hR]
    simp only [Bool.not_false, Bool.true_and, decide_eq_false_iff_not]
    omega
  obtain ⟨k5, k6, k7⟩ := k4 hlp
  have hdc : (s0.waitingSecondClick &&
      decide (sub32 R s0.lastReleaseTime ≤ s0.doubleClickGap)) = s0.waitingSecondClick := by
    cases hw : s0.waitingSecondClick
    · rfl
    · have := (hW hw).2 (b, R) (Or.inr (Or.inl rfl))
      simpa using this
  have hfin : pollAll s0 (episode a P mid b R) = update (pollAll (update s0 a P) mid) b R := by
    simp [episode, pollAll, pollAll_append]
  rw [hfin]
  refine ⟨k1, k5, ?_, ?_, k2, hlp, ?_⟩
  · rw [k6, m3, m4, q8, p4, hcfg.2, hc.2.1, hdc]
  · rw [k7, m3, m4, q8, p4, hcfg.2, hc.2.1, hdc]
  · intro x hx
    simp only [runPolls, List.mem_cons] at hx
    rcases hx with hx | hx
    · subst hx
      exact ⟨p5, q7, p3⟩
    · exact m5 x hx

/-- C3 (the code departs from the claim). Debounce 40, window 300, threshold 800, pull-up:
pressed edge at 1000, the poll at 1801 emits `longPress` while held, the release poll at 2000
emits `released` without `singleClick` or `doubleClick` but leaves a click pending
(`waitingSecondClick` is true), and with no further press the poll at 2301 emits
`singleClick`: the long-press episode also produces a single click. -/
theorem longPress_midHold_then_singleClick :
    (pollAll (begin (new 2 true 40 300 800)) [(LOW, 1000)]).pressed = true ∧
    (pollAll (begin (new 2 true 40 300 800)) [(LOW, 1000), (LOW, 1801)]).longPress = true ∧
    (pollAll (begin (new 2 true 40 300 800))
      [(LOW, 1000), (LOW, 1801), (HIGH, 2000)]).released = true ∧
    (pollAll (begin (new 2 true 40 300 800))
      [(LOW, 1000), (LOW, 1801), (HIGH, 2000)]).singleClick = false ∧
    (pollAll (begin (new 2 true 40 300 800))
      [(LOW, 1000), (LOW, 1801), (HIGH, 2000)]).doubleClick = false ∧
    (pollAll (begin (new 2 true 40 300 800))
      [(LOW, 1000), (LOW, 1801), (HIGH, 2000)]).waitingSecondClick = true ∧
    (pollAll (begin (new 2 true 40 300 800))
      [(LOW, 1000), (LOW, 1801), (HIGH, 2000), (HIGH, 2301)]).pressed = false ∧
    (pollAll (begin (new 2 true 40 300 800))
      [(LOW, 1000), (LOW, 1801), (HIGH, 2000), (HIGH, 2301)]).singleClick = true := by
  decide

/-- C4. Two consecutive press episodes, both shorter than `longPressTime`, starting with no
click pending, with non-decreasing times that do not wrap and release polls at `R1` and `R2`
where `R2 - R1 <= doubleClickGap`: the poll at `R2` emits `doubleClick`; no other poll from the
first pressed edge on emits `doubleClick`; no poll from the first pressed edge through `R2`
emits `singleClick`; and, with no further pressed edge, no later poll emits `singleClick`. -/
theorem doubleClick_at_second_release (s0 : AdvancedButton)
    (a1 : Bool) (P1 : Nat) (mid1 : List (Bool × Nat)) (b1 : Bool) (R1 : Nat)
    (gap1 : List (Bool × Nat))
    (a2 : Bool) (P2 : Nat) (mid2 : List (Bool × Nat)) (b2 : Bool) (R2 : Nat)
    (later : List (Bool × Nat))
    (hw : s0.waitingSecondClick = false)
    (hsorted : List.Sorted (fun p q : Bool × Nat => p.2 ≤ q.2)
      (episode a1 P1 mid1 b1 R1 ++ gap1 ++ episode a2 P2 mid2 b2 R2))
    (hR : R2 < 4294967296)
    (hpress1 : (update s0 a1 P1).pressed = true)
    (hmid1 : ∀ x ∈ runPolls (update s0 a1 P1) mid1, x.released = false)
    (hrel1 : (pollAll s0 (episode a1 P1 mid1 b1 R1)).released = true)
    (hgap1 : ∀ x ∈ runPolls (pollAll s0 (episode a1 P1 mid1 b1 R1)) gap1, x.pressed = false)
    (hpress2 : (update (pollAll s0 (episode a1 P1 mid1 b1 R1 ++ gap1)) a2 P2).pressed = true)
    (hmid2 : ∀ x ∈ runPolls (update (pollAll s0 (episode a1 P1 mid1 b1 R1 ++ gap1)) a2 P2) mid2,
      x.released = false)
    (hrel2 : (pollAll s0
      (episode a1 P1 mid1 b1 R1 ++ gap1 ++ episode a2 P2 mid2 b2 R2)).released = true)
    (hlater : ∀ x ∈ runPolls (pollAll s0
      (episode a1 P1 mid1 b1 R1 ++ gap1 ++ episode a2 P2 mid2 b2 R2)) later, x.pressed = false)
    (hshort1 : R1 - P1 < s0.longPressTime)
    (hshort2 : R2 - P2 < s0.longPressTime)
    (hwin : R2 - R1 ≤ s0.doubleClickGap) :
    (pollAll s0 (episode a1 P1 mid1 b1 R1 ++ gap1 ++ episode a2 P2 mid2 b2 R2)).doubleClick
      = true ∧
    (pollAll s0 (episode a1 P1 mid1 b1 R1 ++ gap1 ++ episode a2 P2 mid2 b2 R2)).singleClick
      = false ∧
    (∀ x ∈ runPolls s0 (episode a1 P1 mid1 b1 R1 ++ gap1 ++ (a2, P2) :: mid2),
      x.doubleClick = false ∧ x.singleClick = false) ∧
    (∀ x ∈ runPolls (pollAll s0
        (episode a1 P1 mid1 b1 R1 ++ gap1 ++ episode a2 P2 mid2 b2 R2)) later,
      x.doubleClick = false ∧ x.singleClick = false) := by
  simp only [episode, List.Sorted, List.pairwise_append, List.pairwise_cons, List.mem_append,
    List.mem_cons, List.mem_singleton, forall_eq_or_imp, or_imp, forall_and, List.not_mem_nil,
    List.Pairwise.nil, List.cons_append, List.append_assoc, forall_eq, false_imp_iff,
    implies_true, and_true, true_and] at hsorted
  obtain ⟨⟨o1, o2, -, -, -, -⟩, -, ⟨⟨o3, o4, o5, o6⟩, -, ⟨⟨o7, o8⟩, -, o9⟩, o10, -, o11⟩,
    o12, -, -, -, -⟩ := hsorted
  -- first episode
  obtain ⟨e1, e2, e3, e4, e5, e6, e7⟩ := short_episode s0 a1 P1 mid1 b1 R1 o2
    (fun p hp => ⟨o1 p hp, o12 p hp⟩) (by omega) hpress1 hmid1 hrel1 hshort1
    (fun h => by rw [hw] at h; cases h)
  rw [hw] at e3 e4
  have c1 := pollAll_config s0 (episode a1 P1 mid1 b1 R1)
  -- idle stretch between the episodes
  obtain ⟨⟨i1, i2, i3⟩, i4⟩ := idle_quiet_segment s0.doubleClickGap gap1
    (pollAll s0 (episode a1 P1 mid1 b1 R1)) e1 c1.2
    (fun _ p hp => by
      rw [e2, sub32_eq_sub _ _ (o3 p hp) (by have := o11 p hp; omega)]
      have := o11 p hp; omega)
    hgap1
  rw [← pollAll_append] at i1 i2 i3
  have c2 := pollAll_config s0 (episode a1 P1 mid1 b1 R1 ++ gap1)
  -- second episode
  have hrel2' : (pollAll (pollAll s0 (episode a1 P1 mid1 b1 R1 ++ gap1))
      (episode a2 P2 mid2 b2 R2)).released = true := by
    rw [← pollAll_append]; exact hrel2
  obtain ⟨f1, f2, f3, f4, f5, f6, f7⟩ := short_episode
    (pollAll s0 (episode a1 P1 mid1 b1 R1 ++ gap1)) a2 P2 mid2 b2 R2 o8
    (fun p hp => ⟨o7 p hp, o9 p hp⟩) hR hpress2 hmid2 hrel2' (by rw [c2.1]; exact hshort2)
    (by
      intro _ p hp
      rw [i3, e2, c2.2]
      simp only [episode, List.mem_cons, List.mem_append, List.mem_singleton,
        List.not_mem_nil, or_false] at hp
      rcases hp with hp | hp | hp
      · subst hp; rw [sub32_eq_sub _ _ o4 (by omega)]; omega
      · have := o5 p hp; have := o9 p hp
        rw [sub32_eq_sub _ _ (by omega) (by omega)]; omega
      · subst hp; rw [sub32_eq_sub _ _ o6 hR]; omega)
  rw [← pollAll_append, i2, e4] at f3 f4
  rw [← pollAll_append] at f1 f2 f5 f6
  simp only [Bool.not_false, Bool.not_true] at f3 f4
  have c3 := pollAll_config s0 (episode a1 P1 mid1 b1 R1 ++ gap1 ++ episode a2 P2 mid2 b2 R2)
  -- after the second release no click is pending
  obtain ⟨-, l2⟩ := idle_quiet_segment s0.doubleClickGap later
    (pollAll s0 (episode a1 P1 mid1 b1 R1 ++ gap1 ++ episode a2 P2 mid2 b2 R2)) f1 c3.2
    (fun h => by rw [f4] at h; cases h) hlater
  refine ⟨f3, f5, ?_, fun x hx => ⟨(l2 x hx).2.2, (l2 x hx).2.1⟩⟩
  intro x hx
  have hsplit : episode a1 P1 mid1 b1 R1 ++ gap1 ++ (a2, P2) :: mid2 =
      ((a1, P1) :: mid1) ++ ([(b1, R1)] ++ (gap1 ++ (a2, P2) :: mid2)) := by
    simp [episode]
  rw [hsplit, runPolls_append, runPolls_append, runPolls_append] at hx
  simp only [List.mem_append] at hx
  rcases hx with hx | hx | hx | hx
  · exact ⟨(e7 x hx).2.2, (e7 x hx).2.1⟩
  · have hfin : update (pollAll s0 ((a1, P1) :: mid1)) b1 R1 =
        pollAll s0 (episode a1 P1 mid1 b1 R1) := by
      simp [episode, pollAll, pollAll_append]
    simp only [runPolls, List.mem_singleton] at hx
    rw [hx, hfin, e3, e5]
    exact ⟨rfl, rfl⟩
  · have hfin : pollAll (pollAll s0 ((a1, P1) :: mid1)) [(b1, R1)] =
        pollAll s0 (episode a1 P1 mid1 b1 R1) := by
      simp [episode, pollAll, pollAll_append]
    rw [hfin] at hx
    exact ⟨(i4 x hx).2.2, (i4 x hx).2.1⟩
  · have hfin : pollAll (pollAll (pollAll s0 ((a1, P1) :: mid1)) [(b1, R1)]) gap1 =
        pollAll s0 (episode a1 P1 mid1 b1 R1 ++ gap1) := by
      simp [episode, pollAll, pollAll_append]
    rw [hfin] at hx
    exact ⟨(f7 x hx).2.2, (f7 x hx).2.1⟩

/-- Witness of C4: debounce 40, window 300, threshold 800, pull-up; first release at 191,
second release at 400 (gap 209). -/
theorem doubleClick_at_second_release_witness :
    (pollAll (begin (new 2 true 40 300 800))
      [(LOW, 51), (HIGH, 191), (LOW, 250), (HIGH, 400)]).doubleClick = true ∧
    (pollAll (begin (new 2 true 40 300 800))
      [(LOW, 51), (HIGH, 191), (LOW, 250), (HIGH, 400)]).singleClick = false :=
  have h := doubleClick_at_second_release (begin (new 2 true 40 300 800))
    LOW 51 [] HIGH 191 [] LOW 250 [] HIGH 400 [(HIGH, 800)]
    (by decide) (by decide) (by decide) (by decide) (by decide) (by decide) (by decide)
    (by decide) (by decide) (by decide) (by decide) (by decide) (by decide) (by decide)
  ⟨h.1, h.2.1⟩

/-- In an idle stretch without pressed edge, a poll emits `singleClick` exactly when a click was
pending at the start, no earlier poll of the stretch was past the double-click window, and this
poll is; the click stays pending only until then. -/
theorem idle_singleClick_at (g R : Nat) (ps : List (Bool × Nat)) (s : AdvancedButton)
    (hs : Idle s) (hg : s.doubleClickGap = g) (hr : s.lastReleaseTime = R)
    (hps : ∀ x ∈ runPolls s ps, x.pressed = false)
    (pre : List (Bool × Nat)) (x : Bool × Nat) (post : List (Bool × Nat))
    (hsplit : ps = pre ++ x :: post) :
    (update (pollAll s pre) x.1 x.2).singleClick =
      (s.waitingSecondClick && !pre.any (fun p => decide (g < sub32 p.2 R)) &&
        decide (g < sub32 x.2 R)) ∧
    (update (pollAll s pre) x.1 x.2).waitingSecondClick =
      (s.waitingSecondClick && !pre.any (fun p => decide (g < sub32 p.2 R)) &&
        !decide (g < sub32 x.2 R)) := by
  induction ps generalizing s pre with
  | nil => simp at hsplit
  | cons p ps ih =>
    simp only [runPolls, List.mem_cons, forall_eq_or_imp] at hps
    obtain ⟨h1, h2, h3, h4⟩ := idle_step s p.1 p.2 hs
    obtain ⟨g1, g2, g3, g4, g5, g6, g7⟩ := h4 hps.1
    have hc := update_config s p.1 p.2
    cases pre with
    | nil =>
      simp only [List.nil_append, List.cons.injEq] at hsplit
      obtain ⟨hx, -⟩ := hsplit
      subst hx
      simp only [pollAll, List.any_nil, Bool.not_false, Bool.and_true]
      rw [g6, g7, hg, hr]
      exact ⟨rfl, rfl⟩
    | cons q qs =>
      simp only [List.cons_append, List.cons.injEq] at hsplit
      obtain ⟨hq, hrest⟩ := hsplit
      subst hq
      have := ih (update s p.1 p.2) g1 (by rw [hc.2.1, hg]) (by rw [g5, hr]) hps.2 qs hrest
      simp only [pollAll, List.any_cons]
      rw [this.1, this.2, g7, hg, hr]
      cases s.waitingSecondClick <;> cases decide (g < sub32 p.2 R) <;> exact ⟨rfl, rfl⟩

/-- After a lone press shorter than the long-press threshold, starting with no click pending
and followed by polls without pressed edge at times that do not wrap: no poll of the episode
emits `singleClick`, and a later poll emits `singleClick` exactly when it is past the
double-click window and no earlier poll after the release was. -/
theorem lone_press_singleClick (s0 : AdvancedButton) (a : Bool) (P : Nat)
    (mid : List (Bool × Nat)) (b : Bool) (R : Nat) (later : List (Bool × Nat))
    (hw : s0.waitingSecondClick = false)
    (hPR : P ≤ R) (hb : ∀ p ∈ mid, P ≤ p.2 ∧ p.2 ≤ R) (hR : R < 4294967296)
    (hlb : ∀ p ∈ later, R ≤ p.2 ∧ p.2 < 4294967296)
    (hpress : (update s0 a P).pressed = true)
    (hmid : ∀ x ∈ runPolls (update s0 a P) mid, x.released = false)
    (hrel : (pollAll s0 (episode a P mid b R)).released = true)
    (hlater : ∀ x ∈ runPolls (pollAll s0 (episode a P mid b R)) later, x.pressed = false)
    (hshort : R - P < s0.longPressTime) :
    (∀ x ∈ runPolls s0 (episode a P mid b R), x.singleClick = false) ∧
    ∀ pre x post, later = pre ++ x :: post →
      (update (pollAll s0 (episode a P mid b R ++ pre)) x.1 x.2).singleClick =
        (!pre.any (fun p => decide (s0.doubleClickGap < p.2 - R)) &&
          decide (s0.doubleClickGap < x.2 - R)) ∧
      (update (pollAll s0 (episode a P mid b R ++ pre)) x.1 x.2).waitingSecondClick =
        (!pre.any (fun p => decide (s0.doubleClickGap < p.2 - R)) &&
          !decide (s0.doubleClickGap < x.2 - R)) := by
  obtain ⟨e1, e2, e3, e4, e5, e6, e7⟩ := short_episode s0 a P mid b R hPR hb hR hpress hmid hrel
    hshort (fun h => by rw [hw] at h; cases h)
  rw [hw] at e3 e4
  have c1 := pollAll_config s0 (episode a P mid b R)
  constructor
  · intro x hx
    have hsplit : episode a P mid b R = ((a, P) :: mid) ++ [(b, R)] := by simp [episode]
    rw [hsplit, runPolls_append] at hx
    rcases List.mem_append.1 hx with hx | hx
    · exact (e7 x hx).2.1
    · have hfin : update (pollAll s0 ((a, P) :: mid)) b R = pollAll s0 (episode a P mid b R) := by
        simp [episode, pollAll, pollAll_append]
      simp only [runPolls, List.mem_singleton] at hx
      rw [hx, hfin, e5]
  · intro pre x post hsplit
    have := idle_singleClick_at s0.doubleClickGap R later (pollAll s0 (episode a P mid b R)) e1
      c1.2 e2 hlater pre x post hsplit
    rw [e4] at this
    have hany : pre.any (fun p => decide (s0.doubleClickGap < sub32 p.2 R)) =
        pre.any (fun p => decide (s0.doubleClickGap < p.2 - R)) := by
      have hpre : ∀ p ∈ pre, p ∈ later := by
        intro p hp; rw [hsplit]; simp [hp]
      clear this hsplit
      induction pre with
      | nil => rfl
      | cons q qs ih =>
        simp only [List.any_cons]
        obtain ⟨u, v⟩ := hlb q (hpre q (List.mem_cons_self _ _))
        rw [sub32_eq_sub _ _ u v, ih (fun p hp => hpre p (List.mem_cons_of_mem _ hp))]
    obtain ⟨u, v⟩ := hlb x (by rw [hsplit]; simp)
    rw [hany, sub32_eq_sub _ _ u v] at this
    rw [pollAll_append]
    simpa using this

/-- C5. Lone press of `AdvancedButton` shorter than `longPressTime`, starting with no click
pending, released at `R`, followed by polls without pressed edge, times non-decreasing and not
wrapping: no poll of the episode emits `singleClick`; a later poll at time `t` emits
`singleClick` exactly when `t - R > doubleClickGap` and every earlier poll after the release
had `t - R <= doubleClickGap` (it is the first poll past the window); that poll clears
`waitingSecondClick`. -/
theorem singleClick_after_lone_press (s0 : AdvancedButton) (a : Bool) (P : Nat)
    (mid : List (Bool × Nat)) (b : Bool) (R : Nat) (later : List (Bool × Nat))
    (hw : s0.waitingSecondClick = false)
    (hsorted : List.Sorted (fun p q : Bool × Nat => p.2 ≤ q.2) (episode a P mid b R ++ later))
    (hwrap : ∀ p ∈ episode a P mid b R ++ later, p.2 < 4294967296)
    (hpress : (update s0 a P).pressed = true)
    (hmid : ∀ x ∈ runPolls (update s0 a P) mid, x.released = false)
    (hrel : (pollAll s0 (episode a P mid b R)).released = true)
    (hlater : ∀ x ∈ runPolls (pollAll s0 (episode a P mid b R)) later, x.pressed = false)
    (hshort : R - P < s0.longPressTime) :
    (∀ x ∈ runPolls s0 (episode a P mid b R), x.singleClick = false) ∧
    ∀ pre x post, later = pre ++ x :: post →
      ((update (pollAll s0 (episode a P mid b R ++ pre)) x.1 x.2).singleClick = true ↔
        (s0.doubleClickGap < x.2 - R ∧ ∀ p ∈ pre, p.2 - R ≤ s0.doubleClickGap)) ∧
      ((update (pollAll s0 (episode a P mid b R ++ pre)) x.1 x.2).singleClick = true →
        (update (pollAll s0 (episode a P mid b R ++ pre)) x.1 x.2).waitingSecondClick = false) := by
  simp only [episode, List.Sorted, List.pairwise_append, List.pairwise_cons, List.mem_append,
    List.mem_cons, List.mem_singleton, forall_eq_or_imp, or_imp, forall_and, List.not_mem_nil,
    List.Pairwise.nil, List.cons_append, List.append_assoc, forall_eq, false_imp_iff,
    implies_true, and_true, true_and] at hsorted hwrap
  obtain ⟨⟨o1, o2, -⟩, -, ⟨o3, -⟩, o4, -⟩ := hsorted
  obtain ⟨-, -, w1, w2⟩ := hwrap
  obtain ⟨k1, k2⟩ := lone_press_singleClick s0 a P mid b R later hw o2
    (fun p hp => ⟨o1 p hp, o4 p hp⟩) w1 (fun p hp => ⟨o3 p hp, w2 p hp⟩) hpress hmid hrel hlater
    hshort
  refine ⟨k1, ?_⟩
  intro pre x post hsplit
  obtain ⟨q1, q2⟩ := k2 pre x post hsplit
  rw [q1, q2]
  constructor
  · simp only [Bool.and_eq_true, Bool.not_eq_true', List.any_eq_false, decide_eq_true_eq]
    constructor
    · rintro ⟨h1, h2⟩
      exact ⟨h2, fun p hp => by have := h1 p hp; omega⟩
    · rintro ⟨h1, h2⟩
      exact ⟨fun p hp => by have := h2 p hp; omega, h1⟩
  · intro h
    simp only [Bool.and_eq_true, Bool.not_eq_true'] at h
    rw [h.1, decide_eq_true (of_decide_eq_true h.2)]
    rfl

/-- Witness of C5: debounce 40, window 300, threshold 800, pull-up; polls (LOW, 51),
(HIGH, 191), (HIGH, 491), (HIGH, 492): pressed at 51, released at 191, nothing at 491,
`singleClick` at 492. -/
theorem singleClick_after_lone_press_witness :
    (pollAll (begin (new 2 true 40 300 800)) [(LOW, 51)]).pressed = true ∧
    (pollAll (begin (new 2 true 40 300 800)) [(LOW, 51), (HIGH, 191)]).released = true ∧
    (pollAll (begin (new 2 true 40 300 800))
      [(LOW, 51), (HIGH, 191), (HIGH, 491)]).singleClick = false ∧
    (update (pollAll (begin (new 2 true 40 300 800))
      (episode LOW 51 [] HIGH 191 ++ [(HIGH, 491)])) HIGH 492).singleClick = true :=
  ⟨by decide, by decide, by decide,
    ((singleClick_after_lone_press (begin (new 2 true 40 300 800)) LOW 51 [] HIGH 191
      [(HIGH, 491), (HIGH, 492)] (by decide) (by decide) (by decide) (by decide) (by decide)
      (by decide) (by decide) (by decide)).2 [(HIGH, 491)] (HIGH, 492) [] rfl).1.2
      ⟨by decide, by decide⟩⟩

/-- C6 as stated fails. Debounce 40, window 300, threshold 800, pull-up: after the lone press
released at `R = 191`, the poll at `R + doubleClickWindow = 491` does not emit `singleClick`
(the click is still pending). -/
theorem singleClick_not_at_window_end :
    (pollAll (begin (new 2 true 40 300 800)) [(LOW, 51)]).pressed = true ∧
    (pollAll (begin (new 2 true 40 300 800)) [(LOW, 51), (HIGH, 191)]).released = true ∧
    ¬ (pollAll (begin (new 2 true 40 300 800))
        [(LOW, 51), (HIGH, 191), (HIGH, 191 + 300)]).singleClick = true ∧
    (pollAll (begin (new 2 true 40 300 800))
        [(LOW, 51), (HIGH, 191), (HIGH, 191 + 300)]).waitingSecondClick = true := by
  decide

/-- C6 amended. Lone press shorter than `longPressTime`, starting with no click pending,
released at `R`; then polls `quiet` at times in `[R, R + doubleClickGap]` and a poll at time
`t`, none accepting a press, times not wrapping: the poll at `t` emits `singleClick` if and only
if `t > R + doubleClickGap`. In particular a poll at `R + doubleClickGap` does not emit it and
leaves the click pending, and a poll at `R + doubleClickGap + 1` emits it. -/
theorem singleClick_strictly_after_window (s0 : AdvancedButton) (a : Bool) (P : Nat)
    (mid : List (Bool × Nat)) (b : Bool) (R : Nat) (quiet : List (Bool × Nat))
    (r : Bool) (t : Nat)
    (hw : s0.waitingSecondClick = false)
    (hPR : P ≤ R) (hb : ∀ p ∈ mid, P ≤ p.2 ∧ p.2 ≤ R)
    (hq : ∀ p ∈ quiet, R ≤ p.2 ∧ p.2 ≤ R + s0.doubleClickGap)
    (hRt : R ≤ t) (ht : t < 4294967296)
    (hwrap : R + s0.doubleClickGap < 4294967296)
    (hpress : (update s0 a P).pressed = true)
    (hmid : ∀ x ∈ runPolls (update s0 a P) mid, x.released = false)
    (hrel : (pollAll s0 (episode a P mid b R)).released = true)
    (hlater : ∀ x ∈ runPolls (pollAll s0 (episode a P mid b R)) (quiet ++ [(r, t)]),
      x.pressed = false)
    (hshort : R - P < s0.longPressTime) :
    ((update (pollAll s0 (episode a P mid b R ++ quiet)) r t).singleClick = true ↔
      R + s0.doubleClickGap < t) ∧
    (t = R + s0.doubleClickGap →
      (update (pollAll s0 (episode a P mid b R ++ quiet)) r t).singleClick = false ∧
      (update (pollAll s0 (episode a P mid b R ++ quiet)) r t).waitingSecondClick = true) ∧
    (t = R + s0.doubleClickGap + 1 →
      (update (pollAll s0 (episode a P mid b R ++ quiet)) r t).singleClick = true) := by
  obtain ⟨-, k2⟩ := lone_press_singleClick s0 a P mid b R (quiet ++ [(r, t)]) hw hPR hb
    (by omega)
    (fun p hp => by
      rcases List.mem_append.1 hp with hp | hp
      · have := hq p hp; omega
      · simp only [List.mem_singleton] at hp
        subst hp
        exact ⟨hRt, ht⟩)
    hpress hmid hrel hlater hshort
  obtain ⟨q1, q2⟩ := k2 quiet (r, t) [] rfl
  have hany : quiet.any (fun p => decide (s0.doubleClickGap < p.2 - R)) = false := by
    rw [List.any_eq_false]
    intro p hp
    have := hq p hp
    simp only [decide_eq_true_eq]
    omega
  rw [hany] at q1 q2
  simp only [Bool.not_false, Bool.true_and] at q1 q2
  rw [q1, q2]
  refine ⟨?_, ?_, ?_⟩
  · simp only [decide_eq_true_eq]; omega
  · intro h
    have : ¬ s0.doubleClickGap < t - R := by omega
    rw [decide_eq_false this]
    exact ⟨rfl, rfl⟩
  · intro h
    have : s0.doubleClickGap < t - R := by omega
    rw [decide_eq_true this]

/-- Witness of C6 amended: debounce 40, window 300, threshold 800, pull-up; release at 191,
poll at 491 without `singleClick`, then poll at 492 with `singleClick`. -/
theorem singleClick_strictly_after_window_witness :
    (update (pollAll (begin (new 2 true 40 300 800))
      (episode LOW 51 [] HIGH 191 ++ [(HIGH, 491)])) HIGH 492).singleClick = true :=
  (singleClick_strictly_after_window (begin (new 2 true 40 300 800)) LOW 51 [] HIGH 191
    [(HIGH, 491)] HIGH 492 (by decide) (by decide) (by decide) (by decide) (by decide)
    (by decide) (by decide) (by decide) (by decide) (by decide) (by decide) (by decide)).2.2
    (by decide)

/-! ## The checks at the end of a poll -/

theorem clearFlags_of_agree (s1 s2 : AdvancedButton) (h : agreeOffFlags s1 s2) :
    clearFlags s1 = clearFlags s2 := by
  rcases s1 with ⟨pin, up, lct, pt, lrt, st, lst, w, f, d, g, L, sc, dc, lp, pr, rl⟩
  rcases s2 with ⟨pin2, up2, lct2, pt2, lrt2, st2, lst2, w2, f2, d2, g2, L2, sc2, dc2, lp2, pr2,
    rl2⟩
  simp only [agreeOffFlags] at h
  obtain ⟨h1, h2, h3, h4, h5, h6, h7, h8, h9, h10, h11, h12⟩ := h
  subst h1 h2 h3 h4 h5 h6 h7 h8 h9 h10 h11 h12
  rfl

/-- Fields of the object at line 147 that the edge processing leaves to the later checks. -/
theorem afterEdges_longPress (s : AdvancedButton) (r : Bool) (t : Nat) :
    (afterEdges s r t).longPress = true →
      (afterEdges s r t).isPressed = false ∧ (afterEdges s r t).waitingSecondClick = false := by
  rcases s with ⟨pin, up, lct, pt, lrt, st, lst, w, f, d, g, L, sc, dc, lp, pr, rl⟩
  simp only [afterEdges, debounceStep, clearFlags]
  by_cases hp : ((r != st) && decide (sub32 t lct > d)) = true
  · rw [if_pos hp]
    simp only [edgeEvents, shortRelease, isPressed]
    cases hc : pressedAt up r <;> cases hw : pressedAt up lst <;>
      by_cases hl : L ≤ sub32 t pt <;> cases f <;> cases w <;>
      by_cases hd : sub32 t lrt ≤ g <;> simp [hl, hd, hc]
  · rw [if_neg hp]
    simp

theorem afterEdges_longPressTime (s : AdvancedButton) (r : Bool) (t : Nat) :
    (afterEdges s r t).longPressTime = s.longPressTime := by
  simp only [afterEdges, debounceStep, clearFlags, edgeEvents, shortRelease]
  (repeat' split) <;> rfl

/-- What the two checks at lines 148-158 do to the fields they touch, for any object `e`
reaching line 147. -/
theorem checks_effect (e : AdvancedButton) (t : Nat) :
    (clickTimeout (holdCheck e t) t).longPress =
      (e.longPress || (e.isPressed && !e.longPressFired &&
        decide (e.longPressTime ≤ sub32 t e.pressedTime))) ∧
    (clickTimeout (holdCheck e t) t).longPressFired =
      (e.longPressFired || (e.isPressed && !e.longPressFired &&
        decide (e.longPressTime ≤ sub32 t e.pressedTime))) ∧
    (clickTimeout (holdCheck e t) t).singleClick =
      (e.singleClick || (e.waitingSecondClick &&
        !(e.isPressed && !e.longPressFired &&
          decide (e.longPressTime ≤ sub32 t e.pressedTime)) &&
        decide (e.doubleClickGap < sub32 t e.lastReleaseTime))) ∧
    (clickTimeout (holdCheck e t) t).waitingSecondClick =
      (e.waitingSecondClick &&
        !(e.isPressed && !e.longPressFired &&
          decide (e.longPressTime ≤ sub32 t e.pressedTime)) &&
        !decide (e.doubleClickGap < sub32 t e.lastReleaseTime)) ∧
    (clickTimeout (holdCheck e t) t).pressed = e.pressed ∧
    (clickTimeout (holdCheck e t) t).released = e.released ∧
    (clickTimeout (holdCheck e t) t).doubleClick = e.doubleClick := by
  rcases e with ⟨pin, up, lct, pt, lrt, st, lst, w, f, d, g, L, sc, dc, lp, pr, rl⟩
  simp only [clickTimeout, holdCheck, isPressed]
  cases hc : pressedAt up st <;> cases f <;> by_cases hl : L ≤ sub32 t pt <;> cases w <;>
    by_cases hd : g < sub32 t lrt <;> simp [hl, hd]

/-- C7. Mid-hold long-press rule of `update`: with `e` the object after edge processing (line
147), the hold check raises `longPress` (false at line 147, true after the poll) if and only if
`e` is pressed, `e.longPressFired` is false and the 32-bit elapsed time `now - e.pressedTime`
is at least `longPressTime`; in that case the poll ends with `longPress` and `longPressFired`
true and `waitingSecondClick` false. With `longPressTime = 0` every poll that emits `pressed`
also emits `longPress`. -/
theorem holdCheck_rule (s : AdvancedButton) (reading : Bool) (now : Nat) :
    (((update s reading now).longPress = true ∧ (afterEdges s reading now).longPress = false) ↔
      ((afterEdges s reading now).isPressed = true ∧
        (afterEdges s reading now).longPressFired = false ∧
        s.longPressTime ≤ sub32 now (afterEdges s reading now).pressedTime)) ∧
    (((afterEdges s reading now).isPressed = true ∧
        (afterEdges s reading now).longPressFired = false ∧
        s.longPressTime ≤ sub32 now (afterEdges s reading now).pressedTime) →
      (update s reading now).longPress = true ∧
      (update s reading now).longPressFired = true ∧
      (update s reading now).waitingSecondClick = false) ∧
    (s.longPressTime = 0 → (update s reading now).pressed = true →
      (update s reading now).longPress = true) := by
  obtain ⟨c1, c2, c3, c4, -⟩ := checks_effect (afterEdges s reading now) now
  have hL := afterEdges_longPressTime s reading now
  have hlp := afterEdges_longPress s reading now
  rw [hL] at c1 c2 c3 c4
  refine ⟨?_, ?_, ?_⟩
  · simp only [update]
    rw [c1]
    constructor
    · rintro ⟨h1, h2⟩
      rw [h2] at h1
      simpa [Bool.and_assoc] using h1
    · rintro ⟨h1, h2, h3⟩
      have h4 : (afterEdges s reading now).longPress = false := by
        cases h : (afterEdges s reading now).longPress
        · rfl
        · rw [(hlp h).1] at h1; cases h1
      rw [h1, h2, decide_eq_true h3, h4]
      exact ⟨rfl, rfl⟩
  · rintro ⟨h1, h2, h3⟩
    simp only [update]
    rw [c1, c2, c4, h1, h2, decide_eq_true h3]
    simp
  · intro h0 hp
    rw [(pressed_step s reading now hp).2.2.2.2.1]
    exact decide_eq_true h0

/-- Witness of C7: threshold 800, pressed edge at 1000, poll at 1801 while still held emits
`longPress` with `released` false. -/
theorem holdCheck_rule_witness :
    (pollAll (begin (new 2 true 40 300 800)) [(LOW, 1000)]).pressed = true ∧
    (update (pollAll (begin (new 2 true 40 300 800)) [(LOW, 1000)]) LOW 1801).released = false ∧
    (update (pollAll (begin (new 2 true 40 300 800)) [(LOW, 1000)]) LOW 1801).longPress = true :=
  ⟨by decide, by decide,
    ((holdCheck_rule (pollAll (begin (new 2 true 40 300 800)) [(LOW, 1000)]) LOW 1801).2.1
      ⟨by decide, by decide, by decide⟩).1⟩

theorem afterEdges_clickFields (s : AdvancedButton) (r : Bool) (t : Nat) :
    (afterEdges s r t).doubleClickGap = s.doubleClickGap ∧
    (afterEdges s r t).singleClick = false := by
  simp only [afterEdges, debounceStep, clearFlags, edgeEvents, shortRelease]
  (repeat' split) <;> exact ⟨rfl, rfl⟩

/-- C8. Tie-break of `update`: `longPress` and `singleClick` are never both true after the
same poll. When, at the hold check (line 147), the button is pressed with `longPressFired`
false and elapsed hold at least `longPressTime` while a click is pending past the double-click
window, the poll emits `longPress`, does not emit `singleClick`, and ends with
`waitingSecondClick` false; the same holds when these conditions are read on the object before
the poll, provided its two stable-level fields agree (as they do after `begin` and after every
`update`). -/
theorem longPress_wins_over_singleClick (s : AdvancedButton) (reading : Bool) (now : Nat) :
    ¬ ((update s reading now).longPress = true ∧ (update s reading now).singleClick = true) ∧
    ((afterEdges s reading now).isPressed = true →
      (afterEdges s reading now).longPressFired = false →
      s.longPressTime ≤ sub32 now (afterEdges s reading now).pressedTime →
      (afterEdges s reading now).waitingSecondClick = true →
      s.doubleClickGap < sub32 now (afterEdges s reading now).lastReleaseTime →
        (update s reading now).longPress = true ∧
        (update s reading now).singleClick = false ∧
        (update s reading now).waitingSecondClick = false) ∧
    (s.lastStableState = s.stableState →
      s.isPressed = true → s.longPressFired = false →
      s.longPressTime ≤ sub32 now s.pressedTime →
      s.waitingSecondClick = true →
      s.doubleClickGap < sub32 now s.lastReleaseTime →
        (update s reading now).longPress = true ∧
        (update s reading now).singleClick = false ∧
        (update s reading now).waitingSecondClick = false) := by
  obtain ⟨c1, c2, c3, c4, -⟩ := checks_effect (afterEdges s reading now) now
  have hL := afterEdges_longPressTime s reading now
  have hlp := afterEdges_longPress s reading now
  obtain ⟨hg, hsc⟩ := afterEdges_clickFields s reading now
  rw [hL] at c1 c2 c3 c4
  rw [hg, hsc] at c3
  refine ⟨?_, ?_, ?_⟩
  · rintro ⟨h1, h2⟩
    simp only [update] at h1 h2
    rw [c1] at h1
    rw [c3] at h2
    cases h : (afterEdges s reading now).longPress
    · rw [h] at h1
      simp only [Bool.false_or] at h1
      rw [h1] at h2
      simp at h2
    · rw [(hlp h).2] at h2
      simp at h2
  · intro h1 h2 h3 h4 h5
    simp only [update]
    rw [c1, c3, c4, h1, h2, decide_eq_true h3]
    simp
  · intro hcons h1 h2 h3 h4 h5
    obtain ⟨-, -, k3, -, k5, k6⟩ := held_step s reading now s.pressedTime ⟨h1, hcons, rfl⟩
    rw [h2, decide_eq_true h3] at k3
    simp only [Bool.not_false, Bool.and_self] at k3
    refine ⟨k3, ?_⟩
    cases hr : (update s reading now).released
    · obtain ⟨-, -, -, m4, m5⟩ := k5 hr
      rw [m4, m5, k3]
      simp
    · obtain ⟨-, m2, m3, -⟩ := k6 hr
      exact ⟨m2, (m3 k3).1⟩

/-- Witness of C8: debounce 40, window 300, threshold 200, pull-up; click released at 191,
pressed edge at 300, next poll at 500: hold 200 reaches the threshold and the pending click is
309 past its release; the poll emits `longPress` and no `singleClick`. -/
theorem longPress_wins_over_singleClick_witness :
    (pollAll (begin (new 2 true 40 300 200)) [(LOW, 51), (HIGH, 191), (LOW, 300)]).isPressed
      = true ∧
    (pollAll (begin (new 2 true 40 300 200))
      [(LOW, 51), (HIGH, 191), (LOW, 300)]).waitingSecondClick = true ∧
    (update (pollAll (begin (new 2 true 40 300 200)) [(LOW, 51), (HIGH, 191), (LOW, 300)])
      LOW 500).longPress = true ∧
    (update (pollAll (begin (new 2 true 40 300 200)) [(LOW, 51), (HIGH, 191), (LOW, 300)])
      LOW 500).singleClick = false ∧
    (update (pollAll (begin (new 2 true 40 300 200)) [(LOW, 51), (HIGH, 191), (LOW, 300)])
      LOW 500).waitingSecondClick = false :=
  ⟨by decide, by decide,
    (longPress_wins_over_singleClick
      (pollAll (begin (new 2 true 40 300 200)) [(LOW, 51), (HIGH, 191), (LOW, 300)])
      LOW 500).2.2 (by decide) (by decide) (by decide) (by decide) (by decide) (by decide)⟩

/-- C9. The five event flags of `AdvancedButton` do not persist across polls: two objects that
differ only in these flags give the same object after `update` with the same inputs; and a poll
in which no promotion occurs, the hold check does not fire and the click timeout does not fire
leaves all five flags false (the object is the old one with its flags cleared). -/
theorem flags_do_not_persist (s1 s2 : AdvancedButton) (reading : Bool) (now : Nat) :
    (agreeOffFlags s1 s2 → update s1 reading now = update s2 reading now) ∧
    (promotes s1 reading now = false →
      ¬ (s1.isPressed = true ∧ s1.longPressFired = false ∧
          s1.longPressTime ≤ sub32 now s1.pressedTime) →
      ¬ (s1.waitingSecondClick = true ∧ s1.doubleClickGap < sub32 now s1.lastReleaseTime) →
        (update s1 reading now).singleClick = false ∧
        (update s1 reading now).doubleClick = false ∧
        (update s1 reading now).longPress = false ∧
        (update s1 reading now).pressed = false ∧
        (update s1 reading now).released = false ∧
        update s1 reading now = clearFlags s1) := by
  constructor
  · intro h
    simp only [update, afterEdges]
    rw [clearFlags_of_agree s1 s2 h]
  · intro hp hh ht
    have key : update s1 reading now = clearFlags s1 := by
      rw [update_of_not_promotes s1 reading now hp]
      have h1 : holdCheck (clearFlags s1) now = clearFlags s1 := by
        unfold holdCheck
        rw [if_neg]
        intro hc
        apply hh
        simp only [clearFlags, isPressed, Bool.and_eq_true, Bool.not_eq_true',
          decide_eq_true_eq] at hc
        exact ⟨hc.1.1, hc.1.2, hc.2⟩
      rw [h1]
      unfold clickTimeout
      rw [if_neg]
      intro hc
      apply ht
      simp only [clearFlags, Bool.and_eq_true, decide_eq_true_eq] at hc
      exact ⟨hc.1, hc.2⟩
    rw [key]
    exact ⟨rfl, rfl, rfl, rfl, rfl, rfl⟩

/-- Witness of C9: the freshly initialised object and a copy with all five flags raised give
the same object after a poll. -/
theorem flags_do_not_persist_witness :
    update (begin (new 2 true 40 300 800)) LOW 51 =
      update { begin (new 2 true 40 300 800) with
        singleClick := true, doubleClick := true, longPress := true, pressed := true,
        released := true } LOW 51 :=
  (flags_do_not_persist (begin (new 2 true 40 300 800))
    { begin (new 2 true 40 300 800) with
        singleClick := true, doubleClick := true, longPress := true, pressed := true,
        released := true } LOW 51).1 (by decide)

/-- C10. `isPressed` and `getPressedDuration` leave the object unchanged; `isPressed` returns
`stableState == LOW` under pull-up and `stableState == HIGH` otherwise; `getPressedDuration`
returns 0 when `isPressed` is false and the 32-bit difference `now - pressedTime` when it is
true. -/
theorem queries_have_no_effect (s : AdvancedButton) (now : Nat) :
    (callIsPressed s).2 = s ∧
    (callGetPressedDuration s now).2 = s ∧
    (callIsPressed s).1 = (if s.usePullup then s.stableState == LOW else s.stableState == HIGH) ∧
    (s.isPressed = false → (callGetPressedDuration s now).1 = 0) ∧
    (s.isPressed = true →
      ((callGetPressedDuration s now).1 : Int) =
        ((now : Int) - (s.pressedTime : Int)) % 4294967296) := by
  refine ⟨rfl, rfl, rfl, ?_, ?_⟩
  · intro h
    simp [callGetPressedDuration, getPressedDuration, h]
  · intro h
    simp only [callGetPressedDuration, getPressedDuration, h, Bool.not_true,
      Bool.false_eq_true, if_false]
    exact sub32_eq_emod now s.pressedTime

/-- Witness of C10: held since 1000, queried at 1500. -/
theorem queries_have_no_effect_witness :
    (callGetPressedDuration (pollAll (begin (new 2 true 40 300 800)) [(LOW, 1000)]) 1500).1
      = 500 := by
  have h := (queries_have_no_effect (pollAll (begin (new 2 true 40 300 800)) [(LOW, 1000)])
    1500).2.2.2.2 (by decide)
  have h2 : (pollAll (begin (new 2 true 40 300 800)) [(LOW, 1000)]).pressedTime = 1000 := by
    decide
  rw [h2] at h
  omega

end AdvancedButton

/-- C11. For both polarities and every constructor argument, after construction and `begin`
neither `AdvancedButton::isPressed` nor `Button::isPressed` is true, and a first `update` whose
sample is the idle level of the polarity (`HIGH` for pull-up, `LOW` otherwise) emits no event
and leaves `isPressed` false, at every clock value. -/
theorem idle_after_begin (pinNumber : Nat) (enablePullup : Bool)
    (debounce doubleClickWindow longPressThreshold now : Nat) :
    (AdvancedButton.begin (AdvancedButton.new pinNumber enablePullup debounce doubleClickWindow
      longPressThreshold)).isPressed = false ∧
    (Button.begin (Button.new pinNumber enablePullup debounce)).isPressed = false ∧
    ((AdvancedButton.begin (AdvancedButton.new pinNumber enablePullup debounce doubleClickWindow
        longPressThreshold)).update (if enablePullup then HIGH else LOW) now).isPressed = false ∧
    ((AdvancedButton.begin (AdvancedButton.new pinNumber enablePullup debounce doubleClickWindow
        longPressThreshold)).update (if enablePullup then HIGH else LOW) now).pressed = false ∧
    ((AdvancedButton.begin (AdvancedButton.new pinNumber enablePullup debounce doubleClickWindow
        longPressThreshold)).update (if enablePullup then HIGH else LOW) now).released = false ∧
    ((AdvancedButton.begin (AdvancedButton.new pinNumber enablePullup debounce doubleClickWindow
        longPressThreshold)).update (if enablePullup then HIGH else LOW) now).singleClick
      = false ∧
    ((AdvancedButton.begin (AdvancedButton.new pinNumber enablePullup debounce doubleClickWindow
        longPressThreshold)).update (if enablePullup then HIGH else LOW) now).doubleClick
      = false ∧
    ((AdvancedButton.begin (AdvancedButton.new pinNumber enablePullup debounce doubleClickWindow
        longPressThreshold)).update (if enablePullup then HIGH else LOW) now).longPress = false ∧
    ((Button.begin (Button.new pinNumber enablePullup debounce)).update
      (if enablePullup then HIGH else LOW) now).isPressed = false ∧
    (((Button.begin (Button.new pinNumber enablePullup debounce)).update
      (if enablePullup then HIGH else LOW) now).wasPressed).1 = false := by
  have hidle : AdvancedButton.Idle (AdvancedButton.begin (AdvancedButton.new pinNumber
      enablePullup debounce doubleClickWindow longPressThreshold)) := by
    cases enablePullup <;> exact ⟨rfl, rfl⟩
  have hnp : AdvancedButton.promotes (AdvancedButton.begin (AdvancedButton.new pinNumber
      enablePullup debounce doubleClickWindow longPressThreshold))
      (if enablePullup then HIGH else LOW) now = false := by
    cases enablePullup <;> simp [AdvancedButton.promotes, AdvancedButton.begin,
      AdvancedButton.new, HIGH, LOW]
  obtain ⟨h1, h2, h3, h4⟩ := AdvancedButton.idle_step _ (if enablePullup then HIGH else LOW) now
    hidle
  rw [hnp] at h2
  obtain ⟨g1, g2, -, -, -, g6, -⟩ := h4 h2
  have hw : (AdvancedButton.begin (AdvancedButton.new pinNumber enablePullup debounce
      doubleClickWindow longPressThreshold)).waitingSecondClick = false := by
    cases enablePullup <;> rfl
  rw [hw] at g6
  refine ⟨hidle.1, ?_, g1.1, h2, h1, g6, h3, g2, ?_, ?_⟩
  · cases enablePullup <;> rfl
  · cases enablePullup <;>
      by_cases h : sub32 now 0 > debounce <;>
      simp [Button.update, Button.begin, Button.new, Button.isPressed, Button.pressTest, HIGH,
        LOW, h]
  · cases enablePullup <;>
      by_cases h : sub32 now 0 > debounce <;>
      simp [Button.update, Button.begin, Button.new, Button.wasPressed, Button.pressTest, HIGH,
        LOW, h]

namespace AdvancedButton

/-- C12. Each of `setDebounceTime`, `setDoubleClickWindow` and `setLongPressThreshold` stores
its argument in exactly one configuration field (`debounceMs`, `doubleClickGap`,
`longPressTime`) and leaves the sixteen other fields as they were; the next `update` uses the
new value: the debounce test compares with the new `debounceMs`, the hold check with the new
`longPressTime`, and the click timeout with the new `doubleClickGap`. -/
theorem setters_change_one_field (s : AdvancedButton) (ms : Nat) (reading : Bool) (now : Nat) :
    setDebounceTime s ms =
      ⟨s.pin, s.usePullup, s.lastChangeTime, s.pressedTime, s.lastReleaseTime, s.stableState,
        s.lastStableState, s.waitingSecondClick, s.longPressFired, ms, s.doubleClickGap,
        s.longPressTime, s.singleClick, s.doubleClick, s.longPress, s.pressed, s.released⟩ ∧
    setDoubleClickWindow s ms =
      ⟨s.pin, s.usePullup, s.lastChangeTime, s.pressedTime, s.lastReleaseTime, s.stableState,
        s.lastStableState, s.waitingSecondClick, s.longPressFired, s.debounceMs, ms,
        s.longPressTime, s.singleClick, s.doubleClick, s.longPress, s.pressed, s.released⟩ ∧
    setLongPressThreshold s ms =
      ⟨s.pin, s.usePullup, s.lastChangeTime, s.pressedTime, s.lastReleaseTime, s.stableState,
        s.lastStableState, s.waitingSecondClick, s.longPressFired, s.debounceMs,
        s.doubleClickGap, ms, s.singleClick, s.doubleClick, s.longPress, s.pressed,
        s.released⟩ ∧
    ((update (setDebounceTime s ms) reading now).stableState =
      if reading ≠ s.stableState ∧ sub32 now s.lastChangeTime > ms then reading
      else s.stableState) ∧
    (reading = s.stableState → s.isPressed = true → s.longPressFired = false →
      ((update (setLongPressThreshold s ms) reading now).longPress = true ↔
        ms ≤ sub32 now s.pressedTime)) ∧
    (reading = s.stableState → s.isPressed = false → s.waitingSecondClick = true →
      ((update (setDoubleClickWindow s ms) reading now).singleClick = true ↔
        ms < sub32 now s.lastReleaseTime)) := by
  refine ⟨rfl, rfl, rfl, ?_, ?_, ?_⟩
  · simp only [update, clickTimeout, holdCheck, afterEdges, debounceStep, clearFlags, edgeEvents,
      shortRelease, setDebounceTime]
    by_cases h1 : reading = s.stableState <;> by_cases h2 : sub32 now s.lastChangeTime > ms
      <;> simp [h1, h2] <;> (repeat' split) <;> simp_all
  · intro h1 h2 h3
    have hp : promotes (setLongPressThreshold s ms) reading now = false := by
      simp [promotes, setLongPressThreshold, h1]
    rw [update_of_not_promotes _ _ _ hp]
    rw [(checks_effect (clearFlags (setLongPressThreshold s ms)) now).1]
    simp only [isPressed] at h2
    simp [clearFlags, setLongPressThreshold, isPressed, h2, h3]
  · intro h1 h2 h3
    have hp : promotes (setDoubleClickWindow s ms) reading now = false := by
      simp [promotes, setDoubleClickWindow, h1]
    rw [update_of_not_promotes _ _ _ hp]
    rw [(checks_effect (clearFlags (setDoubleClickWindow s ms)) now).2.2.1]
    simp only [isPressed] at h2
    simp [clearFlags, setDoubleClickWindow, isPressed, h2, h3]

/-- Witness of C12: held since 1000 with threshold 800; after `setLongPressThreshold 300` the
poll at 1400 emits `longPress`. -/
theorem setters_change_one_field_witness :
    (update (setLongPressThreshold (pollAll (begin (new 2 true 40 300 800)) [(LOW, 1000)]) 300)
      LOW 1400).longPress = true :=
  ((setters_change_one_field (pollAll (begin (new 2 true 40 300 800)) [(LOW, 1000)]) 300
    LOW 1400).2.2.2.2.1 (by decide) (by decide) (by decide)).2 (by decide)

theorem afterEdges_latch (s : AdvancedButton) (r : Bool) (t : Nat) :
    ((afterEdges s r t).pressed = true → (afterEdges s r t).longPressFired = false) ∧
    ((afterEdges s r t).pressed = false → s.longPressFired = true →
      (afterEdges s r t).longPressFired = true) ∧
    ((afterEdges s r t).longPressFired = true →
      (s.longPressFired = true ∧ (afterEdges s r t).pressed = false) ∨
        (afterEdges s r t).longPress = true) := by
  rcases s with ⟨pin, up, lct, pt, lrt, st, lst, w, f, d, g, L, sc, dc, lp, pr, rl⟩
  simp only [afterEdges, debounceStep, clearFlags]
  by_cases hp : ((r != st) && decide (sub32 t lct > d)) = true
  · rw [if_pos hp]
    simp only [edgeEvents, shortRelease]
    cases hc : pressedAt up r <;> cases hw : pressedAt up lst <;>
      by_cases hl : L ≤ sub32 t pt <;> cases f <;> cases w <;>
      by_cases hd : sub32 t lrt ≤ g <;> simp [hl, hd]
  · rw [if_neg hp]
    simp

/-- C13. Latch `longPressFired` of `AdvancedButton`, for every state and input: if it is true
before `update` and the update accepts no pressed edge, it is true after it; an update that
accepts a pressed edge has reset it to false when the hold check runs (line 147); it is true
after an update only if it was true before and no pressed edge was accepted, or the poll emits
`longPress`. Hence along any polls without pressed edge, once set it stays set. -/
theorem longPressFired_latch (s : AdvancedButton) (reading : Bool) (now : Nat)
    (ps : List (Bool × Nat)) :
    (s.longPressFired = true → (update s reading now).pressed = false →
      (update s reading now).longPressFired = true) ∧
    ((update s reading now).pressed = true →
      (afterEdges s reading now).longPressFired = false) ∧
    ((update s reading now).longPressFired = true →
      (s.longPressFired = true ∧ (update s reading now).pressed = false) ∨
        (update s reading now).longPress = true) ∧
    (s.longPressFired = true → (update s reading now).longPressFired = false →
      (update s reading now).pressed = true) ∧
    (s.longPressFired = true → (∀ x ∈ runPolls s ps, x.pressed = false) →
      ∀ x ∈ runPolls s ps, x.longPressFired = true) := by
  have step : ∀ (s : AdvancedButton) (reading : Bool) (now : Nat),
      s.longPressFired = true → (update s reading now).pressed = false →
        (update s reading now).longPressFired = true := by
    intro s reading now hf hp
    obtain ⟨-, c2, -, -, c5, -⟩ := checks_effect (afterEdges s reading now) now
    obtain ⟨-, l2, -⟩ := afterEdges_latch s reading now
    simp only [update] at hp ⊢
    rw [c5] at hp
    rw [c2, l2 hp hf]
    rfl
  obtain ⟨c1, c2, -, -, c5, -⟩ := checks_effect (afterEdges s reading now) now
  obtain ⟨l1, l2, l3⟩ := afterEdges_latch s reading now
  refine ⟨step s reading now, ?_, ?_, ?_, ?_⟩
  · intro hp
    simp only [update] at hp
    rw [c5] at hp
    exact l1 hp
  · intro hf
    simp only [update] at hf ⊢
    rw [c2] at hf
    rw [c1, c5]
    cases hh : ((afterEdges s reading now).isPressed && !(afterEdges s reading now).longPressFired &&
        decide ((afterEdges s reading now).longPressTime ≤
          sub32 now (afterEdges s reading now).pressedTime))
    · rw [hh, Bool.or_false] at hf
      rcases l3 hf with h | h
      · exact Or.inl h
      · right; rw [h]; rfl
    · right; simp
  · intro hf hn
    cases hp : (update s reading now).pressed
    · rw [step s reading now hf hp] at hn; cases hn
    · rfl
  · intro hf hps
    clear c1 c2 c5 l1 l2 l3
    induction ps generalizing s with
    | nil => intro x hx; simp [runPolls] at hx
    | cons p ps ih =>
      simp only [runPolls, List.mem_cons, forall_eq_or_imp] at hps ⊢
      have h1 := step s p.1 p.2 hf hps.1
      exact ⟨h1, ih (update s p.1 p.2) h1 hps.2⟩

/-- Witness of C13: after the mid-hold long press at 1801 the latch is set; the poll at 1900
accepts no pressed edge and keeps it set. -/
theorem longPressFired_latch_witness :
    (pollAll (begin (new 2 true 40 300 800)) [(LOW, 1000), (LOW, 1801)]).longPressFired = true ∧
    (update (pollAll (begin (new 2 true 40 300 800)) [(LOW, 1000), (LOW, 1801)])
      LOW 1900).longPressFired = true :=
  ⟨by decide,
    (longPressFired_latch (pollAll (begin (new 2 true 40 300 800)) [(LOW, 1000), (LOW, 1801)])
      LOW 1900 []).1 (by decide) (by decide)⟩

end AdvancedButton

namespace AdvancedButton

/-! ## Promotions and their spacing -/

theorem update_lastChangeTime (s : AdvancedButton) (r : Bool) (t : Nat) :
    (update s r t).lastChangeTime = (if promotes s r t = true then t else s.lastChangeTime) ∧
    (update s r t).stableState = (if promotes s r t = true then r else s.stableState) ∧
    (update s r t).debounceMs = s.debounceMs := by
  simp only [update, clickTimeout, holdCheck, afterEdges, debounceStep, clearFlags, edgeEvents,
    shortRelease, promotes]
  by_cases h1 : r = s.stableState <;> by_cases h2 : sub32 t s.lastChangeTime > s.debounceMs
    <;> simp [h1, h2] <;> (repeat' split) <;> simp_all

theorem edge_imp_promotes (s : AdvancedButton) (r : Bool) (t : Nat) :
    ((update s r t).pressed = true → promotes s r t = true) ∧
    ((update s r t).released = true → promotes s r t = true) := by
  cases hp : promotes s r t
  · rw [update_of_not_promotes s r t hp]
    obtain ⟨-, -, -, -, c5, c6, -⟩ := checks_effect (clearFlags s) t
    rw [c5, c6]
    simp [clearFlags]
  · exact ⟨fun _ => rfl, fun _ => rfl⟩

theorem no_promotion_segment (mid : List (Bool × Nat)) (s : AdvancedButton)
    (hmid : ∀ b ∈ promotedAt s mid, b = false) :
    (pollAll s mid).lastChangeTime = s.lastChangeTime ∧
    (pollAll s mid).debounceMs = s.debounceMs := by
  induction mid generalizing s with
  | nil => exact ⟨rfl, rfl⟩
  | cons p ps ih =>
    simp only [promotedAt, List.mem_cons, forall_eq_or_imp] at hmid
    obtain ⟨h1, -, h3⟩ := update_lastChangeTime s p.1 p.2
    rw [hmid.1] at h1
    obtain ⟨i1, i2⟩ := ih (update s p.1 p.2) hmid.2
    simp only [pollAll]
    rw [i1, i2, h1, h3]
    exact ⟨rfl, rfl⟩

theorem held_no_promotion (P : Nat) (mid : List (Bool × Nat)) (s : AdvancedButton)
    (hs : Held s P) (hmid : ∀ x ∈ runPolls s mid, x.released = false) :
    ∀ b ∈ promotedAt s mid, b = false := by
  induction mid generalizing s with
  | nil => intro b hb; simp [promotedAt] at hb
  | cons p ps ih =>
    simp only [runPolls, List.mem_cons, forall_eq_or_imp] at hmid
    simp only [promotedAt, List.mem_cons, forall_eq_or_imp]
    obtain ⟨-, h2, -, -, h5, -⟩ := held_step s p.1 p.2 P hs
    exact ⟨by rw [← h2]; exact hmid.1, ih (update s p.1 p.2) (h5 hmid.1).1 hmid.2⟩

/-- C14. Minimum spacing between accepted transitions of `AdvancedButton`: if the polls at
times `t1` and `t2` both promote the stable level and no poll in between does, then the 32-bit
difference `t2 - t1` is greater than `debounceMs`; so the two timestamps differ; and a pressed
edge and the following released edge are more than `debounceMs` apart. -/
theorem promotions_spaced (s0 : AdvancedButton) (r1 : Bool) (t1 : Nat)
    (mid : List (Bool × Nat)) (r2 : Bool) (t2 : Nat) :
    (promotes s0 r1 t1 = true →
      (∀ b ∈ promotedAt (update s0 r1 t1) mid, b = false) →
      promotes (pollAll (update s0 r1 t1) mid) r2 t2 = true →
        sub32 t2 t1 > s0.debounceMs ∧ t2 ≠ t1) ∧
    ((update s0 r1 t1).pressed = true →
      (∀ x ∈ runPolls (update s0 r1 t1) mid, x.released = false) →
      (update (pollAll (update s0 r1 t1) mid) r2 t2).released = true →
        sub32 t2 t1 > s0.debounceMs) := by
  have key : promotes s0 r1 t1 = true →
      (∀ b ∈ promotedAt (update s0 r1 t1) mid, b = false) →
      promotes (pollAll (update s0 r1 t1) mid) r2 t2 = true →
        sub32 t2 t1 > s0.debounceMs := by
    intro h1 hmid h2
    obtain ⟨u1, -, u3⟩ := update_lastChangeTime s0 r1 t1
    obtain ⟨n1, n2⟩ := no_promotion_segment mid (update s0 r1 t1) hmid
    rw [h1] at u1
    simp only [promotes, Bool.and_eq_true, decide_eq_true_eq] at h2
    rw [n1, n2, u1, u3] at h2
    exact h2.2
  constructor
  · intro h1 hmid h2
    have := key h1 hmid h2
    refine ⟨this, ?_⟩
    intro h
    rw [h, sub32_self] at this
    omega
  · intro h1 hmid h2
    exact key ((edge_imp_promotes s0 r1 t1).1 h1)
      (held_no_promotion t1 mid _ (pressed_step s0 r1 t1 h1).1 hmid)
      ((edge_imp_promotes _ r2 t2).2 h2)

/-- Witness of C14: debounce 40, pull-up; the press promoted at 51 and the release promoted at
191, with an unpromoted bounce at 80 in between, are 140 apart. -/
theorem promotions_spaced_witness :
    sub32 191 51 > (begin (new 2 true 40 300 800)).debounceMs ∧ 191 ≠ 51 :=
  (promotions_spaced (begin (new 2 true 40 300 800)) LOW 51 [(HIGH, 80), (LOW, 90)] HIGH 191).1
    (by decide) (by decide) (by decide)

/-- C15. With `debounceMs = 0`, a poll whose sample differs from `stableState` promotes it if
and only if `now` differs from `lastChangeTime` (both being 32-bit clock values): the change is
accepted at any timestamp other than that of the last promotion and never at that timestamp. -/
theorem zero_debounce_promotion (s : AdvancedButton) (reading : Bool) (now : Nat)
    (hd : s.debounceMs = 0) (hr : reading ≠ s.stableState)
    (hnow : now < 4294967296) (hl : s.lastChangeTime < 4294967296) :
    (promotes s reading now = true ↔ now ≠ s.lastChangeTime) ∧
    ((update s reading now).stableState = reading ↔ now ≠ s.lastChangeTime) ∧
    (now ≠ s.lastChangeTime → (update s reading now).lastChangeTime = now) ∧
    (now = s.lastChangeTime →
      (update s reading now).stableState = s.stableState ∧
      (update s reading now).lastChangeTime = s.lastChangeTime) := by
  have hp : promotes s reading now = true ↔ now ≠ s.lastChangeTime := by
    simp only [promotes, Bool.and_eq_true, bne_iff_ne, ne_eq, decide_eq_true_eq, hd]
    unfold sub32
    constructor
    · rintro ⟨-, h⟩; omega
    · intro h; exact ⟨hr, by omega⟩
  obtain ⟨u1, u2, -⟩ := update_lastChangeTime s reading now
  refine ⟨hp, ?_, ?_, ?_⟩
  · rw [u2, ← hp]
    cases h : promotes s reading now
    · simp only [Bool.false_eq_true, if_false, iff_false]
      exact fun h' => hr h'.symm
    · simp
  · intro h
    rw [u1, if_pos (hp.2 h)]
  · intro h
    have : ¬ promotes s reading now = true := fun h' => hp.1 h' h
    rw [u1, u2, if_neg this, if_neg this]
    exact ⟨rfl, rfl⟩

/-- Witness of C15: debounce 0, pull-up, last promotion at 0: a `LOW` sample is promoted at 1. -/
theorem zero_debounce_promotion_witness :
    (update (begin (new 2 true 0 300 800)) LOW 1).stableState = LOW :=
  ((zero_debounce_promotion (begin (new 2 true 0 300 800)) LOW 1 (by decide) (by decide)
    (by decide) (by decide)).2.1).2 (by decide)

end AdvancedButton

theorem sub32_add_mod (t d : Nat) (hd : d < 4294967296) :
    sub32 ((t + d) % 4294967296) t = d := by
  unfold sub32; omega

namespace AdvancedButton

/-- C16. Clock wraparound: for a stored timestamp `t` and a true elapsed time `d` below
`2^32`, the poll at `now = (t + d) mod 2^32` computes the elapsed time exactly `d`, also when
`now < t`. So at that poll the debounce test passes iff the sample differs and
`d > debounceMs`; a held button with the latch clear emits `longPress` iff
`d >= longPressTime`; and an idle button with a click pending, accepting no press, emits
`singleClick` iff `d > doubleClickGap`. -/
theorem elapsed_across_wrap (s : AdvancedButton) (reading : Bool) (t d : Nat)
    (hd : d < 4294967296) :
    sub32 ((t + d) % 4294967296) t = d ∧
    (s.lastChangeTime = t →
      (promotes s reading ((t + d) % 4294967296) = true ↔
        (reading ≠ s.stableState ∧ d > s.debounceMs))) ∧
    (Held s t → s.longPressFired = false →
      ((update s reading ((t + d) % 4294967296)).longPress = true ↔ s.longPressTime ≤ d)) ∧
    (Idle s → s.waitingSecondClick = true → s.lastReleaseTime = t →
      (update s reading ((t + d) % 4294967296)).pressed = false →
      ((update s reading ((t + d) % 4294967296)).singleClick = true ↔ s.doubleClickGap < d)) := by
  have h := sub32_add_mod t d hd
  refine ⟨h, ?_, ?_, ?_⟩
  · intro hl
    simp only [promotes, Bool.and_eq_true, bne_iff_ne, ne_eq, decide_eq_true_eq, hl, h]
  · intro hs hf
    rw [(held_step s reading _ t hs).2.2.1, hf, h]
    simp
  · intro hs hw hl hp
    obtain ⟨-, -, -, -, -, g6, -⟩ := (idle_step s reading _ hs).2.2.2 hp
    rw [g6, hw, hl, h]
    simp

/-- Witness of C16: pull-up, threshold 800, pressed edge at `2^32 - 100`, still held with no
long press fired: the poll at 700 emits `longPress`, the poll at 699 does not. -/
theorem elapsed_across_wrap_witness :
    (pollAll (begin (new 2 true 40 300 800)) [(LOW, 4294967196)]).pressedTime
      = 4294967296 - 100 ∧
    (update (pollAll (begin (new 2 true 40 300 800)) [(LOW, 4294967196)]) LOW 700).longPress
      = true ∧
    (update (pollAll (begin (new 2 true 40 300 800)) [(LOW, 4294967196)]) LOW 699).longPress
      = false :=
  ⟨by decide,
    ((elapsed_across_wrap (pollAll (begin (new 2 true 40 300 800)) [(LOW, 4294967196)]) LOW
      4294967196 800 (by decide)).2.2.1 (by decide) (by decide)).2 (by decide),
    by
      have h := ((elapsed_across_wrap (pollAll (begin (new 2 true 40 300 800))
        [(LOW, 4294967196)]) LOW 4294967196 799 (by decide)).2.2.1 (by decide)
        (by decide)).1
      cases hl : (update (pollAll (begin (new 2 true 40 300 800)) [(LOW, 4294967196)])
        LOW 699).longPress
      · rfl
      · exact absurd (h hl) (by decide)⟩

end AdvancedButton

namespace Button

/-! ## The minimal detector `Button` -/

theorem update_fields (b : Button) (r : Bool) (t : Nat) :
    (b.update r t).currentState = r ∧
    (b.update r t).lastChangeTime = (if r = b.currentState then b.lastChangeTime else t) ∧
    (b.update r t).usePullup = b.usePullup ∧
    (b.update r t).debounceMs = b.debounceMs ∧
    (sub32 t (b.update r t).lastChangeTime > b.debounceMs →
      (b.update r t).lastStableState = r) ∧
    (¬ sub32 t (b.update r t).lastChangeTime > b.debounceMs →
      (b.update r t).lastStableState = b.lastStableState ∧
      (b.update r t).pressedEvent = false) := by
  have h0 := sub32_self t
  rcases b with ⟨pin, up, lct, d, lst, cur, ev⟩
  by_cases hr : r = cur
  · subst hr
    by_cases hd : sub32 t lct > d
    · cases up <;> cases lst <;> cases r <;> simp [update, pressTest, hd, HIGH, LOW]
    · simp [update, pressTest, hd]
  · have hd : ¬ (0 > d) := by omega
    simp [update, pressTest, hr, h0]

/-- After `update`, `pressedEvent` is set exactly when the stable level went from not pressed
to pressed. -/
theorem pressedEvent_iff (b : Button) (r : Bool) (t : Nat) :
    (b.update r t).pressedEvent = true ↔
      (b.isPressed = false ∧ (b.update r t).isPressed = true) := by
  have h0 := sub32_self t
  rcases b with ⟨pin, up, lct, d, lst, cur, ev⟩
  by_cases hr : r = cur
  · subst hr
    by_cases hd : sub32 t lct > d
    · cases up <;> cases lst <;> cases r <;> simp [update, pressTest, isPressed, hd, HIGH, LOW]
    · cases up <;> cases lst <;> simp [update, pressTest, isPressed, hd, HIGH, LOW]
  · have hd : ¬ (0 > d) := by omega
    cases up <;> cases lst <;> simp [update, pressTest, isPressed, hr, h0, HIGH, LOW]

/-- C18. `Button::wasPressed`: after `Button::update` it returns true if and only if that update
changed the stable state from not pressed to pressed (relative to polarity); it does not
return true after both of two consecutive updates; it returns false after an update that
accepts a release; and calling `wasPressed` or `isPressed` leaves the object unchanged. -/
theorem wasPressed_iff_press_accepted (b : Button) (reading reading2 : Bool) (now now2 : Nat) :
    (((b.update reading now).wasPressed).1 = true ↔
      (b.isPressed = false ∧ (b.update reading now).isPressed = true)) ∧
    ¬ (((b.update reading now).wasPressed).1 = true ∧
        (((b.update reading now).update reading2 now2).wasPressed).1 = true) ∧
    (b.isPressed = true → (b.update reading now).isPressed = false →
      ((b.update reading now).wasPressed).1 = false) ∧
    (b.wasPressed).2 = b ∧
    (b.callIsPressed).2 = b := by
  refine ⟨pressedEvent_iff b reading now, ?_, ?_, rfl, rfl⟩
  · rintro ⟨h1, h2⟩
    have k1 := (pressedEvent_iff b reading now).1 h1
    have k2 := (pressedEvent_iff (b.update reading now) reading2 now2).1 h2
    rw [k1.2] at k2
    exact absurd k2.1 (by simp)
  · intro h1 h2
    cases h : ((b.update reading now).wasPressed).1
    · rfl
    · have := ((pressedEvent_iff b reading now).1 h).2
      rw [h2] at this
      cases this

/-- Witness of C18: pull-up, debounce 50; the sample goes `LOW` at 10 and is still `LOW` at 61:
the second update accepts the press and `wasPressed` returns true. -/
theorem wasPressed_iff_press_accepted_witness :
    ((((begin (new 2 true 50)).update LOW 10).update LOW 61).wasPressed).1 = true :=
  ((wasPressed_iff_press_accepted ((begin (new 2 true 50)).update LOW 10) LOW LOW 61 61).1).2
    ⟨by decide, by decide⟩

end Button

/-! ## The two detectors side by side -/

/-- C17 as stated fails. Pull-up, debounce 50, both objects after `begin`, one poll
`(LOW, 100)`: `AdvancedButton` promotes the sample at once (`pressed` and `isPressed` true),
`Button` only starts its stability clock (`wasPressed` and `isPressed` false). -/
theorem detectors_differ_on_first_sample :
    (((Button.begin (Button.new 2 true 50)).pollAll [(LOW, 100)]).wasPressed).1 = false ∧
    ((AdvancedButton.begin (AdvancedButton.new 2 true 50 300 800)).pollAll
      [(LOW, 100)]).pressed = true ∧
    ((Button.begin (Button.new 2 true 50)).pollAll [(LOW, 100)]).isPressed = false ∧
    ((AdvancedButton.begin (AdvancedButton.new 2 true 50 300 800)).pollAll
      [(LOW, 100)]).isPressed = true := by
  decide

/-- Relation kept between a `Button` and an `AdvancedButton` fed the same polls: same polarity
and debounce, and whenever the full detector's stable level differs from the minimal
detector's current sample, its last promotion is no later than that sample's arrival. -/
theorem detectors_step (b : Button) (a : AdvancedButton) (r : Bool) (t T : Nat)
    (hup : a.usePullup = b.usePullup) (hd : a.debounceMs = b.debounceMs)
    (hb : b.lastChangeTime ≤ T) (ha : a.lastChangeTime ≤ T)
    (hrel : a.stableState ≠ b.currentState → a.lastChangeTime ≤ b.lastChangeTime)
    (hT : T ≤ t) :
    (a.update r t).usePullup = (b.update r t).usePullup ∧
    (a.update r t).debounceMs = (b.update r t).debounceMs ∧
    (b.update r t).lastChangeTime ≤ t ∧
    (a.update r t).lastChangeTime ≤ t ∧
    ((a.update r t).stableState ≠ (b.update r t).currentState →
      (a.update r t).lastChangeTime ≤ (b.update r t).lastChangeTime) := by
  obtain ⟨b1, b2, b3, b4, -, -⟩ := Button.update_fields b r t
  obtain ⟨a1, a2, a3⟩ := AdvancedButton.update_lastChangeTime a r t
  have a4 := (AdvancedButton.update_config a r t).2.2.2.1
  refine ⟨by rw [a4, b3, hup], by rw [a3, b4, hd], ?_, ?_, ?_⟩
  · rw [b2]; split <;> omega
  · rw [a1]; split <;> omega
  · rw [a1, a2, b1, b2]
    cases hp : AdvancedButton.promotes a r t
    · simp only [Bool.false_eq_true, if_false]
      intro hne
      by_cases hr : r = b.currentState
      · rw [if_pos hr]
        exact hrel (by rw [← hr]; exact hne)
      · rw [if_neg hr]; omega
    · simp

theorem detectors_settled (b : Button) (a : AdvancedButton) (r : Bool) (t T : Nat)
    (hup : a.usePullup = b.usePullup) (hd : a.debounceMs = b.debounceMs)
    (hb : b.lastChangeTime ≤ T) (ha : a.lastChangeTime ≤ T)
    (hrel : a.stableState ≠ b.currentState → a.lastChangeTime ≤ b.lastChangeTime)
    (hT : T ≤ t) (ht : t < 4294967296)
    (hset : sub32 t (b.update r t).lastChangeTime > b.debounceMs) :
    (b.update r t).isPressed = (a.update r t).isPressed := by
  obtain ⟨b1, b2, b3, b4, b5, -⟩ := Button.update_fields b r t
  obtain ⟨a1, a2, a3⟩ := AdvancedButton.update_lastChangeTime a r t
  have a4 := (AdvancedButton.update_config a r t).2.2.2.1
  have hlst := b5 hset
  have hst : (a.update r t).stableState = r := by
    rw [a2]
    cases hp : AdvancedButton.promotes a r t
    · simp only [Bool.false_eq_true, if_false]
      by_contra hne
      have hr : r = b.currentState := by
        by_contra hr
        rw [b2, if_neg hr, sub32_self] at hset
        omega
      rw [b2, if_pos hr] at hset
      have h1 := hrel (by rw [← hr]; exact hne)
      have h2 : sub32 t b.lastChangeTime = t - b.lastChangeTime :=
        sub32_eq_sub _ _ (by omega) ht
      have h3 : sub32 t a.lastChangeTime = t - a.lastChangeTime :=
        sub32_eq_sub _ _ (by omega) ht
      have : AdvancedButton.promotes a r t = true := by
        simp only [AdvancedButton.promotes, Bool.and_eq_true, bne_iff_ne, ne_eq,
          decide_eq_true_eq]
        exact ⟨fun h => hne h.symm, by rw [h3, hd]; rw [h2] at hset; omega⟩
      rw [hp] at this
      cases this
    · simp
  simp only [Button.isPressed, AdvancedButton.isPressed, AdvancedButton.pressedAt]
  rw [hlst, hst, b3, a4, hup]

theorem detectors_run (ps : List (Bool × Nat)) (b : Button) (a : AdvancedButton) (r : Bool)
    (t T : Nat)
    (hup : a.usePullup = b.usePullup) (hd : a.debounceMs = b.debounceMs)
    (hb : b.lastChangeTime ≤ T) (ha : a.lastChangeTime ≤ T)
    (hrel : a.stableState ≠ b.currentState → a.lastChangeTime ≤ b.lastChangeTime)
    (hT : ∀ p ∈ ps ++ [(r, t)], T ≤ p.2)
    (hsorted : List.Sorted (fun p q : Bool × Nat => p.2 ≤ q.2) (ps ++ [(r, t)]))
    (ht : t < 4294967296)
    (hset : sub32 t (b.pollAll (ps ++ [(r, t)])).lastChangeTime > b.debounceMs) :
    (b.pollAll (ps ++ [(r, t)])).isPressed = (a.pollAll (ps ++ [(r, t)])).isPressed := by
  induction ps generalizing b a T with
  | nil =>
    simp only [List.nil_append, Button.pollAll, AdvancedButton.pollAll] at hset ⊢
    exact detectors_settled b a r t T hup hd hb ha hrel (hT (r, t) (by simp)) ht hset
  | cons p ps ih =>
    simp only [List.cons_append, Button.pollAll, AdvancedButton.pollAll] at hset ⊢
    simp only [List.cons_append, List.Sorted, List.pairwise_cons] at hsorted
    obtain ⟨s1, s2, s3, s4, s5⟩ := detectors_step b a p.1 p.2 T hup hd hb ha hrel
      (hT p (by simp))
    have hd' := (Button.update_fields b p.1 p.2).2.2.2.1
    exact ih (b.update p.1 p.2) (a.update p.1 p.2) p.2 s1 s2 s3 s4 s5 hsorted.1 hsorted.2
      (by rw [hd']; exact hset)

/-- C17 amended. For every polarity, debounce value and sequence of polls with non-decreasing
times that do not wrap, applied after `begin` to a `Button` and to an `AdvancedButton` built
with the same polarity and debounce: after every poll at which the sample has been unchanged
for more than `debounceMs` (the test `now - lastChangeTime > debounceMs` of `Button::update`
passes), `Button::isPressed` equals `AdvancedButton::isPressed`. -/
theorem detectors_agree_when_settled (pinB pinA : Nat) (enablePullup : Bool)
    (debounce doubleClickWindow longPressThreshold : Nat)
    (ps : List (Bool × Nat)) (r : Bool) (t : Nat)
    (hsorted : List.Sorted (fun p q : Bool × Nat => p.2 ≤ q.2) (ps ++ [(r, t)]))
    (ht : t < 4294967296)
    (hset : sub32 t ((Button.begin (Button.new pinB enablePullup debounce)).pollAll
      (ps ++ [(r, t)])).lastChangeTime > debounce) :
    ((Button.begin (Button.new pinB enablePullup debounce)).pollAll (ps ++ [(r, t)])).isPressed =
      ((AdvancedButton.begin (AdvancedButton.new pinA enablePullup debounce doubleClickWindow
        longPressThreshold)).pollAll (ps ++ [(r, t)])).isPressed := by
  apply detectors_run ps _ _ r t 0
  · cases enablePullup <;> rfl
  · cases enablePullup <;> rfl
  · cases enablePullup <;> exact le_refl _
  · cases enablePullup <;> exact le_refl _
  · cases enablePullup <;> intro h <;> exact le_refl _
  · intro p _; exact Nat.zero_le _
  · exact hsorted
  · exact ht
  · have : (Button.begin (Button.new pinB enablePullup debounce)).debounceMs = debounce := by
      cases enablePullup <;> rfl
    rw [this]; exact hset

/-- Witness of C17 amended: pull-up, debounce 50; the sample goes `LOW` at 100 and is still
`LOW` at 151: both detectors report pressed. -/
theorem detectors_agree_when_settled_witness :
    ((Button.begin (Button.new 2 true 50)).pollAll [(LOW, 100), (LOW, 151)]).isPressed = true ∧
    ((AdvancedButton.begin (AdvancedButton.new 2 true 50 300 800)).pollAll
      [(LOW, 100), (LOW, 151)]).isPressed = true :=
  ⟨by decide,
    (detectors_agree_when_settled 2 2 true 50 300 800 [(LOW, 100)] LOW 151 (by decide)
      (by decide) (by decide)).symm.trans (by decide)⟩

namespace AdvancedButton

/-! ## Double-click window zero -/

/-- With `doubleClickGap = 0`, one poll keeps the invariant that a pending click has
`lastReleaseTime = lastChangeTime`, and emits no `doubleClick`. -/
theorem zero_window_step (s : AdvancedButton) (r : Bool) (t : Nat)
    (hg : s.doubleClickGap = 0)
    (hinv : s.waitingSecondClick = true → s.lastReleaseTime = s.lastChangeTime) :
    (update s r t).doubleClick = false ∧
    (update s r t).doubleClickGap = 0 ∧
    ((update s r t).waitingSecondClick = true →
      (update s r t).lastReleaseTime = (update s r t).lastChangeTime) := by
  have h0 := sub32_self t
  cases hp : promotes s r t
  · rw [update_of_not_promotes s r t hp]
    obtain ⟨-, -, -, c4, -, -, c7⟩ := checks_effect (clearFlags s) t
    refine ⟨by rw [c7]; rfl, ?_, ?_⟩
    · have := (update_config s r t).2.1
      rw [update_of_not_promotes s r t hp] at this
      rw [this, hg]
    · intro hw
      rw [c4] at hw
      have hw' : s.waitingSecondClick = true := by
        simp only [clearFlags, Bool.and_eq_true] at hw
        exact hw.1.1
      have e1 : (clickTimeout (holdCheck (clearFlags s) t) t).lastReleaseTime
          = s.lastReleaseTime := by
        simp only [clickTimeout, holdCheck, clearFlags]
        (repeat' split) <;> rfl
      have e2 : (clickTimeout (holdCheck (clearFlags s) t) t).lastChangeTime
          = s.lastChangeTime := by
        simp only [clickTimeout, holdCheck, clearFlags]
        (repeat' split) <;> rfl
      rw [e1, e2]
      exact hinv hw'
  · rw [update_of_promotes s r t hp]
    rcases s with ⟨pin, up, lct, pt, lrt, st, lst, w, f, d, g, L, sc, dc, lp, pr, rl⟩
    simp only [promotes, Bool.and_eq_true, decide_eq_true_eq] at hp
    simp only at hg hinv
    subst hg
    have hpos : 0 < sub32 t lct := by omega
    cases w
    · cases hc : pressedAt up r <;> cases hw : pressedAt up lst <;>
        by_cases hl : L ≤ sub32 t pt <;> by_cases hL0 : L = 0 <;> cases f <;>
        simp [clickTimeout, holdCheck, clearFlags, edgeEvents, shortRelease, isPressed, hc, hw,
          hl, h0, hL0]
    · have := hinv rfl
      subst this
      have hne : ¬ sub32 t lrt = 0 := by omega
      cases hc : pressedAt up r <;> cases hw : pressedAt up lst <;>
        by_cases hl : L ≤ sub32 t pt <;> by_cases hL0 : L = 0 <;> cases f <;>
        simp [clickTimeout, holdCheck, clearFlags, edgeEvents, shortRelease, isPressed, hc, hw,
          hl, h0, hL0, hne, hpos]

/-- C19. Degenerate configuration `doubleClickWindow = 0`: for every pin, polarity, debounce,
threshold and poll sequence applied to an `AdvancedButton` constructed with
`doubleClickWindow = 0`, with or without `begin`, no poll emits `doubleClick`; after every poll
a pending click has `lastReleaseTime = lastChangeTime`, the invariant that carries the
proof. -/
theorem zero_window_never_doubleClick (pinNumber : Nat) (enablePullup : Bool)
    (debounce longPressThreshold : Nat) (ps : List (Bool × Nat)) :
    (∀ x ∈ runPolls (begin (new pinNumber enablePullup debounce 0 longPressThreshold)) ps,
      x.doubleClick = false ∧
      (x.waitingSecondClick = true → x.lastReleaseTime = x.lastChangeTime)) ∧
    (∀ x ∈ runPolls (new pinNumber enablePullup debounce 0 longPressThreshold) ps,
      x.doubleClick = false ∧
      (x.waitingSecondClick = true → x.lastReleaseTime = x.lastChangeTime)) := by
  have run : ∀ (ps : List (Bool × Nat)) (s : AdvancedButton), s.doubleClickGap = 0 →
      (s.waitingSecondClick = true → s.lastReleaseTime = s.lastChangeTime) →
      ∀ x ∈ runPolls s ps, x.doubleClick = false ∧
        (x.waitingSecondClick = true → x.lastReleaseTime = x.lastChangeTime) := by
    intro ps
    induction ps with
    | nil => intro s _ _ x hx; simp [runPolls] at hx
    | cons p ps ih =>
      intro s hg hinv
      obtain ⟨z1, z2, z3⟩ := zero_window_step s p.1 p.2 hg hinv
      simp only [runPolls, List.mem_cons, forall_eq_or_imp]
      exact ⟨⟨z1, z3⟩, ih (update s p.1 p.2) z2 z3⟩
  constructor
  · apply run
    · cases enablePullup <;> rfl
    · cases enablePullup <;> intro h <;> cases h
  · apply run
    · rfl
    · intro h; cases h

end AdvancedButton

namespace LogicGate

/-! ## Logic gates -/

theorem applyAll_snoc (l : List Op) (g : LogicGate) (op : Op) :
    g.applyAll (l ++ [op]) = (g.applyAll l).apply op := by
  induction l generalizing g with
  | nil => rfl
  | cons x l ih => simp only [List.cons_append, applyAll]; exact ih _

theorem applyAll_pins (ops : List Op) (g : LogicGate) :
    (g.applyAll ops)._pinB = g._pinB ∧ (g.applyAll ops)._type = g._type := by
  induction ops generalizing g with
  | nil => exact ⟨rfl, rfl⟩
  | cons op ops ih =>
    have h : (g.apply op)._pinB = g._pinB ∧ (g.apply op)._type = g._type := by
      cases op <;> simp only [apply, begin, setInputs, setA, setB] <;>
        (try split) <;> first | exact ⟨rfl, rfl⟩ | simp
    simp only [applyAll]
    rw [(ih _).1, (ih _).2]
    exact h

theorem applyAll_no_pinB (ops : List Op) (g : LogicGate) (hp : g._pinB < 0)
    (hb : g._stateB = false) : (g.applyAll ops)._stateB = false := by
  induction ops generalizing g with
  | nil => exact hb
  | cons op ops ih =>
    have hn : ¬ g._pinB ≥ 0 := by omega
    have h : (g.apply op)._pinB = g._pinB ∧ (g.apply op)._stateB = g._stateB := by
      cases op <;> simp [apply, begin, setInputs, setA, setB, hn]
    simp only [applyAll]
    exact ih _ (by rw [h.1]; exact hp) (by rw [h.2]; exact hb)

/-- C20. `LogicGate::calculateOutput` returns, from the stored inputs `getA()` and `getB()`:
A and B for `GATE_AND`, A or B for `GATE_OR`, not A for `GATE_NOT`, not (A and B) for
`GATE_NAND`, A xor B for `GATE_XOR`. After `setInputs(a, b)` on a gate with a second input pin
(`_pinB >= 0`, as the two-input constructor gives for a pin number 0..127, whatever calls came
before) `getA() = a` and `getB() = b`. On a gate built with the single-input constructor, no
sequence of `begin`, `setInputs`, `setA`, `setB` calls changes `getB()`, which stays false. -/
theorem calculateOutput_truth_table (g : LogicGate) (a b : Bool) (pinA pinB : Int)
    (type : LogicGateType) (ops : List Op) :
    (g._type = LogicGateType.GATE_AND → g.calculateOutput = (g.getA && g.getB)) ∧
    (g._type = LogicGateType.GATE_OR → g.calculateOutput = (g.getA || g.getB)) ∧
    (g._type = LogicGateType.GATE_NOT → g.calculateOutput = !g.getA) ∧
    (g._type = LogicGateType.GATE_NAND → g.calculateOutput = !(g.getA && g.getB)) ∧
    (g._type = LogicGateType.GATE_XOR → g.calculateOutput = xor g.getA g.getB) ∧
    (0 ≤ g._pinB → (g.setInputs a b).getA = a ∧ (g.setInputs a b).getB = b) ∧
    (0 ≤ pinB → pinB ≤ 127 →
      (((new2 pinA pinB type).applyAll ops).setInputs a b).getA = a ∧
      (((new2 pinA pinB type).applyAll ops).setInputs a b).getB = b) ∧
    ((new1 pinA type).applyAll ops).getB = false ∧
    (((new1 pinA type).applyAll ops).setInputs a b).getB = false ∧
    (((new1 pinA type).applyAll ops).setB b).getB = false := by
  have hset : ∀ g : LogicGate, 0 ≤ g._pinB →
      (g.setInputs a b).getA = a ∧ (g.setInputs a b).getB = b := by
    intro g h
    simp [setInputs, getA, getB, h]
  have h1 : ∀ ops : List Op, ((new1 pinA type).applyAll ops).getB = false := by
    intro ops
    exact applyAll_no_pinB ops (new1 pinA type) (by simp [new1]) rfl
  refine ⟨?_, ?_, ?_, ?_, ?_, hset g, ?_, h1 ops, ?_, ?_⟩
  · intro h; simp [calculateOutput, getA, getB, h]
  · intro h; simp [calculateOutput, getA, getB, h]
  · intro h; simp [calculateOutput, getA, h]
  · intro h; simp [calculateOutput, getA, getB, h]
  · intro h
    simp only [calculateOutput, getA, getB, h]
  · intro h0 h127
    apply hset
    rw [(applyAll_pins ops _).1]
    simp only [new2, toInt8]
    omega
  · have h := h1 (ops ++ [Op.setInputs a b])
    rw [applyAll_snoc] at h
    exact h
  · have h := h1 (ops ++ [Op.setB b])
    rw [applyAll_snoc] at h
    exact h

/-- Witness of C20: a NAND gate on pins 4 and 5 after `begin` and `setInputs(true, true)`
outputs false. -/
theorem calculateOutput_truth_table_witness :
    (((new2 4 5 LogicGateType.GATE_NAND).begin).setInputs true true).calculateOutput = false := by
  have h := (calculateOutput_truth_table
    (((new2 4 5 LogicGateType.GATE_NAND).begin).setInputs true true) true true 4 5
    LogicGateType.GATE_NAND [Op.begin]).2.2.2.1 (by decide)
  have h2 := (calculateOutput_truth_table (new2 4 5 LogicGateType.GATE_NAND) true true 4 5
    LogicGateType.GATE_NAND [Op.begin]).2.2.2.2.2.2.1 (by decide) (by decide)
  rw [h]
  simp only [applyAll, apply] at h2
  rw [h2.1, h2.2]
  rfl

end LogicGate

namespace BCDEncoder

/-! ## BCD encoder -/

theorem displayDigit_small (e : BCDEncoder) (d : Nat) (hd : d ≤ 15) :
    (e.displayDigit d).1._currentDigit = d ∧
    ∃ a b c dd,
      (e.displayDigit d).2 = [(e._pinA, a), (e._pinB, b), (e._pinC, c), (e._pinD, dd)] ∧
      levelBit a + 2 * levelBit b + 4 * levelBit c + 8 * levelBit dd = d := by
  have h : ¬ d > 15 := by omega
  refine ⟨by simp [displayDigit, h], decide (d &&& 0x01 ≠ 0), decide (d &&& 0x02 ≠ 0),
    decide (d &&& 0x04 ≠ 0), decide (d &&& 0x08 ≠ 0), by simp [displayDigit, h], ?_⟩
  interval_cases d <;> decide

/-- C21. `BCDEncoder::displayDigit`: for every digit `d`, the stored digit `getCurrentDigit()`
is `min(d, 15)` and the four levels written to pins A, B, C, D, in this order, are its binary
digits: `A + 2*B + 4*C + 8*D = min(d, 15)` with `HIGH = 1` and `LOW = 0`; so for `d <= 15` the
levels decode back to `d`; and `clear()` leaves `getCurrentDigit() = 15`. -/
theorem displayDigit_writes_binary (e : BCDEncoder) (d : Nat) :
    (e.displayDigit d).1.getCurrentDigit = min d 15 ∧
    (∃ a b c dd,
      (e.displayDigit d).2 = [(e._pinA, a), (e._pinB, b), (e._pinC, c), (e._pinD, dd)] ∧
      levelBit a + 2 * levelBit b + 4 * levelBit c + 8 * levelBit dd = min d 15) ∧
    (d ≤ 15 → ∃ a b c dd,
      (e.displayDigit d).2 = [(e._pinA, a), (e._pinB, b), (e._pinC, c), (e._pinD, dd)] ∧
      levelBit a + 2 * levelBit b + 4 * levelBit c + 8 * levelBit dd = d) ∧
    (e.clear).1.getCurrentDigit = 15 := by
  have hclamp : e.displayDigit d = e.displayDigit (min d 15) := by
    by_cases h : d > 15
    · have : min d 15 = 15 := by omega
      rw [this]
      simp [displayDigit, h]
    · have : min d 15 = d := by omega
      rw [this]
  have hs := displayDigit_small e (min d 15) (by omega)
  refine ⟨?_, ?_, ?_, ?_⟩
  · rw [hclamp]; exact hs.1
  · rw [hclamp]; exact hs.2
  · intro h; exact (displayDigit_small e d h).2
  · simp only [clear, getCurrentDigit]
    split <;> rfl

/-- Witness of C21: digit 9 is written as A = HIGH, B = LOW, C = LOW, D = HIGH. -/
theorem displayDigit_writes_binary_witness :
    ((new4 4 5 6 7).displayDigit 9).2 = [(4, HIGH), (5, LOW), (6, LOW), (7, HIGH)] ∧
    ∃ a b c dd,
      ((new4 4 5 6 7).displayDigit 9).2 = [((new4 4 5 6 7)._pinA, a), ((new4 4 5 6 7)._pinB, b),
        ((new4 4 5 6 7)._pinC, c), ((new4 4 5 6 7)._pinD, dd)] ∧
      levelBit a + 2 * levelBit b + 4 * levelBit c + 8 * levelBit dd = 9 :=
  ⟨by decide, (displayDigit_writes_binary (new4 4 5 6 7) 9).2.2.1 (by decide)⟩

end BCDEncoder

namespace SevenSegmentMultiplex

/-! ## Multiplexed 7-segment display -/

/-- C22. `SevenSegmentMultiplex::showNumber`: after `showNumber(v)`, `getNumber()` is
`min(v, 99)` on a 2-digit display and `min(v, 9999)` on a 4-digit display, and the object is the
old one with only `_displayValue` replaced. -/
theorem showNumber_clamps (s : SevenSegmentMultiplex) (v : Nat) :
    (s._numDigits = 2 →
      (s.showNumber v).getNumber = min v 99 ∧
      s.showNumber v = { s with _displayValue := min v 99 }) ∧
    (s._numDigits = 4 →
      (s.showNumber v).getNumber = min v 9999 ∧
      s.showNumber v = { s with _displayValue := min v 9999 }) := by
  constructor
  · intro h
    by_cases hv : v > 99
    · have : min v 99 = 99 := by omega
      simp [showNumber, getNumber, h, hv, this]
    · have : min v 99 = v := by omega
      simp [showNumber, getNumber, h, hv, this]
  · intro h
    by_cases hv : v > 9999
    · have : min v 9999 = 9999 := by omega
      simp [showNumber, getNumber, h, hv, this]
    · have : min v 9999 = v := by omega
      simp [showNumber, getNumber, h, hv, this]

/-- Witness of C22: 12345 on a 4-digit display is stored as 9999. -/
theorem showNumber_clamps_witness :
    ((new4 1 2 3 4 5 6 7 8 9 10 11 true).showNumber 12345).getNumber = 9999 :=
  ((showNumber_clamps (new4 1 2 3 4 5 6 7 8 9 10 11 true) 12345).2 (by decide)).1

/-- When a scan is due, `update` passes `digits[_currentDigit]` to `displayDigit`. -/
theorem update_shows (s : SevenSegmentMultiplex) (now : Nat)
    (hdue : ¬ sub32 now s._lastScan < s._scanInterval) :
    (s.update now).2 = (scanDigits s).get? s._currentDigit := by
  simp only [update, hdue, if_false]
  rfl

end SevenSegmentMultiplex

namespace SevenSegmentMultiplex

/-- C23 as stated fails. A 4-digit display as constructed (leading zeros disabled) after
`showTime(9, 27)`: the digits scanned at positions 0..3 are blank (`-1`), 9, 2, 7, not
0, 9, 2, 7; the first due `update` passes `-1` to `displayDigit`. -/
theorem showTime_blanks_leading_zero :
    scanDigits ((new4 1 2 3 4 5 6 7 8 9 10 11 true).showTime 9 27) = [-1, 9, 2, 7] ∧
    scanDigits ((new4 1 2 3 4 5 6 7 8 9 10 11 true).showTime 9 27) ≠ [0, 9, 2, 7] ∧
    (((new4 1 2 3 4 5 6 7 8 9 10 11 true).showTime 9 27).update 1000).2 = some (-1) := by
  decide

/-- C23 amended. `SevenSegmentMultiplex::showTime` on a 4-digit display, with `h = min(hours,
23)` and `m = min(minutes, 59)`: the stored value is `100 * h + m`; with leading zeros enabled
the digits that `update` scans at positions 0..3 are `h / 10`, `h % 10`, `m / 10`, `m % 10`
(09:27 gives 0, 9, 2, 7); with leading zeros disabled the same digits are scanned except that
position 0 is blank when the value is below 1000, position 1 when it is below 100 and position
2 when it is below 10; when a scan is due `update` shows the digit at `_currentDigit`. On a
display that has not 4 digits `showTime` changes nothing. -/
theorem showTime_digits (s : SevenSegmentMultiplex) (hours minutes now : Nat) :
    (s._numDigits = 4 →
      (s.showTime hours minutes).getNumber = 100 * min hours 23 + min minutes 59 ∧
      (s._leadingZeros = true →
        scanDigits (s.showTime hours minutes) =
          [((min hours 23 / 10 : Nat) : Int), ((min hours 23 % 10 : Nat) : Int),
           ((min minutes 59 / 10 : Nat) : Int), ((min minutes 59 % 10 : Nat) : Int)]) ∧
      (s._leadingZeros = false →
        scanDigits (s.showTime hours minutes) =
          [if 100 * min hours 23 + min minutes 59 < 1000 then -1
             else ((min hours 23 / 10 : Nat) : Int),
           if 100 * min hours 23 + min minutes 59 < 100 then -1
             else ((min hours 23 % 10 : Nat) : Int),
           if 100 * min hours 23 + min minutes 59 < 10 then -1
             else ((min minutes 59 / 10 : Nat) : Int),
           ((min minutes 59 % 10 : Nat) : Int)]) ∧
      (¬ sub32 now (s.showTime hours minutes)._lastScan <
          (s.showTime hours minutes)._scanInterval →
        ((s.showTime hours minutes).update now).2 =
          (scanDigits (s.showTime hours minutes)).get? (s.showTime hours minutes)._currentDigit)) ∧
    (s._numDigits ≠ 4 → s.showTime hours minutes = s) := by
  constructor
  · intro h4
    have hval : (s.showTime hours minutes)._displayValue = 100 * min hours 23 + min minutes 59 := by
      simp only [showTime, h4, ne_eq, not_true_eq_false, if_false]
      have e1 : (if hours > 23 then 23 else hours) = min hours 23 := by split <;> omega
      have e2 : (if minutes > 59 then 59 else minutes) = min minutes 59 := by split <;> omega
      rw [e1, e2]
      omega
    have hn : (s.showTime hours minutes)._numDigits = 4 := by
      simp [showTime, h4]
    have hz : (s.showTime hours minutes)._leadingZeros = s._leadingZeros := by
      simp [showTime, h4]
    have hH : min hours 23 ≤ 23 := by omega
    have hM : min minutes 59 ≤ 59 := by omega
    generalize min hours 23 = H at hval hH ⊢
    generalize min minutes 59 = M at hval hM ⊢
    refine ⟨hval, ?_, ?_, update_shows _ now⟩
    · intro hl
      have a1 : (100 * H + M) / 1000 % 10 = H / 10 := by omega
      have a2 : (100 * H + M) / 100 % 10 = H % 10 := by omega
      have a3 : (100 * H + M) / 10 % 10 = M / 10 := by omega
      have a4 : (100 * H + M) % 10 = M % 10 := by omega
      simp [scanDigits, hn, hz, hl, hval, a1, a2, a3, a4]
    · intro hl
      have a1 : (100 * H + M) / 1000 % 10 = H / 10 := by omega
      have a2 : (100 * H + M) / 100 % 10 = H % 10 := by omega
      have a3 : (100 * H + M) / 10 % 10 = M / 10 := by omega
      have a4 : (100 * H + M) % 10 = M % 10 := by omega
      simp [scanDigits, hn, hz, hl, hval, a1, a2, a3, a4]
  · intro h
    simp [showTime, h]

/-- Witness of C23 amended: with leading zeros enabled 09:27 is scanned as 0, 9, 2, 7. -/
theorem showTime_digits_witness :
    scanDigits (((new4 1 2 3 4 5 6 7 8 9 10 11 true).setLeadingZeros true).showTime 9 27)
      = [0, 9, 2, 7] :=
  (((showTime_digits ((new4 1 2 3 4 5 6 7 8 9 10 11 true).setLeadingZeros true) 9 27 0).1
    (by decide)).2.1 (by decide)).trans (by decide)

end SevenSegmentMultiplex

namespace SevenSegmentMultiplex

/-- C30. Digit extraction in `SevenSegmentMultiplex::update`, for an `n`-digit display (`n` = 2
or 4), a stored value `v < 10^n` and a position `i < n` (0 = leftmost): with leading zeros
enabled the digit at position `i` is `(v / 10^(n-1-i)) mod 10`; with leading zeros disabled
position `i` is blank (`-1`) if and only if `i < n-1` and `v < 10^(n-1-i)`, and otherwise shows
the same digit; so the rightmost position always shows `v mod 10`. When a scan is due, `update`
shows the digit at position `_currentDigit`. -/
theorem scanDigits_decimal (s : SevenSegmentMultiplex) (i now : Nat)
    (hn : s._numDigits = 2 ∨ s._numDigits = 4)
    (hv : s._displayValue < 10 ^ s._numDigits)
    (hi : i < s._numDigits) :
    (s._leadingZeros = true →
      (scanDigits s).get? i =
        some (((s._displayValue / 10 ^ (s._numDigits - 1 - i)) % 10 : Nat) : Int)) ∧
    (s._leadingZeros = false →
      ((scanDigits s).get? i = some (-1) ↔
        (i < s._numDigits - 1 ∧ s._displayValue < 10 ^ (s._numDigits - 1 - i))) ∧
      (¬ (i < s._numDigits - 1 ∧ s._displayValue < 10 ^ (s._numDigits - 1 - i)) →
        (scanDigits s).get? i =
          some (((s._displayValue / 10 ^ (s._numDigits - 1 - i)) % 10 : Nat) : Int))) ∧
    (scanDigits s).get? (s._numDigits - 1) = some ((s._displayValue % 10 : Nat) : Int) ∧
    (¬ sub32 now s._lastScan < s._scanInterval →
      (s.update now).2 = (scanDigits s).get? s._currentDigit) := by
  have hup := update_shows s now
  rcases s with ⟨sp, dp, n, v, cur, ls, si, lz, dpt, dpp, cc⟩
  simp only at hn hv hi ⊢
  refine ⟨?_, ?_, ?_, hup⟩
  · intro hl
    subst hl
    rcases hn with hn | hn <;> subst hn <;> interval_cases i <;>
      simp [scanDigits]
  · intro hl
    subst hl
    rcases hn with hn | hn <;> subst hn <;> interval_cases i <;>
      simp [scanDigits] <;> omega
  · rcases hn with hn | hn <;> subst hn <;> cases lz <;> simp [scanDigits]

/-- Witness of C30: the 4-digit display holding 42 without leading zeros is blank at positions
0 and 1 and shows 4 at position 2. -/
theorem scanDigits_decimal_witness :
    (scanDigits ((new4 1 2 3 4 5 6 7 8 9 10 11 true).showNumber 42)).get? 1 = some (-1) ∧
    (scanDigits ((new4 1 2 3 4 5 6 7 8 9 10 11 true).showNumber 42)).get? 3 = some 2 :=
  ⟨((scanDigits_decimal ((new4 1 2 3 4 5 6 7 8 9 10 11 true).showNumber 42) 1 0
      (by decide) (by decide) (by decide)).2.1 (by decide)).1.2 (by decide),
    (scanDigits_decimal ((new4 1 2 3 4 5 6 7 8 9 10 11 true).showNumber 42) 1 0
      (by decide) (by decide) (by decide)).2.2.1⟩

end SevenSegmentMultiplex

namespace RelayController

/-! ## Relay -/

theorem relay_apply_level (r : RelayController) (op : Op) :
    (r.apply op).1.inverted = r.inverted ∧
    ((r.apply op).2 = HIGH ↔ (r.apply op).1.isOn ≠ (r.apply op).1.inverted) := by
  rcases r with ⟨pin, st, inv⟩
  cases op with
  | turnOn => cases inv <;> simp [apply, turnOn, isOn, HIGH, LOW]
  | turnOff => cases inv <;> simp [apply, turnOff, isOn, HIGH, LOW]
  | toggle => cases inv <;> cases st <;> simp [apply, toggle, turnOn, turnOff, isOn, HIGH, LOW]
  | setState b =>
    cases inv <;> cases b <;> simp [apply, setState, turnOn, turnOff, isOn, HIGH, LOW]

theorem relay_applyAll_level (ops : List Op) (w : RelayController × Bool)
    (h : w.2 = HIGH ↔ w.1.isOn ≠ w.1.inverted) :
    (applyAll w ops).1.inverted = w.1.inverted ∧
    ((applyAll w ops).2 = HIGH ↔ (applyAll w ops).1.isOn ≠ (applyAll w ops).1.inverted) := by
  induction ops generalizing w with
  | nil => exact ⟨rfl, h⟩
  | cons op ops ih =>
    obtain ⟨a1, a2⟩ := relay_apply_level w.1 op
    obtain ⟨i1, i2⟩ := ih (w.1.apply op) a2
    simp only [applyAll]
    exact ⟨by rw [i1, a1], i2⟩

/-- C24. `RelayController`: `begin()` leaves `isOn()` false; after `on()`, `off()` and
`setState(b)`, `isOn()` is true, false and `b`; `toggle()` negates `isOn()` and two toggles
restore it; and after `begin()` and any sequence of `on`/`off`/`toggle`/`setState` calls the
last level written to the pin is `HIGH` if and only if `isOn()` differs from the `inverted`
flag. -/
theorem relay_state_and_level (r : RelayController) (b : Bool) (pinNumber : Nat)
    (invertLogic : Bool) (ops : List Op) :
    (r.begin).1.isOn = false ∧
    (r.turnOn).1.isOn = true ∧
    (r.turnOff).1.isOn = false ∧
    (r.setState b).1.isOn = b ∧
    (r.toggle).1.isOn = !r.isOn ∧
    ((r.toggle).1.toggle).1.isOn = r.isOn ∧
    ((applyAll (begin (new pinNumber invertLogic)) ops).2 = HIGH ↔
      (applyAll (begin (new pinNumber invertLogic)) ops).1.isOn ≠ invertLogic) := by
  rcases r with ⟨pin, st, inv⟩
  refine ⟨?_, ?_, ?_, ?_, ?_, ?_, ?_⟩
  · cases inv <;> rfl
  · cases inv <;> rfl
  · cases inv <;> rfl
  · cases inv <;> cases b <;> rfl
  · cases inv <;> cases st <;> rfl
  · cases inv <;> cases st <;> rfl
  · have h0 : (begin (new pinNumber invertLogic)).2 = HIGH ↔
        (begin (new pinNumber invertLogic)).1.isOn ≠ (begin (new pinNumber invertLogic)).1.inverted := by
      cases invertLogic <;> simp [begin, new, turnOff, isOn, HIGH, LOW]
    obtain ⟨i1, i2⟩ := relay_applyAll_level ops _ h0
    have h1 : (begin (new pinNumber invertLogic)).1.inverted = invertLogic := by
      cases invertLogic <;> rfl
    rw [i1, h1] at i2
    exact i2

end RelayController

namespace LEDController

/-! ## LED -/

theorem led_apply_level (l : LEDController) (lvl : Option Bool) (op : Op)
    (h : lvl = some (if l.isOn = true then HIGH else LOW)) :
    ((l.apply op).2).orElse (fun _ => lvl) =
      some (if (l.apply op).1.isOn = true then HIGH else LOW) := by
  rcases l with ⟨pin, st, bl, iv, lt⟩
  subst h
  cases op with
  | turnOn => simp [apply, turnOn, isOn, HIGH]
  | turnOff => simp [apply, turnOff, isOn, LOW]
  | toggle => cases st <;> simp [apply, toggle, isOn, HIGH, LOW]
  | startBlink ms now => cases st <;> simp [apply, startBlink, isOn, HIGH, LOW]
  | stopBlink => cases st <;> simp [apply, stopBlink, isOn, HIGH, LOW]
  | update now =>
    cases bl <;> cases st <;> by_cases hd : sub32 now lt ≥ iv <;>
      simp [apply, update, isOn, HIGH, LOW, hd]

theorem led_applyAll_level (ops : List Op) (w : LEDController × Option Bool)
    (h : w.2 = some (if w.1.isOn = true then HIGH else LOW)) :
    (applyAll w ops).2 = some (if (applyAll w ops).1.isOn = true then HIGH else LOW) := by
  induction ops generalizing w with
  | nil => exact h
  | cons op ops ih =>
    simp only [applyAll]
    exact ih _ (led_apply_level w.1 w.2 op h)

theorem applyAll_not_blinking (ops : List Op) (w : LEDController × Option Bool)
    (hb : w.1.blinking = false) (hops : ∀ op ∈ ops, ∀ ms t, op ≠ Op.startBlink ms t) :
    (applyAll w ops).1.blinking = false := by
  induction ops generalizing w with
  | nil => exact hb
  | cons op ops ih =>
    simp only [List.mem_cons, forall_eq_or_imp] at hops
    simp only [applyAll]
    apply ih _ _ hops.2
    cases op with
    | turnOn => rfl
    | turnOff => rfl
    | toggle => rfl
    | startBlink ms now => exact absurd rfl (hops.1 ms now)
    | stopBlink => rfl
    | update now => simp [apply, update, hb]

theorem applyAll_updates (clocks : List Nat) (w : LEDController × Option Bool)
    (hb : w.1.blinking = false) :
    applyAll w (clocks.map Op.update) = w := by
  induction clocks generalizing w with
  | nil => rfl
  | cons t ts ih =>
    have h1 : w.1.apply (Op.update t) = (w.1, none) := by simp [apply, update, hb]
    simp only [List.map_cons, applyAll, h1, Option.orElse]
    exact ih _ hb

/-- C25. `LEDController`: `on()`, `off()` and `toggle()` set `isOn()` to true, false and its
negation and stop blinking; `stopBlink()` stops blinking and leaves `isOn()` unchanged; while
not blinking `update()` changes nothing at any clock value, through any number of calls, and
blinking stays off along any calls other than `startBlink`; while blinking, `update()` negates
`isOn()` and sets `lastToggle = now` if and only if the 32-bit difference `now - lastToggle`
is at least `interval`, and otherwise changes nothing; and after `begin()` and any sequence of
calls the last level written to the pin is `HIGH` if and only if `isOn()`. -/
theorem led_state_and_blink (l : LEDController) (lvl : Option Bool) (now pinNumber : Nat)
    (clocks : List Nat) (ops : List Op) :
    ((l.turnOn).1.isOn = true ∧ (l.turnOn).1.blinking = false) ∧
    ((l.turnOff).1.isOn = false ∧ (l.turnOff).1.blinking = false) ∧
    ((l.toggle).1.isOn = (!l.isOn) ∧ (l.toggle).1.blinking = false) ∧
    ((l.stopBlink).1.isOn = l.isOn ∧ (l.stopBlink).1.blinking = false) ∧
    (l.blinking = false → l.update now = (l, none)) ∧
    (l.blinking = false → applyAll (l, lvl) (clocks.map Op.update) = (l, lvl)) ∧
    (l.blinking = false → (∀ op ∈ ops, ∀ ms t, op ≠ Op.startBlink ms t) →
      (applyAll (l, lvl) ops).1.blinking = false) ∧
    (l.blinking = true →
      (((l.update now).1.isOn = (!l.isOn) ∧ (l.update now).1.lastToggle = now) ↔
        sub32 now l.lastToggle ≥ l.interval)) ∧
    (l.blinking = true → ¬ sub32 now l.lastToggle ≥ l.interval → l.update now = (l, none)) ∧
    ((applyAll (begin (new pinNumber)) ops).2 =
      some (if (applyAll (begin (new pinNumber)) ops).1.isOn = true then HIGH else LOW)) := by
  refine ⟨⟨rfl, rfl⟩, ⟨rfl, rfl⟩, ⟨rfl, rfl⟩, ⟨rfl, rfl⟩, ?_, ?_, ?_, ?_, ?_, ?_⟩
  · intro hb; simp [update, hb]
  · intro hb; exact applyAll_updates clocks (l, lvl) hb
  · intro hb hops; exact applyAll_not_blinking ops (l, lvl) hb hops
  · intro hb
    rcases l with ⟨pin, st, bl, iv, lt⟩
    simp only at hb
    subst hb
    by_cases hd : sub32 now lt ≥ iv
    · simp [update, isOn, hd]
    · cases st <;> simp [update, isOn, hd]
  · intro hb hd; simp [update, hb, hd]
  · exact led_applyAll_level ops _ rfl

/-- Witness of C25: blinking with interval 500 since 0; `update` at 499 changes nothing,
`update` at 500 turns the LED on. -/
theorem led_state_and_blink_witness :
    ((((begin (new 13)).1.startBlink 500 0).1.update 499).1.isOn = false) ∧
    ((((begin (new 13)).1.startBlink 500 0).1.update 500).1.isOn = true) ∧
    ((((begin (new 13)).1.startBlink 500 0).1.update 500).1.lastToggle = 500) :=
  ⟨by decide,
    (((led_state_and_blink ((begin (new 13)).1.startBlink 500 0).1 none 500 13 [] []).2.2.2.2.2.2.2.1
      (by decide)).2 (by decide)).1.trans (by decide),
    (((led_state_and_blink ((begin (new 13)).1.startBlink 500 0).1 none 500 13 [] []).2.2.2.2.2.2.2.1
      (by decide)).2 (by decide)).2⟩

end LEDController

namespace TemperatureSensor

/-! ## Temperature sensor -/

/-- C26 (the code departs from the claim). With the default thresholds `coolMax = 28` and
`warmMax = 32`, a last reading exactly equal to `coolMax` is classified `TEMP_WARM` (string
`WARM`), not `TEMP_COOL`, and a reading exactly equal to `warmMax` is classified `TEMP_HOT`,
not `TEMP_WARM`: both tests of `getTemperatureLevel` are strict. -/
theorem getTemperatureLevel_at_threshold :
    getTemperatureLevel ⟨4, 11, 28, 50, true, 30, 28⟩ 28 32 = TempLevel.TEMP_WARM ∧
    getTemperatureLevelString ⟨4, 11, 28, 50, true, 30, 28⟩ 28 32 = "WARM" ∧
    getTemperatureLevel ⟨4, 11, 32, 50, true, 30, 28⟩ 28 32 = TempLevel.TEMP_HOT ∧
    getTemperatureLevelString ⟨4, 11, 32, 50, true, 30, 28⟩ 28 32 = "HOT" := by
  have h1 : getTemperatureLevel ⟨4, 11, 28, 50, true, 30, 28⟩ 28 32 = TempLevel.TEMP_WARM := by
    norm_num [getTemperatureLevel]
  have h2 : getTemperatureLevel ⟨4, 11, 32, 50, true, 30, 28⟩ 28 32 = TempLevel.TEMP_HOT := by
    norm_num [getTemperatureLevel]
  refine ⟨h1, ?_, h2, ?_⟩
  · simp only [getTemperatureLevelString, h1]
  · simp only [getTemperatureLevelString, h2]

end TemperatureSensor

namespace ClockGenerator

/-! ## Clock generator -/

/-- The frequency invariant: the frequency is within 1..1000 and the period is the quotient. -/
theorem period_bounds (f : Nat) (h1 : 1 ≤ f) (h2 : f ≤ 1000) :
    1000 ≤ 1000000 / f ∧ 1000000 / f ≤ 1000000 ∧ 500 ≤ 1000000 / f / 2 := by
  have a : 1000 ≤ 1000000 / f := by
    rw [Nat.le_div_iff_mul_le (by omega)]
    omega
  have b : 1000000 / f ≤ 1000000 := Nat.div_le_self _ _
  refine ⟨a, b, ?_⟩
  omega

theorem setFrequency_result (c : ClockGenerator) (f : Nat) :
    ∃ c1, c.setFrequency f = some c1 ∧
      c1._frequency = min (max f 1) 1000 ∧
      c1._period = 1000000 / c1._frequency ∧
      c1._pin = c._pin ∧ c1._lastToggle = c._lastToggle ∧ c1._state = c._state ∧
      c1._enabled = c._enabled := by
  have hf : (if (if f = 0 then 1 else f) > 1000 then 1000 else (if f = 0 then 1 else f))
      = min (max f 1) 1000 := by
    split <;> split <;> omega
  have hne : min (max f 1) 1000 ≠ 0 := by omega
  simp only [setFrequency, hf, checkedDiv, hne, if_false, Option.map_some']
  exact ⟨_, rfl, rfl, rfl, rfl, rfl, rfl, rfl⟩

theorem apply_invariant (c : ClockGenerator) (op : Op)
    (h : 1 ≤ c._frequency ∧ c._frequency ≤ 1000 ∧ c._period = 1000000 / c._frequency) :
    ∃ c1, c.apply op = some c1 ∧
      1 ≤ c1._frequency ∧ c1._frequency ≤ 1000 ∧ c1._period = 1000000 / c1._frequency := by
  cases op with
  | begin f =>
    obtain ⟨c1, e, hfr, hp, -⟩ := setFrequency_result { c with _state := false } f
    exact ⟨c1, e, by omega, by omega, hp⟩
  | setFrequency f =>
    obtain ⟨c1, e, hfr, hp, -⟩ := setFrequency_result c f
    exact ⟨c1, e, by omega, by omega, hp⟩
  | start now => exact ⟨_, rfl, h⟩
  | stop => exact ⟨_, rfl, h⟩
  | pulse => exact ⟨_, rfl, h⟩
  | update now =>
    refine ⟨_, rfl, ?_⟩
    simp only [update]
    split
    · exact h
    · split <;> exact h

theorem applyAll_invariant (ops : List Op) (c : ClockGenerator)
    (h : 1 ≤ c._frequency ∧ c._frequency ≤ 1000 ∧ c._period = 1000000 / c._frequency) :
    ∃ c1, c.applyAll ops = some c1 ∧
      1 ≤ c1._frequency ∧ c1._frequency ≤ 1000 ∧ c1._period = 1000000 / c1._frequency := by
  induction ops generalizing c with
  | nil => exact ⟨c, rfl, h⟩
  | cons op ops ih =>
    obtain ⟨c1, e, h1⟩ := apply_invariant c op h
    obtain ⟨c2, e2, h2⟩ := ih c1 h1
    exact ⟨c2, by simp only [applyAll, e, Option.some_bind, e2], h2⟩

/-- C27. `ClockGenerator` frequency invariant: for every argument `f`, `setFrequency(f)` and
`begin(f)` complete without dividing by zero and leave `getFrequency() = min(max(f, 1), 1000)`
and the period equal to `1000000 / getFrequency()` by integer division; after construction
and any sequence of method calls `1 <= frequency <= 1000` and `1000 <= period <= 1000000`,
so the half period is at least 500; and `update()` toggles the output, setting
`_lastToggle = now`, if and only if the generator is running and the 32-bit difference
`now - _lastToggle` is at least `period / 2`. -/
theorem clock_frequency_invariant (c : ClockGenerator) (f now : Nat) (pin : Int)
    (ops : List Op) :
    (∃ c1, c.setFrequency f = some c1 ∧
      c1.getFrequency = min (max f 1) 1000 ∧ c1._period = 1000000 / c1.getFrequency) ∧
    (∃ c1, c.begin f = some c1 ∧
      c1.getFrequency = min (max f 1) 1000 ∧ c1._period = 1000000 / c1.getFrequency) ∧
    (∃ c1, (new pin).applyAll ops = some c1 ∧
      1 ≤ c1.getFrequency ∧ c1.getFrequency ≤ 1000 ∧
      c1._period = 1000000 / c1.getFrequency ∧
      1000 ≤ c1._period ∧ c1._period ≤ 1000000 ∧ 500 ≤ c1._period / 2) ∧
    ((c.update now)._state = (!c._state) ↔
      (c.isRunning = true ∧ sub32 now c._lastToggle ≥ c._period / 2)) ∧
    ((c.update now)._state = (!c._state) → (c.update now)._lastToggle = now) ∧
    ((c.update now)._state = c._state → c.update now = c) := by
  refine ⟨?_, ?_, ?_, ?_, ?_, ?_⟩
  · obtain ⟨c1, e, hfr, hp, -⟩ := setFrequency_result c f
    exact ⟨c1, e, hfr, hp⟩
  · obtain ⟨c1, e, hfr, hp, -⟩ := setFrequency_result { c with _state := false } f
    exact ⟨c1, e, hfr, hp⟩
  · obtain ⟨c1, e, h1, h2, h3⟩ := applyAll_invariant ops (new pin)
      ⟨by simp [new], by simp [new], by simp [new]⟩
    obtain ⟨b1, b2, b3⟩ := period_bounds c1._frequency h1 h2
    rw [← h3] at b1 b2 b3
    exact ⟨c1, e, h1, h2, h3, b1, b2, b3⟩
  · rcases c with ⟨p, fr, per, lt, st, en⟩
    by_cases hd : sub32 now lt ≥ per / 2 <;> cases en <;> cases st <;>
      simp [update, isRunning, hd]
  · rcases c with ⟨p, fr, per, lt, st, en⟩
    by_cases hd : sub32 now lt ≥ per / 2 <;> cases en <;> cases st <;>
      simp [update, hd]
  · rcases c with ⟨p, fr, per, lt, st, en⟩
    by_cases hd : sub32 now lt ≥ per / 2 <;> cases en <;> cases st <;>
      simp [update, hd]

/-- Witness of C27: at 1000 Hz (period 1000, half period 500), running since 0, `update` at 500
toggles the output. -/
theorem clock_frequency_invariant_witness :
    (new 5).applyAll [Op.begin 5000, Op.start 0] =
      some ⟨5, 1000, 1000, 0, false, true⟩ ∧
    ((⟨5, 1000, 1000, 0, false, true⟩ : ClockGenerator).update 500)._state = true :=
  ⟨by decide,
    ((clock_frequency_invariant ⟨5, 1000, 1000, 0, false, true⟩ 0 500 5 []).2.2.2.1).2
      ⟨by decide, by decide⟩⟩

end ClockGenerator

namespace AdvancedButton

/-! ## Release after an undetected long hold, and the first poll -/

/-- C28. Release after an undetected long hold: for every state with `longPressFired` false, an
`update` that accepts the release at a time with `(now - pressedTime) mod 2^32 >= longPressTime`
sets `released` and `longPress` together, sets `longPressFired`, clears `waitingSecondClick`,
leaves `lastReleaseTime` unchanged, and sets neither `singleClick` nor `doubleClick`. -/
theorem release_after_undetected_long_hold (s : AdvancedButton) (reading : Bool) (now : Nat)
    (hf : s.longPressFired = false)
    (hrel : (update s reading now).released = true)
    (hL : s.longPressTime ≤ sub32 now s.pressedTime) :
    (update s reading now).released = true ∧
    (update s reading now).longPress = true ∧
    (update s reading now).longPressFired = true ∧
    (update s reading now).waitingSecondClick = false ∧
    (update s reading now).lastReleaseTime = s.lastReleaseTime ∧
    (update s reading now).singleClick = false ∧
    (update s reading now).doubleClick = false ∧
    (update s reading now).pressed = false := by
  have hp := (edge_imp_promotes s reading now).2 hrel
  refine ⟨hrel, ?_⟩
  rw [update_of_promotes s reading now hp] at hrel ⊢
  rcases s with ⟨pin, up, lct, pt, lrt, st, lst, w, f, d, g, L, sc, dc, lp, pr, rl⟩
  simp only at hf hL
  subst hf
  cases hc : pressedAt up reading <;> cases hw : pressedAt up lst
  · simp [clickTimeout, holdCheck, clearFlags, edgeEvents, shortRelease, isPressed, hc, hw]
      at hrel
    revert hrel; split <;> simp
  · simp [clickTimeout, holdCheck, clearFlags, edgeEvents, shortRelease, isPressed, hc, hw, hL]
  · exfalso
    by_cases hL0 : L = 0 <;> cases w <;> by_cases hg : g < sub32 now lrt <;>
      simp [clickTimeout, holdCheck, clearFlags, edgeEvents, shortRelease, isPressed, hc, hw,
        hL0, hg, sub32_self] at hrel
  · simp [clickTimeout, holdCheck, clearFlags, edgeEvents, shortRelease, isPressed, hc, hw]
      at hrel
    revert hrel; (repeat' split) <;> simp

/-- Witness of C28: debounce 40, window 300, threshold 800, pull-up; pressed edge at 51, next
poll at 1000 with the idle level: `released` and `longPress` together. -/
theorem release_after_undetected_long_hold_witness :
    (pollAll (begin (new 2 true 40 300 800)) [(LOW, 51)]).pressed = true ∧
    (update (pollAll (begin (new 2 true 40 300 800)) [(LOW, 51)]) HIGH 1000).released = true ∧
    (update (pollAll (begin (new 2 true 40 300 800)) [(LOW, 51)]) HIGH 1000).longPress = true :=
  ⟨by decide, by decide,
    (release_after_undetected_long_hold (pollAll (begin (new 2 true 40 300 800)) [(LOW, 51)])
      HIGH 1000 (by decide) (by decide) (by decide)).2.1⟩

/-- C29 as stated fails. Debounce 40, window 300, threshold 800, pull-up, after construction and
`begin()`: a first poll at 50 with the sample `LOW` already promotes it, emitting `pressed` with
`pressedTime = 50` (the elapsed time is measured from `lastChangeTime = 0`, not from the raw
change at 10). -/
theorem first_poll_at_50_promotes :
    (update (begin (new 2 true 40 300 800)) LOW 50).pressed = true ∧
    (update (begin (new 2 true 40 300 800)) LOW 50).pressedTime = 50 ∧
    sub32 50 (begin (new 2 true 40 300 800)).lastChangeTime = 50 := by
  decide

/-- C29 amended. Debounce 40, window 300, threshold 800, pull-up, after construction and
`begin()`: a first poll at time `t` with the sample `LOW` emits `pressed` if and only if
`t > 40`, the elapsed time being measured from `lastChangeTime = 0`; it then sets
`pressedTime = t`. So a first poll at 40 does not promote, and first polls at 50 and at 51 emit
`pressed` with `pressedTime` 50 and 51. -/
theorem first_poll_promotes_after_window (t : Nat) (ht : t < 4294967296) :
    ((update (begin (new 2 true 40 300 800)) LOW t).pressed = true ↔ 40 < t) ∧
    (40 < t → (update (begin (new 2 true 40 300 800)) LOW t).pressedTime = t ∧
      (update (begin (new 2 true 40 300 800)) LOW t).isPressed = true) ∧
    (t ≤ 40 → (update (begin (new 2 true 40 300 800)) LOW t).isPressed = false) := by
  have hidle : Idle (begin (new 2 true 40 300 800)) := by decide
  obtain ⟨-, h2, -, h4⟩ := idle_step (begin (new 2 true 40 300 800)) LOW t hidle
  have hs : sub32 t 0 = t := sub32_eq_sub t 0 (Nat.zero_le _) ht
  have hp : promotes (begin (new 2 true 40 300 800)) LOW t = decide (40 < t) := by
    simp [promotes, begin, new, HIGH, LOW, hs]
  rw [hp] at h2
  refine ⟨?_, ?_, ?_⟩
  · rw [h2]; simp
  · intro h
    have hpr : (update (begin (new 2 true 40 300 800)) LOW t).pressed = true := by
      rw [h2]; simpa using h
    obtain ⟨k, -⟩ := pressed_step _ LOW t hpr
    exact ⟨k.2.2, k.1⟩
  · intro h
    have hpr : (update (begin (new 2 true 40 300 800)) LOW t).pressed = false := by
      rw [h2]; simp; omega
    exact ((h4 hpr).1).1

/-- Witness of C29 amended: the first poll at 51 emits `pressed` and sets `pressedTime = 51`. -/
theorem first_poll_promotes_after_window_witness :
    (update (begin (new 2 true 40 300 800)) LOW 51).pressed = true ∧
    (update (begin (new 2 true 40 300 800)) LOW 51).pressedTime = 51 :=
  ⟨(first_poll_promotes_after_window 51 (by decide)).1.2 (by decide),
    ((first_poll_promotes_after_window 51 (by decide)).2.1 (by decide)).1⟩

end AdvancedButton
